import Mathlib

/-!
# XML/XSD validation: a shallow embedding of the two script variants

Sources embedded here:

* `FW_test_val-function_xml-xsd_2_nocaching.js` (namespace `NoCaching`)
* `FW_test_val-function_xml-xsd_2.js` (namespace `Caching`)

JavaScript exceptions are values of `JsError` carried by `Except`; a `throw`
is `Except.error`, a `try`/`catch` is a `match` on the result.  The document
parser and the schema-validation primitive (`libxmljs`) are collaborators:
a parsed document is a tree of `XmlNode`s, and the verdict of
`xmlDoc.validate(xsdDoc)` is taken as a parameter.
-/

namespace XmlXsdVal

/-! ## Data model -/

/-- A parsed element of libxmljs: the URI of the namespace it is in (`none`: in no namespace),
`name()`, which is its local name, its attributes, what `text()` returns, and its child elements
in document order. -/
inductive XmlNode where
  | mk (ns : Option String) (name : String) (attrs : List (String × String)) (text : String)
      (children : List XmlNode)

namespace XmlNode

/-- The URI of the namespace of the element, `none` for an element in no namespace. -/
def ns : XmlNode → Option String
  | .mk u _ _ _ _ => u

/-- The element name, `element.name()`: the local name, without prefix. -/
def name : XmlNode → String
  | .mk _ n _ _ _ => n

/-- The attribute list of the element. -/
def attrs : XmlNode → List (String × String)
  | .mk _ _ a _ _ => a

/-- The text content, `element.text()`. -/
def text : XmlNode → String
  | .mk _ _ _ t _ => t

/-- The child elements in document order: what the XPath engine walks and `childNodes()`
lists. -/
def children : XmlNode → List XmlNode
  | .mk _ _ _ _ cs => cs

/-- The value of the attribute called `key`, or `none` (JavaScript `null`) when it is absent. -/
def attr (n : XmlNode) (key : String) : Option String :=
  (n.attrs.find? (fun p => p.1 == key)).map Prod.snd

end XmlNode

/-- A parsed document (`xmlDoc`, `xsdDoc`): `root()` is its root element. -/
structure XmlDocument where
  root : XmlNode

mutual
/-- An element followed by all its descendants, in document order. -/
def descendantsOrSelf : XmlNode → List XmlNode
  | .mk u n a t cs => XmlNode.mk u n a t cs :: descendantsOfList cs
/-- The elements of a forest with all their descendants, in document order. -/
def descendantsOfList : List XmlNode → List XmlNode
  | [] => []
  | c :: cs => descendantsOrSelf c ++ descendantsOfList cs
end

/-- The namespace of XML Schema, to which the scripts bind the prefix `xs`. -/
def xsNamespace : String := "http://www.w3.org/2001/XMLSchema"

/-- The XPath query `//tag` of `doc.find`, with the unprefixed name test `tag`: every element of
the document with that local name that is in no namespace, in document order.  An element in a
namespace, be it a default namespace or a prefixed one, is not selected. -/
def findAll (doc : XmlDocument) (tag : String) : List XmlNode :=
  (descendantsOrSelf doc.root).filter (fun n => n.name == tag && n.ns == none)

/-- The length of a JavaScript string: its number of UTF-16 code units. -/
def jsLength (s : String) : Nat :=
  (s.data.map (fun c => if c.toNat < 65536 then 1 else 2)).sum

/-- One diagnostic of the schema-validation primitive, with the fields the scripts read. -/
structure Diagnostic where
  message : String
  nodeName : String
  lineNumber : Nat
  columnNumber : Nat
deriving DecidableEq, Repr

/-- What `xmlDoc.validate(xsdDoc)` leaves behind: its boolean and `xmlDoc.validationErrors`. -/
structure PrimitiveResult where
  isValid : Bool
  validationErrors : List Diagnostic
deriving DecidableEq, Repr

/-- The schema-validation primitive: document, then schema. -/
abbrev Primitive := XmlDocument → XmlDocument → PrimitiveResult

/-- An instance of `class ValidationError`: the message and the fields its constructor and
`populateDetails` set (a field holding `undefined` is `none`). -/
structure ValidationErrorData where
  message : String
  code : Option String
  level : Option String
  line : Option Nat
  column : Option Nat
  domain : Option String
  source : Option String
  expectedType : Option (Option String)
deriving DecidableEq, Repr

/-- An entry of `SchemaValidationException.errors`: a raw diagnostic (caching variant) or a
`ValidationError` built from one (no-caching variant). -/
inductive ErrorItem where
  | raw (d : Diagnostic)
  | wrapped (v : ValidationErrorData)
deriving DecidableEq, Repr

/-- The values the scripts throw. -/
inductive JsError where
  | referenceError (message : String)
  | typeError (message : String)
  | validationError (v : ValidationErrorData)
  | schemaValidationException (message : String) (errors : List ErrorItem)
  | customValidationException (message : String)
  | elementOrderException (message : String)
  | syntaxError (message : String)
deriving DecidableEq, Repr

namespace JsError

/-- The `message` property of a thrown value. -/
def message : JsError → String
  | referenceError m => m
  | typeError m => m
  | validationError v => v.message
  | schemaValidationException m _ => m
  | customValidationException m => m
  | elementOrderException m => m
  | syntaxError m => m

/-- The `code` property of a thrown value: only `ValidationError` instances define one. -/
def code : JsError → Option String
  | validationError v => v.code
  | _ => none

end JsError

/-- A plain-object order map `elementOrderMap`: its own properties, in insertion order.  An entry
is the array of expected child names (`null` where a `name` attribute was absent). -/
abbrev OrderMap := List (String × List (Option String))

/-- The members every plain object inherits from `Object.prototype`, each with the value of its
own `length` property (`none` where it has none: `__proto__` is an object, not a function). -/
def objectPrototypeMembers : List (String × Option Nat) :=
  [("constructor", some 1), ("__defineGetter__", some 2), ("__defineSetter__", some 2),
   ("hasOwnProperty", some 1), ("__lookupGetter__", some 1), ("__lookupSetter__", some 1),
   ("isPrototypeOf", some 1), ("propertyIsEnumerable", some 1), ("toString", some 0),
   ("valueOf", some 0), ("__proto__", none), ("toLocaleString", some 0)]

/-- The result of the property read `elementOrderMap[key]`: an own array, a member inherited from
`Object.prototype` (kept with its `length`), or `undefined`. -/
inductive Lookup where
  | own (order : List (Option String))
  | inherited (length : Option Nat)
  | undefined
deriving DecidableEq, Repr

/-- The property read `elementOrderMap[key]`: an own entry, else a member inherited from
`Object.prototype`, else `undefined`. -/
def lookup (m : OrderMap) (key : String) : Lookup :=
  match m.find? (fun p => p.1 == key) with
  | some p => .own p.2
  | none =>
    match objectPrototypeMembers.find? (fun p => p.1 == key) with
    | some p => .inherited p.2
    | none => .undefined

/-- Indexing `expectedOrder[i]` on what a lookup returned; `none` is `undefined`.  A member
inherited from `Object.prototype` has no indexed elements. -/
def Lookup.index : Lookup → Nat → Option (Option String)
  | .own order, i => order.get? i
  | _, _ => none

/-- The comparison `currentPosition >= expectedOrder.length`; it is false when `length` is
`undefined`. -/
def Lookup.exhaustedAt : Lookup → Nat → Bool
  | .own order, i => decide (order.length ≤ i)
  | .inherited (some n), i => decide (n ≤ i)
  | _, _ => false

/-- Reading a `const` binding of a function body.  The binding exists from the start of the body
but holds no value (`none`) until its declaration has been evaluated; reading it earlier throws. -/
def readBinding (name : String) (binding : Option String) : Except JsError String :=
  match binding with
  | some v => .ok v
  | none => .error (.referenceError ("Cannot access '" ++ name ++ "' before initialization"))

/-- The method `Array.prototype.map` with a callback that may throw: the callback runs on the
elements in order and the first throw ends the call. -/
def mapExcept {α β : Type} (f : α → Except JsError β) : List α → Except JsError (List β)
  | [] => .ok []
  | a :: rest =>
    match f a with
    | .error e => .error e
    | .ok b =>
      match mapExcept f rest with
      | .error e => .error e
      | .ok bs => .ok (b :: bs)

/-- The call `doc.getElementsByTagName(tag)`.  A document parsed by libxmljs is queried with
`find` and `get` and has no member `getElementsByTagName`, so the call throws. -/
def getElementsByTagName (_doc : XmlDocument) (_tag : String) :
    Except JsError (List XmlNode) :=
  .error (.typeError "xmlDoc.getElementsByTagName is not a function")

/-- The member `children` of a parsed element as the call `element.children()` finds it.  An
element of libxmljs lists its children with `childNodes()` and has no member `children`, so the
call throws before anything is iterated (`.ok` would be a callable member). -/
def XmlNode.childrenMember : Except JsError Unit :=
  .error (.typeError "element.children is not a function")

/-- The name test `xs:name` of an XPath query with the prefix `xs` bound to the namespace of XML
Schema. -/
def XmlNode.isXs (element : XmlNode) (name : String) : Bool :=
  element.name == name && element.ns == some xsNamespace

/-- The call `element.get(name)` with an unprefixed name: the first child element with that
local name that is in no namespace, or `undefined`. -/
def XmlNode.get (element : XmlNode) (name : String) : Option XmlNode :=
  element.children.find? (fun child => child.name == name && child.ns == none)

/-- A string-or-`null` value as a template literal prints it. -/
def jsString : Option String → String
  | some s => s
  | none => "null"

/-- An entry of a class record: the own fields copied from the thrown value by `...error`, and the
`message` the formatter chose. -/
structure FormattedError where
  error : JsError
  message : String
deriving DecidableEq, Repr

/-- A per-class record `{ name, isValid, errors }`. -/
structure ClassResult where
  name : String
  isValid : Bool
  errors : List FormattedError
deriving DecidableEq, Repr

/-- The value `validateXML` returns: `{ isValid, results }`. -/
structure Outcome where
  isValid : Bool
  results : List ClassResult
deriving DecidableEq, Repr

namespace NoCaching

mutual
/-- The function `validateElementOrderHelper(element, expectedOrder, currentPosition)`,
lines 1069-1094. -/
def validateElementOrderHelper : XmlNode → Lookup → Nat → Except JsError Bool
  | .mk _ name _ _ children, expectedOrder, currentPosition =>
    -- `const currentElementName` is declared on line 1079; line 1071 reads it first
    let currentElementName : Option String := none
    match readBinding "currentElementName" currentElementName with
    | .error e => .error e
    | .ok read =>
      if some (some read) ≠ expectedOrder.index currentPosition then
        .error (.elementOrderException ("Element order violation at element: " ++ name))
      else
        match XmlNode.childrenMember with
        | .error e => .error e
        | .ok _ =>
          if children.length = 0 ∨ expectedOrder.exhaustedAt currentPosition = true then
            .ok true
          else
            let currentElementName : Option String := some name
            match readBinding "currentElementName" currentElementName with
            | .error e => .error e
            | .ok read =>
              if some (some read) ≠ expectedOrder.index currentPosition then
                .ok false
              else
                validateElementOrderChildren children expectedOrder currentPosition
/-- The loop of lines 1087-1091 over `element.children()`. -/
def validateElementOrderChildren : List XmlNode → Lookup → Nat → Except JsError Bool
  | [], _, _ => .ok true
  | child :: rest, expectedOrder, currentPosition =>
    match validateElementOrderHelper child expectedOrder (currentPosition + 1) with
    | .error e => .error e
    | .ok false => .ok false
    | .ok true => validateElementOrderChildren rest expectedOrder currentPosition
end

/-- The function `validateElementOrder(xmlDoc, elementOrderMap)`, lines 1059-1065: the later of
the two declarations of that name, hence the one the script binds. -/
def validateElementOrder (xmlDoc : XmlDocument) (elementOrderMap : OrderMap) :
    Except JsError Unit :=
  let rootElement := xmlDoc.root
  let expectedOrder := lookup elementOrderMap rootElement.name
  if expectedOrder = .undefined then
    .ok ()
  else
    match validateElementOrderHelper rootElement expectedOrder 0 with
    | .error e => .error e
    | .ok false =>
      .error (.validationError
        ⟨"Element order violation", none, none, none, none, none, none, none⟩)
    | .ok true => .ok ()

/-- The node set of the XPath query of line 977,
`/xs:schema/xs:element[@name="sequence"]/xs:sequence/xs:element`, with `xs` bound to the
namespace of XML Schema (lines 973-975), in document order; each match comes with
`element.parent().parent().name()`. -/
def sequenceElements (xsdDoc : XmlDocument) : List (XmlNode × String) :=
  if xsdDoc.root.isXs "schema" then
    (xsdDoc.root.children.filter
        (fun e => e.isXs "element" && e.attr "name" == some "sequence")).flatMap
      (fun e => (e.children.filter (fun q => q.isXs "sequence")).flatMap
        (fun q => (q.children.filter (fun c => c.isXs "element")).map
          (fun c => (c, e.name))))
  else []

/-- One round of the `forEach` of lines 979-988: create the entry of `parentName` when the read
`elementOrderMap[parentName]` is falsy, then `push` the element name onto it. -/
def recordElement (elementOrderMap : OrderMap) (parentName : String)
    (elementName : Option String) : Except JsError OrderMap :=
  match lookup elementOrderMap parentName with
  | .undefined => .ok (elementOrderMap ++ [(parentName, [elementName])])
  | .own _ =>
    .ok (elementOrderMap.map
      (fun p => if p.1 = parentName then (p.1, p.2 ++ [elementName]) else p))
  | .inherited _ => .error (.typeError "elementOrderMap[parentName].push is not a function")

/-- The `forEach` of lines 979-988 over the matched elements. -/
def recordElements : OrderMap → List (XmlNode × String) → Except JsError OrderMap
  | elementOrderMap, [] => .ok elementOrderMap
  | elementOrderMap, (element, parentName) :: rest =>
    match recordElement elementOrderMap parentName (element.attr "name") with
    | .error e => .error e
    | .ok next => recordElements next rest

/-- The function `extractElementOrderFromXsd(xsdDoc)`, lines 966-996; its `catch` logs and
rethrows. -/
def extractElementOrderFromXsd (xsdDoc : XmlDocument) : Except JsError OrderMap :=
  recordElements [] (sequenceElements xsdDoc)

/-- The callback of the `map` of lines 1005-1036: wrap one diagnostic into a `ValidationError`.
Its first statement calls `xmlDoc.getElementsByTagName`. -/
def wrapDiagnostic (xmlDoc xsdDoc : XmlDocument) (error : Diagnostic) : Except JsError ErrorItem :=
  match getElementsByTagName xmlDoc error.nodeName with
  | .error e => .error e
  | .ok found =>
    let element := found.head?
    match getElementsByTagName xsdDoc error.nodeName with
    | .error e => .error e
    | .ok declarations =>
      match declarations.head? with
      | none => .error (.typeError "Cannot read properties of undefined (reading 'getAttribute')")
      | some declaration =>
        let expectedType := declaration.attr "type"
        match element with
        | none => .error (.typeError "Cannot read properties of undefined (reading 'nodeName')")
        | some element =>
          .ok (.wrapped
            { message := "\n          Element \"" ++ element.name ++ "\" ist ungültig."
                ++ "\n          Erwarteter Datentyp: \"" ++ jsString expectedType ++ "\""
                ++ "\n          Fehlermeldung: " ++ error.message ++ "\n        "
              code := some "schemaValidationError"
              level := some "error"
              line := some error.lineNumber
              column := some error.columnNumber
              domain := some "validation"
              source := none
              expectedType := some expectedType })

/-- The function `validateAgainstSchema(xmlDoc, xsdDoc)`, lines 1001-1041. -/
def validateAgainstSchema (validate : Primitive) (xmlDoc xsdDoc : XmlDocument) :
    Except JsError Bool :=
  let isValid := (validate xmlDoc xsdDoc).isValid
  if !isValid then
    match mapExcept (wrapDiagnostic xmlDoc xsdDoc) (validate xmlDoc xsdDoc).validationErrors with
    | .error e => .error e
    | .ok validationErrors =>
      .error (.schemaValidationException "Schema validation failed" validationErrors)
  else
    .ok isValid

/-- The `for` loop of lines 1047-1052 over the title elements. -/
def checkTitles : List XmlNode → Except JsError Unit
  | [] => .ok ()
  | titleElement :: rest =>
    let titleText := titleElement.text
    if jsLength titleText ≤ 10 then
      .error (.customValidationException "Title length must be greater than 10 characters")
    else
      checkTitles rest

/-- The function `validateCustomRules(xmlDoc)`, lines 1045-1055. -/
def validateCustomRules (xmlDoc : XmlDocument) : Except JsError Unit :=
  let titleElements := findAll xmlDoc "title"
  checkTitles titleElements

/-- The callback of the `map` in `formatValidationErrors`, lines 1170-1196.  No thrown value has a
`location` property, so the `schemaValidationError` branch fails on `error.location.line`. -/
def formatValidationError (error : JsError) : Except JsError FormattedError :=
  if error.code = some "schemaValidationError" then
    .error (.typeError "Cannot read properties of undefined (reading 'line')")
  else if error.code = some "customValidationError" then
    .ok ⟨error, "Custom validation error: " ++ error.message⟩
  else if error.code = some "elementOrderError" then
    .ok ⟨error, "Element order error: Expected elements in a different order."⟩
  else
    .ok ⟨error, "Unknown error: " ++ error.message⟩

/-- The function `formatValidationErrors(errors)`, lines 1169-1197. -/
def formatValidationErrors (errors : List JsError) : Except JsError (List FormattedError) :=
  mapExcept formatValidationError errors

/-- The function `handleError(err)`, lines 1297-1319: it only writes to the console. -/
def handleError (_err : JsError) : Unit := ()

/-- The order class as `validateXML` runs it, lines 1142-1143. -/
def elementOrderValidation (xmlDoc xsdDoc : XmlDocument) : Except JsError Unit :=
  match extractElementOrderFromXsd xsdDoc with
  | .error e => .error e
  | .ok elementOrderMap => validateElementOrder xmlDoc elementOrderMap

/-- A `try`/`catch` block of `validateXML` (lines 1104-1117, 1120-1133, 1136-1150): the record
starts valid and empty; the `catch` marks it failed, appends the formatted error and logs.  A
throw inside the `catch` leaves `validateXML` through its outer handler, which rethrows. -/
def runClass (name : String) (attempt : Except JsError Unit) : Except JsError ClassResult :=
  match attempt with
  | .ok _ => .ok ⟨name, true, []⟩
  | .error error =>
    match formatValidationErrors [error] with
    | .error e => .error e
    | .ok formattedErrors =>
      let _ := handleError error
      .ok ⟨name, false, [] ++ formattedErrors⟩

/-- The function `validateXML(validationData)`, lines 1098-1165. -/
def validateXML (validate : Primitive) (xmlDoc xsdDoc : XmlDocument) : Except JsError Outcome :=
  let validationResults : List ClassResult := []
  match runClass "schemaValidation"
      ((validateAgainstSchema validate xmlDoc xsdDoc).map (fun _ => ())) with
  | .error e => .error e
  | .ok schemaValidationResult =>
    let validationResults := validationResults ++ [schemaValidationResult]
    match runClass "customValidation" (validateCustomRules xmlDoc) with
    | .error e => .error e
    | .ok customValidationResult =>
      let validationResults := validationResults ++ [customValidationResult]
      match runClass "elementOrderValidation" (elementOrderValidation xmlDoc xsdDoc) with
      | .error e => .error e
      | .ok elementOrderValidationResult =>
        let validationResults := validationResults ++ [elementOrderValidationResult]
        let overallSuccess := validationResults.all (fun result => result.isValid)
        .ok ⟨overallSuccess, validationResults⟩

end NoCaching

namespace Caching

/-- The function `validateAgainstSchema(xmlDoc, xsdDoc)` of the caching variant, lines 775-783. -/
def validateAgainstSchema (validate : Primitive) (xmlDoc xsdDoc : XmlDocument) :
    Except JsError Bool :=
  let isValid := (validate xmlDoc xsdDoc).isValid
  if !isValid then
    .error (.schemaValidationException "Schema validation failed"
      ((validate xmlDoc xsdDoc).validationErrors.map ErrorItem.raw))
  else
    .ok isValid

/-- The `for` loop of lines 788-793 over the title elements. -/
def checkTitles : List XmlNode → Except JsError Unit
  | [] => .ok ()
  | titleElement :: rest =>
    let titleText := titleElement.text
    if jsLength titleText ≤ 10 then
      .error (.customValidationException "Title length must be greater than 10 characters")
    else
      checkTitles rest

/-- The function `validateCustomRules(xmlDoc)` of the caching variant, lines 786-796. -/
def validateCustomRules (xmlDoc : XmlDocument) : Except JsError Unit :=
  let titleElements := findAll xmlDoc "title"
  checkTitles titleElements

end Caching

/-! ## Facet validators and the schema cache -/

/-- The length in UTF-16 code units of a string given by its characters. -/
def utf16Length (cs : List Char) : Nat :=
  (cs.map (fun c => if c.toNat < 65536 then 1 else 2)).sum

/-- The characters `parseInt` and `parseFloat` skip at the start of their argument: white space
and line terminators. -/
def isStrWhiteSpace (c : Char) : Bool :=
  [9, 10, 11, 12, 13, 32, 160, 5760, 8192, 8193, 8194, 8195, 8196, 8197, 8198, 8199, 8200,
   8201, 8202, 8232, 8233, 8239, 8287, 12288, 65279].contains c.toNat

/-- Dropping one leading sign. -/
def dropSign : List Char → List Char
  | '+' :: rest => rest
  | '-' :: rest => rest
  | cs => cs

/-- A digit of radix 16. -/
def isHexDigit (c : Char) : Bool :=
  c.isDigit || ('a' ≤ c && c ≤ 'f') || ('A' ≤ c && c ≤ 'F')

/-- The test `isNaN(parseInt(s))`.  Without a radix `parseInt` skips white space and a sign,
reads `0x`/`0X` as the mark of radix 16, and takes the longest run of digits of the radix; the
result is `NaN` exactly when that run is empty. -/
def parseIntIsNaN (s : String) : Bool :=
  match dropSign (s.data.dropWhile isStrWhiteSpace) with
  | '0' :: 'x' :: rest => !(rest.head?.map isHexDigit).getD false
  | '0' :: 'X' :: rest => !(rest.head?.map isHexDigit).getD false
  | c :: _ => !c.isDigit
  | [] => true

/-- The test `isNaN(parseFloat(s))`.  After white space and a sign `parseFloat` takes the longest
prefix that is a decimal literal; the result is `NaN` exactly when there is none, that is when
what follows is neither a digit, nor a point and a digit, nor `Infinity`. -/
def parseFloatIsNaN (s : String) : Bool :=
  match dropSign (s.data.dropWhile isStrWhiteSpace) with
  | '.' :: c :: _ => !c.isDigit
  | c :: rest => !(c.isDigit || "Infinity".data.isPrefixOf (c :: rest))
  | [] => true

/-- The pieces of `text.split('.')`. -/
def splitDot : List Char → List (List Char)
  | [] => [[]]
  | c :: rest =>
    match splitDot rest with
    | [] => [[]]
    | piece :: pieces => if c = '.' then [] :: piece :: pieces else (c :: piece) :: pieces

/-- The call `new RegExp(pattern).test(value)` of the JavaScript runtime: pattern first, then
value; an `error` is the SyntaxError of a pattern that does not compile. -/
abbrev RegExpTest := String → String → Except JsError Bool

/-- An entry of `validationResults` as the facet validators push it. -/
structure Violation where
  type : String
  level : Nat
  message : String
  element : Option XmlNode
  category : String

/-- The facets of a simple type, `simpleType.restrictions`; an absent facet is `none`. -/
structure Restrictions where
  minInclusive : Option String := none
  maxInclusive : Option String := none
  minLength : Option Nat := none
  maxLength : Option Nat := none
  pattern : Option String := none
  totalDigits : Option Nat := none
  fractionDigits : Option Nat := none

/-- A simple type of the schema model: `{ base, restrictions }`, either of which may be absent. -/
structure SimpleType where
  base : Option String := none
  restrictions : Option Restrictions := none

/-- The read of an identifier that no enclosing scope declares. -/
def unresolvable (name : String) : JsError :=
  .referenceError (name ++ " is not defined")

namespace NoCaching

/-- The function `validateInteger(elementValue, simpleType, validationResults)`, lines 405-417.
The object literal handed to `push` reads `element`, which is neither a parameter nor a global;
the function has no `return` on its other path, so its value there is `undefined` (`none`). -/
def validateInteger (elementValue : String) (_simpleType : SimpleType)
    (validationResults : List Violation) : Except JsError (Option Bool × List Violation) :=
  if parseIntIsNaN elementValue then
    .error (unresolvable "element")
  else
    .ok (none, validationResults)

/-- The function `validateString(elementValue, simpleType, validationResults, element)`,
lines 420-457. -/
def validateString (regExpTest : RegExpTest) (elementValue : String) (simpleType : SimpleType)
    (validationResults : List Violation) (element : Option XmlNode) :
    Except JsError (Bool × List Violation) :=
  let restrictions := simpleType.restrictions.getD {}
  if restrictions.minLength.any (fun minLength => jsLength elementValue < minLength) then
    .ok (false, validationResults ++
      [⟨"error", 2, "String length is less than minimum allowed length "
          ++ toString (restrictions.minLength.getD 0), element, "dataTypeValidationError"⟩])
  else if restrictions.maxLength.any (fun maxLength => maxLength < jsLength elementValue) then
    .ok (false, validationResults ++
      [⟨"error", 2, "String length exceeds maximum allowed length "
          ++ toString (restrictions.maxLength.getD 0), element, "dataTypeValidationError"⟩])
  else
    match restrictions.pattern with
    | none => .ok (true, validationResults)
    | some pattern =>
      match regExpTest pattern elementValue with
      | .error e => .error e
      | .ok true => .ok (true, validationResults)
      | .ok false =>
        .ok (false, validationResults ++
          [⟨"error", 2, "String does not match pattern " ++ pattern, element,
            "dataTypeValidationError"⟩])

/-- The function `validateDecimal(elementValue, simpleType, validationResults, element)`,
lines 462-507. -/
def validateDecimal (elementValue : String) (simpleType : SimpleType)
    (validationResults : List Violation) (element : Option XmlNode) :
    Bool × List Violation :=
  if parseFloatIsNaN elementValue then
    (false, validationResults ++
      [⟨"error", 2, "Value '" ++ elementValue ++ "' is not a valid decimal number", element,
        "dataTypeValidationError"⟩])
  else
    let restrictions := simpleType.restrictions.getD {}
    let totalDigitsCount := jsLength elementValue
    if restrictions.totalDigits.any (fun totalDigits => totalDigits < totalDigitsCount) then
      (false, validationResults ++
        [⟨"error", 2, "Decimal value exceeds maximum total digits "
            ++ toString (restrictions.totalDigits.getD 0), element, "dataTypeValidationError"⟩])
    else
      let decimalPart := ((splitDot elementValue.data).get? 1).getD []
      if restrictions.fractionDigits.any
          (fun fractionDigits => fractionDigits < utf16Length decimalPart) then
        (false, validationResults ++
          [⟨"error", 2, "Decimal value exceeds maximum fraction digits "
              ++ toString (restrictions.fractionDigits.getD 0), element,
            "dataTypeValidationError"⟩])
      else
        (true, validationResults)

/-- The function `validateBoolean(elementValue, simpleType, validationResults)`, lines 510-523.
The object literal handed to `push` reads `element`, which is neither a parameter nor a
global. -/
def validateBoolean (elementValue : String) (_simpleType : SimpleType)
    (validationResults : List Violation) : Except JsError (Bool × List Violation) :=
  if elementValue ≠ "true" ∧ elementValue ≠ "false" then
    .error (unresolvable "element")
  else
    .ok (true, validationResults)

end NoCaching

namespace Caching

/-- The function `validateInteger(elementValue, simpleType, validationResults)` of the caching
variant, lines 433-444; as in the other variant `element` is not in scope and the accepting path
returns nothing. -/
def validateInteger (elementValue : String) (_simpleType : SimpleType)
    (validationResults : List Violation) : Except JsError (Option Bool × List Violation) :=
  if parseIntIsNaN elementValue then
    .error (unresolvable "element")
  else
    .ok (none, validationResults)

/-- The function `validateString(elementValue, simpleType, validationResults)` of the caching
variant, lines 456-469.  The three conditions are evaluated and their bodies are empty;
`simpleType.restrictions` is read without a guard, and a falsy facet (absent, `0`, the empty
pattern) cuts its condition short. -/
def validateString (regExpTest : RegExpTest) (elementValue : String) (simpleType : SimpleType)
    (validationResults : List Violation) : Except JsError (Bool × List Violation) :=
  match simpleType.restrictions with
  | none => .error (.typeError "Cannot read properties of undefined (reading 'minLength')")
  | some restrictions =>
    match restrictions.pattern with
    | none => .ok (true, validationResults)
    | some pattern =>
      if pattern = "" then
        .ok (true, validationResults)
      else
        match regExpTest pattern elementValue with
        | .error e => .error e
        | .ok _ => .ok (true, validationResults)

/-- The function `validateDecimal(elementValue, simpleType, validationResults)` of the caching
variant, lines 473-496.  The rejecting path reads `element`, which is not in scope; the two facet
conditions have empty bodies, and the second reads `.length` of `split('.')[1]` whenever
`fractionDigits` is truthy. -/
def validateDecimal (elementValue : String) (simpleType : SimpleType)
    (validationResults : List Violation) : Except JsError (Bool × List Violation) :=
  if parseFloatIsNaN elementValue then
    .error (unresolvable "element")
  else
    match simpleType.restrictions with
    | none => .error (.typeError "Cannot read properties of undefined (reading 'totalDigits')")
    | some restrictions =>
      if restrictions.fractionDigits.any (fun fractionDigits => fractionDigits ≠ 0) then
        match (splitDot elementValue.data).get? 1 with
        | none => .error (.typeError "Cannot read properties of undefined (reading 'length')")
        | some _ => .ok (true, validationResults)
      else
        .ok (true, validationResults)

/-- The function `validateBoolean(elementValue, simpleType, validationResults)` of the caching
variant, lines 499-512; as in the other variant `element` is not in scope. -/
def validateBoolean (elementValue : String) (_simpleType : SimpleType)
    (validationResults : List Violation) : Except JsError (Bool × List Violation) :=
  if elementValue ≠ "true" ∧ elementValue ≠ "false" then
    .error (unresolvable "element")
  else
    .ok (true, validationResults)

/-- A value of `XsdCache.cache`: `{ doc, timestamp }`. -/
structure CacheEntry (α : Type) where
  doc : α
  timestamp : Int

/-- An instance of `class XsdCache`, lines 39-63.  The field `cache` is a plain object: `cache`
lists its own properties, and `proto` is the entry an assignment to the key `__proto__` has
installed as its prototype (`none`: still `Object.prototype`).  Documents are taken to have no
`timestamp` property of their own. -/
structure XsdCache (α : Type) where
  cache : List (String × CacheEntry α)
  proto : Option (CacheEntry α)
  cacheExpiration : Int

namespace XsdCache

/-- The `constructor`, lines 41-44. -/
def new {α : Type} : XsdCache α :=
  ⟨[], none, 60 * 60 * 1000⟩

/-- The read `this.cache[xsdPath]` when it yields an entry.  Every other value it can yield (a
member of `Object.prototype`, a property of an installed prototype) has no `timestamp`, so the
comparison in `get` is false for it. -/
def entry {α : Type} (c : XsdCache α) (xsdPath : String) : Option (CacheEntry α) :=
  if xsdPath = "__proto__" then c.proto
  else (c.cache.find? (fun p => p.1 == xsdPath)).map Prod.snd

/-- The method `get(xsdPath)`, lines 46-51, with the reading `now` of `Date.now()`;
`none` is `null`. -/
def get {α : Type} (c : XsdCache α) (xsdPath : String) (now : Int) : Option α :=
  match c.entry xsdPath with
  | some e => if now - e.timestamp < c.cacheExpiration then some e.doc else none
  | none => none

/-- The method `set(xsdPath, xsdDoc)`, lines 53-58, with the reading `now` of `Date.now()`. -/
def set {α : Type} (c : XsdCache α) (xsdPath : String) (xsdDoc : α) (now : Int) : XsdCache α :=
  if xsdPath = "__proto__" then
    { c with proto := some ⟨xsdDoc, now⟩ }
  else if c.cache.any (fun p => p.1 == xsdPath) then
    { c with
      cache := (c.cache.map (fun p => if p.1 = xsdPath then (p.1, ⟨xsdDoc, now⟩) else p)) }
  else
    { c with cache := c.cache ++ [(xsdPath, ⟨xsdDoc, now⟩)] }

end XsdCache

end Caching

/-! ## Cache invalidation, memoised loading, grouping and rendering, the schema walk -/

namespace Caching

namespace XsdCache

/-- The method `invalidate(xsdPath)`, lines 60-62: `delete this.cache[xsdPath]`.  The operator
removes an own property; for the key `__proto__`, which is never an own property, it does
nothing. -/
def invalidate {α : Type} (c : XsdCache α) (xsdPath : String) : XsdCache α :=
  { c with cache := (c.cache.filter (fun p => p.1 != xsdPath)) }

end XsdCache

/-- What `getXsdDoc` hands back: a parsed document, or the member `doc` of one. -/
inductive Fetched where
  | document (xsdDoc : XmlDocument)
  | docMember

/-- The property read `cachedXsd.doc` on a parsed document: the member `doc` that the document
inherits from its prototype, a function, and not a parsed document. -/
def docProperty (_cachedXsd : XmlDocument) : Fetched :=
  .docMember

/-- The function `getXsdDoc(xsdPath)`, lines 256-271, on the cache `xsdCache`.  Reading the file
(`load`) and `parseXsd` (`parse`) are collaborators; `now` and `later` are the readings of
`Date.now()` inside `get` and inside `set`.  The result is what the call returns or throws, and
the cache after the call. -/
def getXsdDoc (load : String → Except JsError String)
    (parse : String → Except JsError XmlDocument) (xsdCache : XsdCache XmlDocument)
    (xsdPath : String) (now later : Int) :
    Except JsError Fetched × XsdCache XmlDocument :=
  match xsdCache.get xsdPath now with
  | some cachedXsd => (.ok (docProperty cachedXsd), xsdCache)
  | none =>
    match load xsdPath with
    | .error e => (.error e, xsdCache)
    | .ok xsdString =>
      match parse xsdString with
      | .error e => (.error e, xsdCache)
      | .ok xsdDoc => (.ok (.document xsdDoc), xsdCache.set xsdPath xsdDoc later)

mutual
/-- The function `validateElementOrderHelper(element, expectedOrder, currentPosition)` of the
caching variant, lines 808-833; the same text as in the other variant. -/
def validateElementOrderHelper : XmlNode → Lookup → Nat → Except JsError Bool
  | .mk _ name _ _ children, expectedOrder, currentPosition =>
    -- `const currentElementName` is declared on line 818; line 810 reads it first
    let currentElementName : Option String := none
    match readBinding "currentElementName" currentElementName with
    | .error e => .error e
    | .ok read =>
      if some (some read) ≠ expectedOrder.index currentPosition then
        .error (.elementOrderException ("Element order violation at element: " ++ name))
      else
        match XmlNode.childrenMember with
        | .error e => .error e
        | .ok _ =>
          if children.length = 0 ∨ expectedOrder.exhaustedAt currentPosition = true then
            .ok true
          else
            let currentElementName : Option String := some name
            match readBinding "currentElementName" currentElementName with
            | .error e => .error e
            | .ok read =>
              if some (some read) ≠ expectedOrder.index currentPosition then
                .ok false
              else
                validateElementOrderChildren children expectedOrder currentPosition
/-- The loop of lines 826-830 over `element.children()`. -/
def validateElementOrderChildren : List XmlNode → Lookup → Nat → Except JsError Bool
  | [], _, _ => .ok true
  | child :: rest, expectedOrder, currentPosition =>
    match validateElementOrderHelper child expectedOrder (currentPosition + 1) with
    | .error e => .error e
    | .ok false => .ok false
    | .ok true => validateElementOrderChildren rest expectedOrder currentPosition
end

end Caching

/-- A value as a template literal prints it when it may be `undefined`. -/
def jsText : Option String → String
  | some s => s
  | none => "undefined"

/-- The `location` of a record handed to `generateOutput`; a number is given by its decimal
text. -/
structure ErrorLocation where
  file : Option String := none
  line : Option String := none
  column : Option String := none
deriving DecidableEq, Repr

/-- A record handed to `generateOutput`, with the fields the report functions read; an absent
field is `none`. -/
structure ErrorRecord where
  errorType : Option String := none
  category : Option String := none
  level : Option String := none
  message : Option String := none
  location : Option ErrorLocation := none
deriving DecidableEq, Repr

/-- A value of `groupedErrors`: `{ count, errors }`. -/
structure ErrorGroup where
  count : Nat
  errors : List ErrorRecord
deriving DecidableEq, Repr

/-- The object `groupedErrors`, as the list of its entries in the order `for...in` visits them.
A group key has the form `type-location`; as it contains `-` it is neither an array index nor the
name of a member of `Object.prototype`, so the order is the order of insertion and a read of a
key that was not inserted is `undefined`. -/
abbrev GroupedErrors := List (String × ErrorGroup)

/-- The body of the grouping loop (lines 1230-1237; 179-186 in the caching variant): create the
group of `groupKey` when there is none, then count the record and append it. -/
def addToGroup (groupedErrors : GroupedErrors) (groupKey : String) (error : ErrorRecord) :
    GroupedErrors :=
  if groupedErrors.any (fun p => p.1 == groupKey) then
    groupedErrors.map
      (fun p => if p.1 = groupKey then (p.1, ⟨p.2.count + 1, p.2.errors ++ [error]⟩) else p)
  else
    groupedErrors ++ [(groupKey, ⟨0 + 1, [] ++ [error]⟩)]

/-- The method `Array.prototype.join` with the separator `'\n'`. -/
def joinLines : List String → String
  | [] => ""
  | [entry] => entry
  | entry :: next :: rest => entry ++ "\n" ++ joinLines (next :: rest)

namespace NoCaching

/-- The key of lines 1226-1229: `errorType` or, when that is falsy, `unknownError`; then the
location as `file:line:column` or, when `location` is falsy, `unknownLocation`. -/
def groupKey (error : ErrorRecord) : String :=
  let errorType :=
    match error.errorType with
    | some t => if t = "" then "unknownError" else t
    | none => "unknownError"
  let location :=
    match error.location with
    | some l => jsText l.file ++ ":" ++ jsText l.line ++ ":" ++ jsText l.column
    | none => "unknownLocation"
  errorType ++ "-" ++ location

/-- The object `groupedErrors` after the `forEach` of lines 1222-1241. -/
def groupErrors (validationErrors : List ErrorRecord) : GroupedErrors :=
  validationErrors.foldl (fun groupedErrors error => addToGroup groupedErrors (groupKey error)
    error) []

/-- The function `generateHumanReadableOutput(groupedErrors)`, lines 1270-1281. -/
def generateHumanReadableOutput (groupedErrors : GroupedErrors) : String :=
  joinLines (groupedErrors.flatMap (fun p =>
    ("\nError group: " ++ p.1 ++ " (count: " ++ toString p.2.count ++ ")") ::
      p.2.errors.map (fun error =>
        "  - Level: " ++ jsText error.level ++ ", Message: " ++ jsText error.message)))

/-- The function `generateOutput(validationErrors, outputFormat)`, lines 1212-1265;
`JSON.stringify(groupedErrors, null, 2)` is the collaborator `stringify`. -/
def generateOutput (stringify : GroupedErrors → String) (validationErrors : List ErrorRecord)
    (outputFormat : String) : String :=
  let groupedErrors := groupErrors validationErrors
  if outputFormat = "json" then stringify groupedErrors
  else if outputFormat = "text" then generateHumanReadableOutput groupedErrors
  else stringify groupedErrors

/-- The comparison `child.name === 'element'` of line 742: `name` is the method of the node (the
scripts call it as `name()` everywhere else), and a function is never strictly equal to a
string. -/
def nameMethodIs (_child : XmlNode) (_text : String) : Bool :=
  false

/-- The assignment `elementOrderMap[key] = value`.  The key `__proto__` reaches the prototype
slot of the object and creates no own property. -/
def assignOrder (elementOrderMap : OrderMap) (key : String) (value : List (Option String)) :
    OrderMap :=
  if key = "__proto__" then elementOrderMap
  else if elementOrderMap.any (fun p => p.1 == key) then
    elementOrderMap.map (fun p => if p.1 = key then (p.1, value) else p)
  else
    elementOrderMap ++ [(key, value)]

/-- The function `handleComplexType(element, elementOrderMap, ...)`, lines 738-747; it uses its
first two parameters only.  The result is the order map after the call and what the call threw,
if it threw.  `element.get('sequence')` is an unprefixed query, and the loop of line 742 starts
with the call `sequence.children()`. -/
def handleComplexType (element : XmlNode) (elementOrderMap : OrderMap) :
    OrderMap × Option JsError :=
  match element.get "sequence" with
  | none => (elementOrderMap, none)
  | some sequence =>
    match XmlNode.childrenMember with
    | .error e => (elementOrderMap, some e)
    | .ok _ =>
      let elementOrder :=
        (sequence.children.filter (fun child => nameMethodIs child "element")).map
          (fun child => child.attr "name")
      (assignOrder elementOrderMap (jsString (element.attr "name")) elementOrder, none)

/-- The comparisons `a < b` and `a > b` on the time values of two parsed dates; with an invalid
date on either side the comparison is false. -/
def timeBefore (a b : Option Int) : Bool :=
  match a, b with
  | some x, some y => decide (x < y)
  | _, _ => false

/-- The function `validateTime(elementValue, simpleType, validationResults, element)`,
lines 587-645.  The collaborator `parseTime` is `parse(text, 'HH:mm:ss', new Date())` of
`date-fns` (`none`: an invalid date, for which `isValid` is false).  Line 589 reads `parsedDate`,
which no scope of this function declares. -/
def validateTime (parseTime : String → Option Int) (regExpTest : RegExpTest)
    (elementValue : String) (simpleType : SimpleType) (validationResults : List Violation)
    (element : Option XmlNode) : Except JsError (Bool × List Violation) :=
  let parsedTime := parseTime elementValue
  match (Except.error (unresolvable "parsedDate") : Except JsError (Option Int)) with
  | .error e => .error e
  | .ok parsedDate =>
    if parsedDate.isNone then
      .ok (false, validationResults ++
        [⟨"error", 2, "Invalid time format: " ++ elementValue, element,
          "dataTypeValidationError"⟩])
    else
      let restrictions := simpleType.restrictions.getD {}
      if restrictions.minInclusive.any
          (fun minInclusive => minInclusive != "" && timeBefore parsedTime (parseTime minInclusive))
      then
        .ok (false, validationResults ++
          [⟨"error", 2, "Time value " ++ elementValue ++ " is before minimum allowed time "
              ++ jsText restrictions.minInclusive, element, "dataTypeValidationError"⟩])
      else if restrictions.maxInclusive.any
          (fun maxInclusive => maxInclusive != "" && timeBefore (parseTime maxInclusive) parsedTime)
      then
        .ok (false, validationResults ++
          [⟨"error", 2, "Time value " ++ elementValue ++ " is after maximum allowed time "
              ++ jsText restrictions.maxInclusive, element, "dataTypeValidationError"⟩])
      else
        match restrictions.pattern with
        | none => .ok (true, validationResults)
        | some pattern =>
          if pattern = "" then .ok (true, validationResults)
          else
            match regExpTest pattern elementValue with
            | .error e => .error e
            | .ok true => .ok (true, validationResults)
            | .ok false =>
              .ok (false, validationResults ++
                [⟨"error", 2, "Time value does not match pattern " ++ pattern, element,
                  "dataTypeValidationError"⟩])

end NoCaching

namespace Caching

/-- The key of line 178: `errorType` and `location.file` as they print; the read of
`location.file` throws when the record has no `location`. -/
def groupKey (error : ErrorRecord) : Except JsError String :=
  match error.location with
  | none => .error (.typeError "Cannot read properties of undefined (reading 'file')")
  | some l => .ok (jsText error.errorType ++ "-" ++ jsText l.file)

/-- The object `groupedErrors` after the `forEach` of lines 177-187, or what the loop throws. -/
def groupErrors : List ErrorRecord → GroupedErrors → Except JsError GroupedErrors
  | [], groupedErrors => .ok groupedErrors
  | error :: rest, groupedErrors =>
    match groupKey error with
    | .error e => .error e
    | .ok key => groupErrors rest (addToGroup groupedErrors key error)

/-- The function `generateHumanReadableOutput(groupedErrors)` of the caching variant,
lines 206-217; the same text as in the other variant. -/
def generateHumanReadableOutput (groupedErrors : GroupedErrors) : String :=
  joinLines (groupedErrors.flatMap (fun p =>
    ("\nError group: " ++ p.1 ++ " (count: " ++ toString p.2.count ++ ")") ::
      p.2.errors.map (fun error =>
        "  - Level: " ++ jsText error.level ++ ", Message: " ++ jsText error.message)))

/-- The function `handleComplexType(element, elementOrderMap, ...)` of the caching variant,
lines 349-358; the same text as in the other variant. -/
def handleComplexType (element : XmlNode) (elementOrderMap : OrderMap) :
    OrderMap × Option JsError :=
  match element.get "sequence" with
  | none => (elementOrderMap, none)
  | some sequence =>
    match XmlNode.childrenMember with
    | .error e => (elementOrderMap, some e)
    | .ok _ =>
      let elementOrder :=
        (sequence.children.filter (fun child => NoCaching.nameMethodIs child "element")).map
          (fun child => child.attr "name")
      (NoCaching.assignOrder elementOrderMap (jsString (element.attr "name")) elementOrder, none)

/-- An entry of `unknownElements`: `{ name, attributes }`. -/
structure UnknownElement where
  name : String
  attributes : List (String × String)
deriving DecidableEq, Repr

/-- A value of `schemaData.attributes`: `{ attributeType, defaultValue, use }`. -/
structure AttributeDecl where
  attributeType : Option String
  defaultValue : Option String
  use : Option String

/-- The object `schemaData`: its `simpleTypes` and its `attributes`. -/
structure SchemaData where
  simpleTypes : List (String × SimpleType)
  attributes : List (String × AttributeDecl)

/-- The accumulators `traverse` is handed and mutates. -/
structure WalkState where
  elementOrderMap : OrderMap
  elementHierarchy : List String
  schemaData : SchemaData
  unknownElements : List UnknownElement
  validationResults : List Violation

/-- The four handlers the `switch` of `traverse` names: each takes the element and the
accumulators and leaves the accumulators, with what it threw if it threw. -/
structure Handlers where
  handleComplexType : XmlNode → WalkState → WalkState × Option JsError
  handleSimpleType : XmlNode → WalkState → WalkState × Option JsError
  handleAttribute : XmlNode → WalkState → WalkState × Option JsError
  handleAnyType : XmlNode → WalkState → WalkState × Option JsError

/-- A value handed to `traverse` as `element`: `null`, `undefined`, a value whose `typeof` is not
`object`, or a parsed element. -/
inductive SchemaInput where
  | null
  | undefined
  | nonObject (text : String)
  | node (element : XmlNode)

mutual
/-- The body of `traverse` (lines 576-607) on a parsed element: the accumulators after the call,
and what the call threw if it threw (the `catch` of lines 608-625 logs and rethrows).  Line 605
starts with the call `element.children()`. -/
def traverseNode (handlers : Handlers) : XmlNode → WalkState → WalkState × Option JsError
  | .mk ns name attrs text children, state =>
    if name ≠ "element" then
      (state, none)
    else
      let handled : WalkState × Option JsError :=
        if name = "complexType" then
          handlers.handleComplexType (.mk ns name attrs text children) state
        else if name = "simpleType" then
          handlers.handleSimpleType (.mk ns name attrs text children) state
        else if name = "attribute" then
          handlers.handleAttribute (.mk ns name attrs text children) state
        else if name = "anyType" then
          handlers.handleAnyType (.mk ns name attrs text children) state
        else
          ({ state with unknownElements := state.unknownElements ++ [⟨name, attrs⟩] }, none)
      match handled.2 with
      | some e => (handled.1, some e)
      | none =>
        let pushed : WalkState :=
          { handled.1 with elementHierarchy := handled.1.elementHierarchy ++ [name] }
        match XmlNode.childrenMember with
        | .error e => (pushed, some e)
        | .ok _ =>
          match traverseChildren handlers children pushed with
          | (after, some e) => (after, some e)
          | (after, none) =>
            ({ after with elementHierarchy := after.elementHierarchy.dropLast }, none)
/-- The `forEach` of line 605 over `element.children()`; a throw ends it. -/
def traverseChildren (handlers : Handlers) : List XmlNode → WalkState → WalkState × Option JsError
  | [], state => (state, none)
  | child :: rest, state =>
    match traverseNode handlers child state with
    | (after, some e) => (after, some e)
    | (after, none) => traverseChildren handlers rest after
end

/-- The function `traverse(element, elementOrderMap, elementHierarchy, schemaData,
unknownElements, validationResults, validationContext)` of the caching variant,
lines 570-626. -/
def traverse (handlers : Handlers) (element : SchemaInput) (state : WalkState) :
    WalkState × Option JsError :=
  match element with
  | .node e => traverseNode handlers e state
  | _ => (state, some (.typeError "Invalid element type: expected an object"))

end Caching

/-! ## Type dispatch, schema extraction, the schema walk, the element stack, the success report -/

namespace NoCaching

/-- A value bound to the parameter `simpleType` of a facet validator: a simple type of the schema
model, or an array (what `validateSimpleType` hands over in that place). -/
inductive SimpleTypeArg where
  | simpleType (t : SimpleType)
  | array (entries : List Violation)

/-- The expression `simpleType.restrictions || {}`: an array has no property `restrictions`. -/
def SimpleTypeArg.restrictions : SimpleTypeArg → Restrictions
  | .simpleType t => t.restrictions.getD {}
  | .array _ => {}

/-- The call `validationResults.push(entry)` when `validationResults` may be `undefined` (`none`)
and the object literal `entry` may throw while it is built.  The property `push` is read before
the argument is evaluated, so an `undefined` receiver throws first. -/
def pushEntry (validationResults : Option (List Violation)) (entry : Except JsError Violation) :
    Except JsError (List Violation) :=
  match validationResults with
  | none => .error (.typeError "Cannot read properties of undefined (reading 'push')")
  | some entries =>
    match entry with
    | .error e => .error e
    | .ok v => .ok (entries ++ [v])

/-- What a rejecting path of a facet validator does: `push` the entry, then `return false`. -/
def reject (validationResults : Option (List Violation)) (entry : Except JsError Violation) :
    Except JsError (Option Bool × Option (List Violation)) :=
  match pushEntry validationResults entry with
  | .error e => .error e
  | .ok entries => .ok (some false, some entries)

/-- The library calls the facet validators make: `parse(text, 'yyyy-MM-dd', new Date())` and
`parse(text, 'HH:mm:ss', new Date())` of `date-fns` (`none`: an invalid date, for which `isValid`
is false), and `new RegExp(pattern).test(value)`. -/
structure Collaborators where
  parseDate : String → Option Int
  parseTime : String → Option Int
  regExpTest : RegExpTest

namespace Dynamic

/-- The function `validateInteger(elementValue, simpleType, validationResults)`, lines 405-417,
like the other validators of this namespace over the values a call may bind to the parameters:
`simpleType` a simple type or an array, `validationResults` an array or `undefined` (`none`),
`element` an element or `undefined`.  The result is what the call returns (`none`: `undefined`)
with the value of `validationResults` after it, or what the call throws.  `element` is not in
scope here. -/
def validateInteger (elementValue : String) (_simpleType : SimpleTypeArg)
    (validationResults : Option (List Violation)) :
    Except JsError (Option Bool × Option (List Violation)) :=
  if parseIntIsNaN elementValue then
    reject validationResults (.error (unresolvable "element"))
  else
    .ok (none, validationResults)

/-- The function `validateString(elementValue, simpleType, validationResults, element)`,
lines 420-457. -/
def validateString (regExpTest : RegExpTest) (elementValue : String)
    (simpleType : SimpleTypeArg) (validationResults : Option (List Violation))
    (element : Option XmlNode) : Except JsError (Option Bool × Option (List Violation)) :=
  let restrictions := simpleType.restrictions
  if restrictions.minLength.any (fun minLength => jsLength elementValue < minLength) then
    reject validationResults
      (.ok ⟨"error", 2, "String length is less than minimum allowed length "
          ++ toString (restrictions.minLength.getD 0), element, "dataTypeValidationError"⟩)
  else if restrictions.maxLength.any (fun maxLength => maxLength < jsLength elementValue) then
    reject validationResults
      (.ok ⟨"error", 2, "String length exceeds maximum allowed length "
          ++ toString (restrictions.maxLength.getD 0), element, "dataTypeValidationError"⟩)
  else
    match restrictions.pattern with
    | none => .ok (some true, validationResults)
    | some pattern =>
      match regExpTest pattern elementValue with
      | .error e => .error e
      | .ok true => .ok (some true, validationResults)
      | .ok false =>
        reject validationResults
          (.ok ⟨"error", 2, "String does not match pattern " ++ pattern, element,
            "dataTypeValidationError"⟩)

/-- The function `validateDecimal(elementValue, simpleType, validationResults, element)`,
lines 462-507. -/
def validateDecimal (elementValue : String) (simpleType : SimpleTypeArg)
    (validationResults : Option (List Violation)) (element : Option XmlNode) :
    Except JsError (Option Bool × Option (List Violation)) :=
  if parseFloatIsNaN elementValue then
    reject validationResults
      (.ok ⟨"error", 2, "Value '" ++ elementValue ++ "' is not a valid decimal number", element,
        "dataTypeValidationError"⟩)
  else
    let restrictions := simpleType.restrictions
    let totalDigitsCount := jsLength elementValue
    if restrictions.totalDigits.any (fun totalDigits => totalDigits < totalDigitsCount) then
      reject validationResults
        (.ok ⟨"error", 2, "Decimal value exceeds maximum total digits "
            ++ toString (restrictions.totalDigits.getD 0), element, "dataTypeValidationError"⟩)
    else
      let decimalPart := ((splitDot elementValue.data).get? 1).getD []
      if restrictions.fractionDigits.any
          (fun fractionDigits => fractionDigits < utf16Length decimalPart) then
        reject validationResults
          (.ok ⟨"error", 2, "Decimal value exceeds maximum fraction digits "
              ++ toString (restrictions.fractionDigits.getD 0), element,
            "dataTypeValidationError"⟩)
      else
        .ok (some true, validationResults)

/-- The function `validateBoolean(elementValue, simpleType, validationResults)`, lines 510-523;
`element` is not in scope. -/
def validateBoolean (elementValue : String) (_simpleType : SimpleTypeArg)
    (validationResults : Option (List Violation)) :
    Except JsError (Option Bool × Option (List Violation)) :=
  if elementValue ≠ "true" ∧ elementValue ≠ "false" then
    reject validationResults (.error (unresolvable "element"))
  else
    .ok (some true, validationResults)

/-- The bound and pattern checks that close `validateDate`, `validateTime` and `validateDateTime`
(lines 538-582, 600-644, 660-703): the same text in the three functions up to the words of the
messages (`noun`, `kind`), the parser and the entry built (`entry`, which reads `element`). -/
def checkRange (noun kind : String) (parse : String → Option Int) (regExpTest : RegExpTest)
    (entry : String → Except JsError Violation) (parsed : Option Int) (elementValue : String)
    (simpleType : SimpleTypeArg) (validationResults : Option (List Violation)) :
    Except JsError (Option Bool × Option (List Violation)) :=
  let restrictions := simpleType.restrictions
  if restrictions.minInclusive.any
      (fun minInclusive => minInclusive != "" && timeBefore parsed (parse minInclusive)) then
    reject validationResults
      (entry (noun ++ " value " ++ elementValue ++ " is before minimum allowed " ++ kind ++ " "
        ++ jsText restrictions.minInclusive))
  else if restrictions.maxInclusive.any
      (fun maxInclusive => maxInclusive != "" && timeBefore (parse maxInclusive) parsed) then
    reject validationResults
      (entry (noun ++ " value " ++ elementValue ++ " is after maximum allowed " ++ kind ++ " "
        ++ jsText restrictions.maxInclusive))
  else
    match restrictions.pattern with
    | none => .ok (some true, validationResults)
    | some pattern =>
      if pattern = "" then .ok (some true, validationResults)
      else
        match regExpTest pattern elementValue with
        | .error e => .error e
        | .ok true => .ok (some true, validationResults)
        | .ok false =>
          reject validationResults (entry (noun ++ " value does not match pattern " ++ pattern))

/-- The function `validateDate(elementValue, simpleType, validationResults)`, lines 526-583.  The
collaborator `parseDate` is `parse(text, 'yyyy-MM-dd', new Date())` (`none`: an invalid date);
`element`, which every entry reads, is not in scope. -/
def validateDate (parseDate : String → Option Int) (regExpTest : RegExpTest)
    (elementValue : String) (simpleType : SimpleTypeArg)
    (validationResults : Option (List Violation)) :
    Except JsError (Option Bool × Option (List Violation)) :=
  let parsedDate := parseDate elementValue
  if parsedDate.isNone then
    reject validationResults (.error (unresolvable "element"))
  else
    checkRange "Date" "date" parseDate regExpTest (fun _ => .error (unresolvable "element"))
      parsedDate elementValue simpleType validationResults

/-- The function `validateTime(elementValue, simpleType, validationResults, element)`,
lines 587-645; line 589 reads `parsedDate`, which no scope of the function declares. -/
def validateTime (parseTime : String → Option Int) (regExpTest : RegExpTest)
    (elementValue : String) (simpleType : SimpleTypeArg)
    (validationResults : Option (List Violation)) (element : Option XmlNode) :
    Except JsError (Option Bool × Option (List Violation)) :=
  let parsedTime := parseTime elementValue
  match (Except.error (unresolvable "parsedDate") : Except JsError (Option Int)) with
  | .error e => .error e
  | .ok parsedDate =>
    if parsedDate.isNone then
      reject validationResults
        (.ok ⟨"error", 2, "Invalid time format: " ++ elementValue, element,
          "dataTypeValidationError"⟩)
    else
      checkRange "Time" "time" parseTime regExpTest
        (fun message => .ok ⟨"error", 2, message, element, "dataTypeValidationError"⟩)
        parsedTime elementValue simpleType validationResults

/-- The function `validateDateTime(elementValue, simpleType, validationResults, element)`,
lines 647-704.  Its first statement calls `parseISO`, which the script neither imports (line 3
takes `parse` and `isValid` from `date-fns`) nor declares. -/
def validateDateTime (regExpTest : RegExpTest) (elementValue : String)
    (simpleType : SimpleTypeArg) (validationResults : Option (List Violation))
    (element : Option XmlNode) : Except JsError (Option Bool × Option (List Violation)) :=
  match (Except.error (unresolvable "parseISO") : Except JsError (String → Option Int)) with
  | .error e => .error e
  | .ok parseISO =>
    let parsedDateTime := parseISO elementValue
    if parsedDateTime.isNone then
      reject validationResults
        (.ok ⟨"error", 2, "Invalid dateTime format: " ++ elementValue, element,
          "dataTypeValidationError"⟩)
    else
      checkRange "DateTime" "dateTime" parseISO regExpTest
        (fun message => .ok ⟨"error", 2, message, element, "dataTypeValidationError"⟩)
        parsedDateTime elementValue simpleType validationResults

end Dynamic

/-- The function `validateSimpleType(baseType, elementValue, validationResults)`, lines 708-735.
Every call it makes hands over two arguments, `elementValue` and `validationResults`: the
validator receives the results array as its `simpleType`, and its own `validationResults` and
`element` are `undefined`.  No validator writes to its `simpleType`, so the array of the caller is
as it was when the call returns.  The `default` branch reads `element`, which is not in scope,
while building the entry. -/
def validateSimpleType (library : Collaborators) (baseType elementValue : String)
    (validationResults : List Violation) : Except JsError (Option Bool × List Violation) :=
  let returned (call : Except JsError (Option Bool × Option (List Violation))) :
      Except JsError (Option Bool × List Violation) :=
    match call with
    | .error e => .error e
    | .ok r => .ok (r.1, validationResults)
  if baseType = "integer" then
    returned (Dynamic.validateInteger elementValue (.array validationResults) none)
  else if baseType = "string" then
    returned (Dynamic.validateString library.regExpTest elementValue (.array validationResults)
      none none)
  else if baseType = "decimal" then
    returned (Dynamic.validateDecimal elementValue (.array validationResults) none none)
  else if baseType = "boolean" then
    returned (Dynamic.validateBoolean elementValue (.array validationResults) none)
  else if baseType = "date" then
    returned (Dynamic.validateDate library.parseDate library.regExpTest elementValue
      (.array validationResults) none)
  else if baseType = "time" then
    returned (Dynamic.validateTime library.parseTime library.regExpTest elementValue
      (.array validationResults) none none)
  else if baseType = "dateTime" then
    returned (Dynamic.validateDateTime library.regExpTest elementValue
      (.array validationResults) none none)
  else
    match pushEntry (some validationResults) (.error (unresolvable "element")) with
    | .error e => .error e
    | .ok entries => .ok (some false, entries)

end NoCaching

namespace Caching

mutual
/-- The node set that the XPath query of line 674, `//xs:sequence/xs:element`, denotes once `xs`
is bound to the namespace of XML Schema, at and below one element, in document order: every
`xs:element` whose parent is an `xs:sequence`, each with `element.parent().parent().name()`, the
name of its grandparent.  `parentName` is the name of the parent of the element at hand; for the
root, whose parent is the document, it is `none`, the document having no method `name`. -/
def sequenceElementsOf (parentName : Option String) : XmlNode → List (XmlNode × Option String)
  | .mk ns name _ _ children => sequenceElementsOfList ns name parentName children
/-- The part of the node set that lies in the children of the element `ns:name`. -/
def sequenceElementsOfList (ns : Option String) (name : String) (parentName : Option String) :
    List XmlNode → List (XmlNode × Option String)
  | [] => []
  | child :: rest =>
    (if name = "sequence" ∧ ns = some xsNamespace ∧ child.isXs "element" = true then
        [(child, parentName)] else [])
      ++ sequenceElementsOf (some name) child
      ++ sequenceElementsOfList ns name parentName rest
end

/-- The `forEach` of lines 676-685 over the matched elements; its body is the one of the other
variant. -/
def recordElements : OrderMap → List (XmlNode × Option String) → Except JsError OrderMap
  | elementOrderMap, [] => .ok elementOrderMap
  | elementOrderMap, (element, parentName) :: rest =>
    match parentName with
    | none => .error (.typeError "element.parent(...).parent(...).name is not a function")
    | some parentName =>
      match NoCaching.recordElement elementOrderMap parentName (element.attr "name") with
      | .error e => .error e
      | .ok next => recordElements next rest

/-- The function `extractElementOrderFromXsd(xsdDoc)` of the caching variant, lines 670-688, with
the prefix `xs` of the query taken as bound to the schema namespace.  The call of line 674 hands
`find` no namespace map, and libxmljs rejects a query with an unbound prefix; the embedding
shows what the function would record from the node set the query denotes. -/
def extractElementOrderFromXsd (xsdDoc : XmlDocument) : Except JsError OrderMap :=
  recordElements [] (sequenceElementsOf none xsdDoc.root)

/-- The function `validateElementOrder(xmlDoc, elementOrderMap)` of the caching variant,
lines 799-805; the same text as in the other variant. -/
def validateElementOrder (xmlDoc : XmlDocument) (elementOrderMap : OrderMap) :
    Except JsError Unit :=
  let rootElement := xmlDoc.root
  let expectedOrder := lookup elementOrderMap rootElement.name
  if expectedOrder = .undefined then
    .ok ()
  else
    match validateElementOrderHelper rootElement expectedOrder 0 with
    | .error e => .error e
    | .ok false =>
      .error (.validationError
        ⟨"Element order violation", none, none, none, none, none, none, none⟩)
    | .ok true => .ok ()

namespace XsdCache

/-- The call `get(xsdPath)` together with the cache it leaves: the method (lines 46-51) reads
`this.cache` and the clock and holds no assignment and no `delete`. -/
def getCall {α : Type} (c : XsdCache α) (xsdPath : String) (now : Int) : Option α × XsdCache α :=
  (c.get xsdPath now, c)

end XsdCache

end Caching

namespace NoCaching

/-- The object `validationSummary` of `traverse`. -/
structure ValidationSummary where
  totalElements : Nat
  validElements : Nat
  errorCount : Nat
deriving DecidableEq, Repr

/-- What `traverse` returns: `{ success, errors, validationSummary }`. -/
structure TraverseResult where
  success : Bool
  errors : List Violation
  validationSummary : ValidationSummary

mutual
/-- The body of `traverse` (lines 881-946) on a parsed element: the accumulators after the call,
and what the call returns or throws.  `isValid` on line 927 is the function imported from
`date-fns`, a truthy value; line 934 starts with the call `element.children()`; the object
literal of lines 942-946 reads `hasChildErrors`, which no scope declares. -/
def traverseNode (handlers : Caching.Handlers) :
    XmlNode → Caching.WalkState → Caching.WalkState × Except JsError TraverseResult
  | .mk ns name attrs text children, state =>
    if name ≠ "element" then
      (state, .ok ⟨true, [], ⟨0, 0, 0⟩⟩)
    else
      let validationSummary : ValidationSummary := ⟨0, 0, 0⟩
      let handled : Caching.WalkState × Option JsError :=
        if name = "complexType" then
          handlers.handleComplexType (.mk ns name attrs text children) state
        else if name = "simpleType" then
          handlers.handleSimpleType (.mk ns name attrs text children) state
        else if name = "attribute" then
          handlers.handleAttribute (.mk ns name attrs text children) state
        else if name = "anyType" then
          handlers.handleAnyType (.mk ns name attrs text children) state
        else
          ({ state with unknownElements := state.unknownElements ++ [⟨name, attrs⟩] }, none)
      match handled.2 with
      | some e => (handled.1, .error e)
      | none =>
        let validationSummary : ValidationSummary :=
          { validationSummary with totalElements := validationSummary.totalElements + 1 }
        let validationSummary : ValidationSummary :=
          { validationSummary with validElements := validationSummary.validElements + 1 }
        match XmlNode.childrenMember with
        | .error e => (handled.1, .error e)
        | .ok _ =>
          match traverseChildren handlers children handled.1 validationSummary with
          | (after, .error e) => (after, .error e)
          | (after, .ok _) => (after, .error (unresolvable "hasChildErrors"))
/-- The `forEach` of lines 934-940 over `element.children()`, which adds the summary of each
child to `validationSummary`; a throw ends it. -/
def traverseChildren (handlers : Caching.Handlers) :
    List XmlNode → Caching.WalkState → ValidationSummary →
      Caching.WalkState × Except JsError ValidationSummary
  | [], state, validationSummary => (state, .ok validationSummary)
  | child :: rest, state, validationSummary =>
    match traverseNode handlers child state with
    | (after, .error e) => (after, .error e)
    | (after, .ok childResult) =>
      traverseChildren handlers rest after
        ⟨validationSummary.totalElements + childResult.validationSummary.totalElements,
         validationSummary.validElements + childResult.validationSummary.validElements,
         validationSummary.errorCount + childResult.validationSummary.errorCount⟩
end

/-- The function `traverse(element, elementOrderMap, elementHierarchy, schemaData,
unknownElements, validationResults, validationContext)`, lines 857-947. -/
def traverse (handlers : Caching.Handlers) (element : Caching.SchemaInput)
    (state : Caching.WalkState) : Caching.WalkState × Except JsError TraverseResult :=
  match element with
  | .node e => traverseNode handlers e state
  | _ =>
    (state, .ok ⟨false, [⟨"error", 2, "Invalid element type encountered", none,
      "traversalError"⟩], ⟨0, 0, 0⟩⟩)

/-- A value of `top` and of `next`: `null`, or an instance of `class Node` (lines 45-50) with its
`data` and its `next`. -/
inductive NodeRef (α : Type) where
  | null
  | node (data : α) (next : NodeRef α)

/-- An instance of `class ElementStack`, lines 52-102: its field `top`. -/
structure ElementStack (α : Type) where
  top : NodeRef α

namespace ElementStack

/-- The `constructor`, lines 53-55. -/
def new {α : Type} : ElementStack α :=
  ⟨.null⟩

/-- The method `isEmpty()`, lines 80-82. -/
def isEmpty {α : Type} (s : ElementStack α) : Bool :=
  match s.top with
  | .null => true
  | .node _ _ => false

/-- The method `push(data)`, lines 57-62. -/
def push {α : Type} (s : ElementStack α) (data : α) : ElementStack α :=
  ⟨.node data s.top⟩

/-- The method `pop()`, lines 64-71: what it returns (`none`: `null`) and the stack after it. -/
def pop {α : Type} (s : ElementStack α) : Option α × ElementStack α :=
  match s.top with
  | .null => (none, s)
  | .node data next => (some data, ⟨next⟩)

/-- The method `peek()`, lines 73-78; `none` is `null`. -/
def peek {α : Type} (s : ElementStack α) : Option α :=
  match s.top with
  | .null => none
  | .node data _ => some data

/-- The loop of lines 86-89, from `current` on. -/
def countFrom {α : Type} : NodeRef α → Nat → Nat
  | .null, count => count
  | .node _ next, count => countFrom next (count + 1)

/-- The method `size()`, lines 83-91. -/
def size {α : Type} (s : ElementStack α) : Nat :=
  countFrom s.top 0

/-- The loop of lines 96-99, from `current` on. -/
def collectFrom {α : Type} : NodeRef α → List α → List α
  | .null, elements => elements
  | .node data next, elements => collectFrom next (elements ++ [data])

/-- The method `getElements()`, lines 93-101. -/
def getElements {α : Type} (s : ElementStack α) : List α :=
  collectFrom s.top []

end ElementStack

/-- A value read from a plain object by `elementOrderMap[key]`: a string, or a value of another
kind (an array, a function, `undefined`), kept as the text a template literal prints for it. -/
inductive PropertyValue where
  | text (s : String)
  | other (shown : String)
deriving DecidableEq, Repr

/-- The text `${value}` of a value read from the order map. -/
def PropertyValue.shown : PropertyValue → String
  | .text s => s
  | .other shown => shown

/-- An entry the stack-based order check pushes: `{ message, element }`, or `{ message }`. -/
structure OrderViolation where
  message : String
  element : Option XmlNode

namespace StackBased

/-- The body of the `for...of` loop of lines 206-223 for the children from `child` on, as it
runs on an object that offers `children()`: the stack and `validationResults` after it.  `elementOrderMap` is given by its property read; a string is
strictly unequal to every value that is not the same string. -/
def checkChildren (elementOrderMap : String → PropertyValue) :
    List XmlNode → ElementStack String → List OrderViolation →
      ElementStack String × List OrderViolation
  | [], stack, validationResults => (stack, validationResults)
  | child :: rest, stack, validationResults =>
    let stack := stack.push child.name
    let expectedNextElement := elementOrderMap (jsString stack.peek)
    let validationResults :=
      if PropertyValue.text child.name ≠ expectedNextElement then
        validationResults ++
          [⟨"Ungültige Elementreihenfolge: Erwartet " ++ expectedNextElement.shown
              ++ ", gefunden " ++ child.name, some child⟩]
      else validationResults
    let stack := stack.pop.2
    checkChildren elementOrderMap rest stack validationResults

/-- The function `validateElementOrder(element, elementOrderMap, validationResults)`,
lines 202-231, the earlier of the two declarations of that name: the stack and
`validationResults` as the call leaves them, and what the call threw, if it threw.  The loop
header of line 206 calls `element.children()`. -/
def validateElementOrder (element : XmlNode) (elementOrderMap : String → PropertyValue)
    (validationResults : List OrderViolation) :
    (ElementStack String × List OrderViolation) × Option JsError :=
  let stack : ElementStack String := ElementStack.new
  match XmlNode.childrenMember with
  | .error e => ((stack, validationResults), some e)
  | .ok _ =>
    let looped := checkChildren elementOrderMap element.children stack validationResults
    if !looped.1.isEmpty then
      ((looped.1, looped.2 ++ [⟨"Nicht alle erwarteten Elemente wurden gefunden.", none⟩]), none)
    else
      (looped, none)

end StackBased

/-- An entry of `details` in the success report. -/
structure CheckDetail where
  message : String
  lineNumber : Option Nat
  columnNumber : Option Nat
  errorCode : String
deriving DecidableEq, Repr

/-- An entry of `validationChecks`; `startTime` and `endTime` are `null` (`none`) when the class
record has none. -/
structure ValidationCheck where
  name : String
  status : String
  details : List CheckDetail
  startTime : Option String
  endTime : Option String
deriving DecidableEq, Repr

/-- The object `summary` of the success report. -/
structure ReportSummary where
  totalChecks : Nat
  successfulChecks : Nat
  failedChecks : Nat
deriving DecidableEq, Repr

/-- The object `reportData` of `generateValidationSuccessReport`. -/
structure ReportData where
  xmlFilePath : String
  xsdFilePath : String
  validationTime : String
  status : String
  validationChecks : List ValidationCheck
  summary : ReportSummary
deriving DecidableEq, Repr

/-- The callback of the `map` of lines 1375-1380.  An entry of a class record is a copy of a
thrown value with a `message`; no thrown value has a property `lineNumber`, `columnNumber` or
`type`, so the three `||` take their right-hand sides. -/
def detailOf (error : FormattedError) : CheckDetail :=
  ⟨error.message, none, none, "unknownError"⟩

/-- The body of the `for...in` loop of lines 1370-1397 for the class records from the index
`checkName` on; the keys `for...in` yields on an array are its indices as decimal text. -/
def checkLoop : List ClassResult → Nat → ReportData → ReportData
  | [], _, reportData => reportData
  | checkResult :: rest, checkName, reportData =>
    let reportData : ReportData :=
      { reportData with
        summary := { reportData.summary with totalChecks := reportData.summary.totalChecks + 1 } }
    let detailedErrors :=
      if checkResult.errors.length > 0 then checkResult.errors.map detailOf else []
    let reportData : ReportData :=
      { reportData with
        validationChecks := reportData.validationChecks ++
          [⟨toString checkName, if checkResult.isValid then "success" else "failure",
            detailedErrors, none, none⟩] }
    let reportData : ReportData :=
      if checkResult.isValid then
        { reportData with
          summary := { reportData.summary with
            successfulChecks := reportData.summary.successfulChecks + 1 } }
      else
        { reportData with
          summary := { reportData.summary with
            failedChecks := reportData.summary.failedChecks + 1 } }
    let reportData : ReportData :=
      if !checkResult.isValid then { reportData with status := "failure" } else reportData
    checkLoop rest (checkName + 1) reportData

/-- The object `reportData` as lines 1343-1397 build it; `validationTime` is the reading of
`new Date().toISOString()`. -/
def buildReportData (validationTime : String) (validationResults : List ClassResult)
    (xmlFilePath xsdFilePath : String) : ReportData :=
  checkLoop validationResults 0
    ⟨xmlFilePath, xsdFilePath, validationTime, "success", [], ⟨0, 0, 0⟩⟩

/-- A class record as `generateOutput` reads it: it has none of the properties `errorType`,
`location`, `level` and `message`. -/
def asErrorRecord (_checkResult : ClassResult) : ErrorRecord :=
  {}

/-- The function `generateValidationSuccessReport(validationResults, xmlFilePath, xsdFilePath)`,
lines 1323-1409, on an array of class records (for which neither `return null` is reached).
After building `reportData` it renders the records with `generateOutput` and writes the text
with `fs.writeFileSync`, the collaborator `writeFileSync`, whose throw leaves the function. -/
def generateValidationSuccessReport (stringify : GroupedErrors → String)
    (writeFileSync : String → String → Except JsError Unit) (validationTime : String)
    (validationResults : List ClassResult) (xmlFilePath xsdFilePath : String) :
    Except JsError ReportData :=
  let reportData := buildReportData validationTime validationResults xmlFilePath xsdFilePath
  let outputFormat := "json"
  let report := generateOutput stringify (validationResults.map asErrorRecord) outputFormat
  match writeFileSync "./FW_test_logs/validation_success.txt" report with
  | .error e => .error e
  | .ok _ => .ok reportData

end NoCaching

/-! ## Auxiliary definitions used in the statements -/

/-- The record a `try`/`catch` block of `validateXML` leaves for a throw without a `code`: valid
and empty when the attempt completed, failed with the one formatted throw otherwise. -/
def classRecord (name : String) (attempt : Except JsError Unit) : ClassResult :=
  match attempt with
  | .ok _ => ⟨name, true, []⟩
  | .error e => ⟨name, false, [⟨e, "Unknown error: " ++ e.message⟩]⟩

/-- The elements that the query `//title` selects, which are the title elements in no
namespace, whose text is 10 code units long or shorter. -/
def shortTitles (xmlDoc : XmlDocument) : List XmlNode :=
  (findAll xmlDoc "title").filter (fun t => decide (jsLength t.text ≤ 10))

/-- The elements named `title`, whatever their namespace, whose text is 10 code units long or
shorter: the offending elements in the words of the specification, "every element named
`title`". -/
def shortTitlesByName (xmlDoc : XmlDocument) : List XmlNode :=
  ((descendantsOrSelf xmlDoc.root).filter (fun n => n.name == "title")).filter
    (fun t => decide (jsLength t.text ≤ 10))

mutual
/-- Order conformance in the words of section 4.5 of the specification, for the order map
`complexTypeOrder`: at an element whose name has an entry the names of the children are that
entry, one by one and none missing; every child is checked in the same way. -/
def specConformant (complexTypeOrder : OrderMap) : XmlNode → Bool
  | .mk _ name _ _ children =>
    (match complexTypeOrder.find? (fun p => p.1 == name) with
      | some p => decide (children.map (fun c => some c.name) = p.2)
      | none => true) && specConformantAll complexTypeOrder children
/-- Order conformance of every element of a list. -/
def specConformantAll (complexTypeOrder : OrderMap) : List XmlNode → Bool
  | [] => true
  | child :: rest =>
    specConformant complexTypeOrder child && specConformantAll complexTypeOrder rest
end

/-- The number of entries a thrown value carries in its `errors` array, if it has one. -/
def JsError.carried : JsError → Option Nat
  | .schemaValidationException _ errors => some errors.length
  | _ => none

/-- The record called `name` in an outcome. -/
def Outcome.record (o : Outcome) (name : String) : Option ClassResult :=
  o.results.find? (fun r => r.name == name)

/-- The number of decimal digits that directly follow the first decimal point of a text. -/
def fractionDigitCount (s : String) : Nat :=
  (((s.data.dropWhile (fun c => c != '.')).drop 1).takeWhile Char.isDigit).length

/-- The grouping invariant: `groupedErrors` holds, under pairwise different keys, for every key of
a record seen so far the records with that key in the order they were seen, with their number
as `count`, and holds nothing else. -/
def Grouped (keyOf : ErrorRecord → String) (seen : List ErrorRecord)
    (groupedErrors : GroupedErrors) : Prop :=
  (groupedErrors.map Prod.fst).Nodup ∧
  (∀ k g, (k, g) ∈ groupedErrors →
    g.errors = seen.filter (fun e => decide (keyOf e = k)) ∧ g.count = g.errors.length ∧
      g.errors ≠ []) ∧
  (∀ e ∈ seen, ∃ g, (keyOf e, g) ∈ groupedErrors)

/-- The group key of the caching variant for a record that has a `location`. -/
def cachingKeyText (error : ErrorRecord) : String :=
  jsText error.errorType ++ "-" ++ jsText (error.location.bind (fun l => l.file))

/-- The lines of a text: its pieces between line feeds. -/
def splitLines : List Char → List (List Char)
  | [] => [[]]
  | c :: rest =>
    match splitLines rest with
    | [] => [[]]
    | piece :: pieces => if c = '\n' then [] :: piece :: pieces else (c :: piece) :: pieces

/-- A line is blank when it holds nothing but white space. -/
def nonBlank (line : List Char) : Bool :=
  line.any (fun c => !c.isWhitespace)

/-- The lines of a text that are not blank, in order. -/
def renderedLines (text : String) : List (List Char) :=
  (splitLines text.data).filter nonBlank

/-- Whether two records share a group of `groupedErrors`. -/
def SameGroup (groupedErrors : GroupedErrors) (e1 e2 : ErrorRecord) : Prop :=
  ∃ k g, (k, g) ∈ groupedErrors ∧ e1 ∈ g.errors ∧ e2 ∈ g.errors

/-- Pushing the elements of a list onto a stack, first to last. -/
def pushAll {α : Type} (xs : List α) (stack : NoCaching.ElementStack α) :
    NoCaching.ElementStack α :=
  xs.foldl (fun s x => s.push x) stack

/-- A number of successive calls of `pop`: what they return, in order, and the stack they
leave. -/
def popMany {α : Type} : Nat → NoCaching.ElementStack α → List (Option α) × NoCaching.ElementStack α
  | 0, stack => ([], stack)
  | n + 1, stack =>
    ((stack.pop.1 :: (popMany n stack.pop.2).1), (popMany n stack.pop.2).2)

/-- The entry the stack-based order check pushes for a child whose name is not the value stored
under that name. -/
def orderViolationOf (elementOrderMap : String → NoCaching.PropertyValue) (child : XmlNode) :
    NoCaching.OrderViolation :=
  ⟨"Ungültige Elementreihenfolge: Erwartet " ++ (elementOrderMap child.name).shown
    ++ ", gefunden " ++ child.name, some child⟩

/-! ## Concrete inputs -/

namespace Sample

/-- A primitive that reports every document valid, with no diagnostics. -/
def accepting : Primitive := fun _ _ => ⟨true, []⟩

/-- A primitive that reports every document invalid, with two diagnostics on `element`. -/
def rejectingTwice : Primitive := fun _ _ =>
  ⟨false, [⟨"value is not of the declared type", "element", 1, 1⟩,
           ⟨"content is not allowed here", "element", 2, 5⟩]⟩

/-- An element of a schema document: an element in the namespace of XML Schema. -/
def xs (name : String) (attrs : List (String × String)) (children : List XmlNode) : XmlNode :=
  .mk (some xsNamespace) name attrs "" children

/-- A schema declaring `book` as the sequence `title`, `author`. -/
def bookSchema : XmlDocument :=
  ⟨xs "schema" []
    [xs "element" [("name", "book")]
      [xs "complexType" []
        [xs "sequence" []
          [xs "element" [("name", "title"), ("type", "xs:string")] [],
           xs "element" [("name", "author"), ("type", "xs:string")] []]]]]⟩

/-- A schema whose top-level element declaration is called `sequence` and holds a sequence
with the element `item`. -/
def sequenceNamedSchema : XmlDocument :=
  ⟨xs "schema" []
    [xs "element" [("name", "sequence")]
      [xs "sequence" [] [xs "element" [("name", "item")] []]]]⟩

/-- The document `<book><title>short</title><author>Ada Lovelace</author></book>`. -/
def shortTitleBook : XmlDocument :=
  ⟨.mk none "book" [] "shortAda Lovelace"
    [.mk none "title" [] "short" [], .mk none "author" [] "Ada Lovelace" []]⟩

/-- The document `<book xmlns="urn:books"><title>short</title><author>Ada Lovelace</author>
</book>`: the book with the short title, in a default namespace. -/
def namespacedShortTitle : XmlDocument :=
  ⟨.mk (some "urn:books") "book" [] "shortAda Lovelace"
    [.mk (some "urn:books") "title" [] "short" [],
     .mk (some "urn:books") "author" [] "Ada Lovelace" []]⟩

/-- The document `<constructor><title>short</title></constructor>`. -/
def constructorDocument : XmlDocument :=
  ⟨.mk none "constructor" [] "short" [.mk none "title" [] "short" []]⟩

/-- The document `<shelf><title>short</title><title>tiny</title></shelf>`. -/
def twoShortTitles : XmlDocument :=
  ⟨.mk none "shelf" [] "shorttiny" [.mk none "title" [] "short" [], .mk none "title" [] "tiny" []]⟩

/-- Whether the characters `p` occur consecutively somewhere in a text. -/
def occursIn (p : List Char) : List Char → Bool
  | [] => p.isPrefixOf []
  | c :: rest => p.isPrefixOf (c :: rest) || occursIn p rest

/-- The runtime call `new RegExp(pattern).test(value)` for the patterns made of letters and
digits only: such a pattern matches itself, and `test` searches the whole value for a match. -/
def literalTest : RegExpTest := fun pattern value =>
  .ok (occursIn pattern.data value.data)

/-- A collaborator that reads every file as the text `<schema/>`. -/
def readFile : String → Except JsError String := fun _ => .ok "<schema/>"

/-- A collaborator that parses every text into the book schema. -/
def parseXsd : String → Except JsError XmlDocument := fun _ => .ok bookSchema

/-- The cache after a first `getXsdDoc('order.xsd')` on a new cache, with the clock at 0 inside
`get` and at 5 inside `set`. -/
def cacheAfterFirstCall : Caching.XsdCache XmlDocument :=
  (Caching.getXsdDoc readFile parseXsd Caching.XsdCache.new "order.xsd" 0 5).2

/-- The schema node `<xs:complexType name=T><xs:sequence><xs:element name=n1/>...
</xs:sequence></xs:complexType>`. -/
def complexType (typeName : String) (names : List String) : XmlNode :=
  xs "complexType" [("name", typeName)]
    [xs "sequence" [] (names.map (fun n => xs "element" [("name", n)] []))]

/-- The document `<order><invoice><b/><a/></invoice></order>`. -/
def nestedOutOfOrder : XmlDocument :=
  ⟨.mk none "order" [] "" [.mk none "invoice" [] "" [.mk none "b" [] "" [], .mk none "a" [] "" []]]⟩

/-- A record of type `schemaValidationError` and category `structure` at `a.xml:3:7`. -/
def structureError : ErrorRecord :=
  { errorType := some "schemaValidationError", category := some "structure",
    level := some "error", message := some "unexpected element",
    location := some { file := some "a.xml", line := some "3", column := some "7" } }

/-- A record of the same type at the same place, of category `datatype`. -/
def datatypeError : ErrorRecord :=
  { errorType := some "schemaValidationError", category := some "datatype",
    level := some "error", message := some "not a number",
    location := some { file := some "a.xml", line := some "3", column := some "7" } }

/-- A record without a location. -/
def unlocated : ErrorRecord :=
  { errorType := some "parseError", level := some "error", message := some "no root element" }

/-- A grouped report with the two schema errors in one group. -/
def groupedReport : GroupedErrors :=
  [("schemaValidationError-a.xml:3:7", ⟨2, [structureError, datatypeError]⟩)]

/-- A grouped report with one record, whose message has two lines. -/
def twoLineMessageReport : GroupedErrors :=
  [("unknownError-unknownLocation",
    ⟨1, [{ level := some "error", message := some "first\nsecond" }]⟩)]

/-- The schema `<xs:schema>` with one complex type per entry of `types`, each with its sequence
of named elements. -/
def schemaOf (types : List (String × List String)) : XmlDocument :=
  ⟨xs "schema" [] (types.map (fun t => complexType t.1 t.2))⟩

/-- A schema with the complex types `Invoice` (number, date) and `Customer` (name). -/
def twoTypes : XmlDocument :=
  schemaOf [("Invoice", ["number", "date"]), ("Customer", ["name"])]

/-- The schema node `<xs:element name="book"><xs:element name="a"/></xs:element>`. -/
def elementTree : XmlNode :=
  xs "element" [("name", "book")] [xs "element" [("name", "a")] []]

/-- The element `<r><a/><b/><c/></r>`. -/
def threeChildren : XmlNode :=
  .mk none "r" [] "" [.mk none "a" [] "" [], .mk none "b" [] "" [], .mk none "c" [] "" []]

/-- Handlers that leave the accumulators as they are. -/
def idleHandlers : Caching.Handlers :=
  ⟨fun _ s => (s, none), fun _ s => (s, none), fun _ s => (s, none), fun _ s => (s, none)⟩

/-- Empty accumulators of the schema walk. -/
def emptyWalk : Caching.WalkState :=
  ⟨[], [], ⟨[], []⟩, [], []⟩

/-- An order map in which `a` is stored under `a` and an array under `b`. -/
def stringOrder : String → NoCaching.PropertyValue := fun key =>
  if key = "a" then .text "a" else if key = "b" then .other "a,b" else .other "undefined"

/-- A file system that accepts every write. -/
def writable : String → String → Except JsError Unit := fun _ _ => .ok ()

/-- Three class records, the second one failed. -/
def threeRecords : List ClassResult :=
  [⟨"schemaValidation", true, []⟩,
   ⟨"customValidation", false,
     [⟨.customValidationException "Title length must be greater than 10 characters",
       "Unknown error: Title length must be greater than 10 characters"⟩]⟩,
   ⟨"elementOrderValidation", true, []⟩]

end Sample

/-! ## Shared lemmas -/

/-- The helper never gets past its first statement: it reads `currentElementName` inside the
dead zone of that binding. -/
theorem helper_reads_unset_binding (element : XmlNode) (expectedOrder : Lookup)
    (currentPosition : Nat) :
    NoCaching.validateElementOrderHelper element expectedOrder currentPosition
      = .error (.referenceError "Cannot access 'currentElementName' before initialization") := by
  cases element
  rfl

/-- With any defined read of the root's name in the order map, the document-level check leaves
through the helper's ReferenceError. -/
theorem validateElementOrder_of_defined (xmlDoc : XmlDocument) (elementOrderMap : OrderMap)
    (h : lookup elementOrderMap xmlDoc.root.name ≠ .undefined) :
    NoCaching.validateElementOrder xmlDoc elementOrderMap
      = .error (.referenceError "Cannot access 'currentElementName' before initialization") := by
  simp [NoCaching.validateElementOrder, h, helper_reads_unset_binding]

/-- Without a defined read of the root's name, the document-level check completes. -/
theorem validateElementOrder_of_undefined (xmlDoc : XmlDocument) (elementOrderMap : OrderMap)
    (h : lookup elementOrderMap xmlDoc.root.name = .undefined) :
    NoCaching.validateElementOrder xmlDoc elementOrderMap = .ok () := by
  simp [NoCaching.validateElementOrder, h]

/-- A one-entry map gives its key that entry. -/
theorem lookup_single (key : String) (order : List (Option String)) :
    lookup [(key, order)] key = .own order := by
  simp [lookup]

/-! ## Order validation (C1 - C3) -/

/-- C1. With the order map giving the root's name the expected order `[a, b, c]` and a root whose
children are exactly `a`, `b`, `c` in that order, `validateElementOrder` does not complete: the
helper reads `currentElementName` before its declaration and the ReferenceError leaves the
function. -/
theorem validateElementOrder_matching_children_raises (r a b c : String) :
    NoCaching.validateElementOrder
        ⟨.mk none r [] "" [.mk none a [] "" [], .mk none b [] "" [], .mk none c [] "" []]⟩
        [(r, [some a, some b, some c])]
      = .error (.referenceError "Cannot access 'currentElementName' before initialization") := by
  apply validateElementOrder_of_defined
  simp [XmlNode.name, lookup_single]

/-- C2. With the expected order `[a, b, c]` for the root and root children `[a, c, b]`, what
leaves `validateElementOrder` is the helper's ReferenceError, which names neither the expected
`b` nor the found `c`. -/
theorem validateElementOrder_swapped_children_raises (r a b c : String) :
    NoCaching.validateElementOrder
        ⟨.mk none r [] "" [.mk none a [] "" [], .mk none c [] "" [], .mk none b [] "" []]⟩
        [(r, [some a, some b, some c])]
      = .error (.referenceError "Cannot access 'currentElementName' before initialization") := by
  apply validateElementOrder_of_defined
  simp [XmlNode.name, lookup_single]

/-- C3. With a non-empty expected order for the root and root children that are a proper prefix
of it (the empty prefix included), what leaves `validateElementOrder` is the helper's
ReferenceError, not a missing-element violation naming the first absent element. -/
theorem validateElementOrder_missing_children_raises (r : String) (present : List String)
    (absent : String) (later : List String) :
    NoCaching.validateElementOrder
        ⟨.mk none r [] "" (present.map (fun n => .mk none n [] "" []))⟩
        [(r, present.map some ++ some absent :: later.map some)]
      = .error (.referenceError "Cannot access 'currentElementName' before initialization") := by
  apply validateElementOrder_of_defined
  simp [XmlNode.name, lookup_single]

/-! ## The orchestrator (C4 - C8) -/

/-- A throw out of `mapExcept` is a throw of the callback on some element. -/
theorem mapExcept_error {α β : Type} (f : α → Except JsError β) (l : List α) (e : JsError)
    (h : mapExcept f l = .error e) : ∃ a ∈ l, f a = .error e := by
  induction l with
  | nil => simp [mapExcept] at h
  | cons a rest ih =>
    unfold mapExcept at h
    cases hfa : f a with
    | error e1 =>
      rw [hfa] at h
      simp at h
      exact ⟨a, by simp, by rw [hfa, h]⟩
    | ok b =>
      rw [hfa] at h
      cases hrest : mapExcept f rest with
      | error e2 =>
        rw [hrest] at h
        simp at h
        obtain ⟨x, hx, hfx⟩ := ih (by rw [hrest, h])
        exact ⟨x, by simp [hx], hfx⟩
      | ok bs =>
        rw [hrest] at h
        simp at h

/-- Wrapping a diagnostic throws at its first statement. -/
theorem wrapDiagnostic_raises (xmlDoc xsdDoc : XmlDocument) (d : Diagnostic) :
    NoCaching.wrapDiagnostic xmlDoc xsdDoc d
      = .error (.typeError "xmlDoc.getElementsByTagName is not a function") := by
  rfl

/-- What `wrapDiagnostic` throws has no `code`. -/
theorem wrapDiagnostic_error_code (xmlDoc xsdDoc : XmlDocument) (d : Diagnostic) (e : JsError)
    (h : NoCaching.wrapDiagnostic xmlDoc xsdDoc d = .error e) : e.code = none := by
  rw [wrapDiagnostic_raises] at h
  cases h
  rfl

/-- With at least one diagnostic the structural validator throws the TypeError of the first
wrapping; with none it throws its exception, which then carries nothing. -/
theorem validateAgainstSchema_of_invalid (validate : Primitive) (xmlDoc xsdDoc : XmlDocument)
    (hinvalid : (validate xmlDoc xsdDoc).isValid = false) :
    NoCaching.validateAgainstSchema validate xmlDoc xsdDoc
      = (if (validate xmlDoc xsdDoc).validationErrors = [] then
          .error (.schemaValidationException "Schema validation failed" [])
        else .error (.typeError "xmlDoc.getElementsByTagName is not a function")) := by
  unfold NoCaching.validateAgainstSchema
  simp only [hinvalid]
  cases hd : (validate xmlDoc xsdDoc).validationErrors with
  | nil => rfl
  | cons d rest => simp [mapExcept, wrapDiagnostic_raises]

/-- What the structural validator throws has no `code`. -/
theorem validateAgainstSchema_error_code (validate : Primitive) (xmlDoc xsdDoc : XmlDocument)
    (e : JsError) (h : NoCaching.validateAgainstSchema validate xmlDoc xsdDoc = .error e) :
    e.code = none := by
  unfold NoCaching.validateAgainstSchema at h
  cases hv : (validate xmlDoc xsdDoc).isValid with
  | true =>
    simp [hv] at h
  | false =>
    cases hmap : mapExcept (NoCaching.wrapDiagnostic xmlDoc xsdDoc)
        (validate xmlDoc xsdDoc).validationErrors with
    | error e1 =>
      simp [hv, hmap] at h
      obtain ⟨d, _, hd⟩ := mapExcept_error _ _ _ hmap
      rw [← h]
      exact wrapDiagnostic_error_code xmlDoc xsdDoc d _ hd
    | ok validationErrors =>
      simp [hv, hmap] at h
      rw [← h]; rfl

/-- The title loop either completes or throws the custom exception. -/
theorem checkTitles_eq (titles : List XmlNode) :
    NoCaching.checkTitles titles
      = if ∃ t ∈ titles, jsLength t.text ≤ 10 then
          .error (.customValidationException "Title length must be greater than 10 characters")
        else .ok () := by
  induction titles with
  | nil => simp [NoCaching.checkTitles]
  | cons t rest ih =>
    unfold NoCaching.checkTitles
    by_cases ht : jsLength t.text ≤ 10
    · simp [ht]
    · simp only [ht, if_false, ih]
      simp [ht]

/-- What the custom-rule validator throws has no `code`. -/
theorem validateCustomRules_error_code (xmlDoc : XmlDocument) (e : JsError)
    (h : NoCaching.validateCustomRules xmlDoc = .error e) : e.code = none := by
  unfold NoCaching.validateCustomRules at h
  rw [checkTitles_eq] at h
  split at h
  · cases h; rfl
  · cases h

/-- What recording one schema element throws has no `code`. -/
theorem recordElement_error_code (m : OrderMap) (parentName : String)
    (elementName : Option String) (e : JsError)
    (h : NoCaching.recordElement m parentName elementName = .error e) : e.code = none := by
  unfold NoCaching.recordElement at h
  split at h
  · cases h
  · cases h
  · cases h; rfl

/-- What recording the schema elements throws has no `code`. -/
theorem recordElements_error_code (l : List (XmlNode × String)) (m : OrderMap) (e : JsError)
    (h : NoCaching.recordElements m l = .error e) : e.code = none := by
  induction l generalizing m with
  | nil => simp [NoCaching.recordElements] at h
  | cons p rest ih =>
    obtain ⟨element, parentName⟩ := p
    unfold NoCaching.recordElements at h
    split at h
    · rename_i e1 h1
      cases h
      exact recordElement_error_code _ _ _ _ h1
    · exact ih _ h

/-- The name `element` is not a member of `Object.prototype`. -/
theorem lookup_element_not_inherited (m : OrderMap) (n : Option Nat) :
    lookup m "element" ≠ .inherited n := by
  unfold lookup
  cases m.find? (fun p => p.1 == "element") with
  | some p => simp
  | none =>
    have h : objectPrototypeMembers.find? (fun p => p.1 == "element") = none := by decide
    simp [h]

/-- Recording elements whose grandparent is called `element` never throws. -/
theorem recordElements_total (l : List (XmlNode × String)) (h : ∀ p ∈ l, p.2 = "element")
    (m : OrderMap) : ∃ m1, NoCaching.recordElements m l = .ok m1 := by
  induction l generalizing m with
  | nil => exact ⟨m, rfl⟩
  | cons p rest ih =>
    obtain ⟨element, parentName⟩ := p
    have hp : parentName = "element" := h (element, parentName) (by simp)
    subst hp
    have hrest : ∀ q ∈ rest, q.2 = "element" := fun q hq => h q (by simp [hq])
    unfold NoCaching.recordElements
    cases hl : lookup m "element" with
    | own order =>
      simp only [NoCaching.recordElement, hl]
      exact ih hrest _
    | undefined =>
      simp only [NoCaching.recordElement, hl]
      exact ih hrest _
    | inherited n => exact absurd hl (lookup_element_not_inherited m n)

/-- Every match of the schema query has a grandparent called `element`. -/
theorem sequenceElements_parent (xsdDoc : XmlDocument) :
    ∀ p ∈ NoCaching.sequenceElements xsdDoc, p.2 = "element" := by
  intro p hp
  unfold NoCaching.sequenceElements at hp
  split at hp
  · simp only [List.mem_flatMap, List.mem_filter, List.mem_map, Bool.and_eq_true,
      beq_iff_eq] at hp
    obtain ⟨e, ⟨_, he, _⟩, q, _, c, _, hc⟩ := hp
    rw [← hc]
    simp only [XmlNode.isXs, Bool.and_eq_true, beq_iff_eq] at he
    exact he.1
  · simp at hp

/-- Extracting the order map from a schema document never throws. -/
theorem extractElementOrderFromXsd_total (xsdDoc : XmlDocument) :
    ∃ m, NoCaching.extractElementOrderFromXsd xsdDoc = .ok m :=
  recordElements_total _ (sequenceElements_parent xsdDoc) []

/-- The document-level order check completes or throws the helper's ReferenceError. -/
theorem validateElementOrder_cases (xmlDoc : XmlDocument) (elementOrderMap : OrderMap) :
    NoCaching.validateElementOrder xmlDoc elementOrderMap = .ok () ∨
    NoCaching.validateElementOrder xmlDoc elementOrderMap
      = .error (.referenceError "Cannot access 'currentElementName' before initialization") := by
  by_cases h : lookup elementOrderMap xmlDoc.root.name = .undefined
  · exact Or.inl (validateElementOrder_of_undefined _ _ h)
  · exact Or.inr (validateElementOrder_of_defined _ _ h)

/-- What the order class throws has no `code`. -/
theorem elementOrderValidation_error_code (xmlDoc xsdDoc : XmlDocument) (e : JsError)
    (h : NoCaching.elementOrderValidation xmlDoc xsdDoc = .error e) : e.code = none := by
  unfold NoCaching.elementOrderValidation at h
  split at h
  · rename_i e1 h1
    cases h
    exact recordElements_error_code _ _ _ h1
  · rename_i m hm
    rcases validateElementOrder_cases xmlDoc m with h1 | h1
    · rw [h1] at h; cases h
    · rw [h1] at h; cases h; rfl

/-- A class whose throws carry no `code` always yields its record. -/
theorem runClass_eq (name : String) (attempt : Except JsError Unit)
    (h : ∀ e, attempt = .error e → e.code = none) :
    NoCaching.runClass name attempt = .ok (classRecord name attempt) := by
  cases attempt with
  | ok u => rfl
  | error e =>
    have hc := h e rfl
    simp [NoCaching.runClass, NoCaching.formatValidationErrors, mapExcept,
      NoCaching.formatValidationError, hc, classRecord]

/-- The record of a class is failed exactly when the attempt threw. -/
theorem classRecord_isValid (name : String) (attempt : Except JsError Unit) :
    (classRecord name attempt).isValid = false ↔ ∃ e, attempt = .error e := by
  cases attempt <;> simp [classRecord]

/-- The record of a class carries the name of the class. -/
theorem classRecord_name (name : String) (attempt : Except JsError Unit) :
    (classRecord name attempt).name = name := by
  cases attempt <;> rfl

/-- The orchestrator always returns, with the three class records in their fixed order. -/
theorem validateXML_eq (validate : Primitive) (xmlDoc xsdDoc : XmlDocument) :
    NoCaching.validateXML validate xmlDoc xsdDoc
      = .ok
        ⟨[classRecord "schemaValidation"
            ((NoCaching.validateAgainstSchema validate xmlDoc xsdDoc).map (fun _ => ())),
          classRecord "customValidation" (NoCaching.validateCustomRules xmlDoc),
          classRecord "elementOrderValidation"
            (NoCaching.elementOrderValidation xmlDoc xsdDoc)].all (fun r => r.isValid),
         [classRecord "schemaValidation"
            ((NoCaching.validateAgainstSchema validate xmlDoc xsdDoc).map (fun _ => ())),
          classRecord "customValidation" (NoCaching.validateCustomRules xmlDoc),
          classRecord "elementOrderValidation"
            (NoCaching.elementOrderValidation xmlDoc xsdDoc)]⟩ := by
  have h1 : ∀ e, (NoCaching.validateAgainstSchema validate xmlDoc xsdDoc).map (fun _ => ())
      = .error e → e.code = none := by
    intro e he
    cases hv : NoCaching.validateAgainstSchema validate xmlDoc xsdDoc with
    | ok b => rw [hv] at he; cases he
    | error e1 =>
      rw [hv] at he
      cases he
      exact validateAgainstSchema_error_code validate xmlDoc xsdDoc _ hv
  unfold NoCaching.validateXML
  rw [runClass_eq _ _ h1, runClass_eq _ _ (validateCustomRules_error_code xmlDoc),
    runClass_eq _ _ (elementOrderValidation_error_code xmlDoc xsdDoc)]
  rfl

/-- Mapping the result away keeps the throw. -/
theorem map_unit_error {α : Type} (x : Except JsError α) :
    (∃ e, x.map (fun _ => ()) = .error e) ↔ ∃ e, x = .error e := by
  cases x with
  | ok a => constructor <;> (rintro ⟨e, he⟩; cases he)
  | error e1 => constructor <;> (intro _; exact ⟨e1, rfl⟩)

/-- C4. For every document, schema and primitive, the no-caching `validateXML` returns exactly
three class records, named schemaValidation, customValidation and elementOrderValidation in that
order, and the `isValid` flag of each is false exactly when the validator of that class threw
(for the order class: `validateElementOrder` on the order map extracted from the schema),
whatever the other two did. -/
theorem validateXML_three_isolated_records (validate : Primitive)
    (xmlDoc xsdDoc : XmlDocument) :
    ∃ (overall : Bool) (r1 r2 r3 : ClassResult) (elementOrderMap : OrderMap),
      NoCaching.validateXML validate xmlDoc xsdDoc = .ok ⟨overall, [r1, r2, r3]⟩ ∧
      r1.name = "schemaValidation" ∧ r2.name = "customValidation" ∧
      r3.name = "elementOrderValidation" ∧
      (r1.isValid = false ↔
        ∃ e, NoCaching.validateAgainstSchema validate xmlDoc xsdDoc = .error e) ∧
      (r2.isValid = false ↔ ∃ e, NoCaching.validateCustomRules xmlDoc = .error e) ∧
      NoCaching.extractElementOrderFromXsd xsdDoc = .ok elementOrderMap ∧
      (r3.isValid = false ↔
        ∃ e, NoCaching.validateElementOrder xmlDoc elementOrderMap = .error e) := by
  obtain ⟨m, hm⟩ := extractElementOrderFromXsd_total xsdDoc
  refine ⟨_, _, _, _, m, validateXML_eq validate xmlDoc xsdDoc, classRecord_name _ _,
    classRecord_name _ _, classRecord_name _ _, ?_, classRecord_isValid _ _, hm, ?_⟩
  · rw [classRecord_isValid, map_unit_error]
  · rw [classRecord_isValid]
    simp [NoCaching.elementOrderValidation, hm]

/-- C5. For every document, schema and primitive, the no-caching `validateXML` returns, and the
overall `isValid` it returns is the conjunction of the `isValid` flags of its class records. -/
theorem validateXML_overall_is_conjunction (validate : Primitive)
    (xmlDoc xsdDoc : XmlDocument) :
    ∃ o : Outcome, NoCaching.validateXML validate xmlDoc xsdDoc = .ok o ∧
      (o.isValid = true ↔ ∀ r ∈ o.results, r.isValid = true) ∧
      o.isValid = o.results.all (fun r => r.isValid) := by
  refine ⟨_, validateXML_eq validate xmlDoc xsdDoc, ?_, rfl⟩
  simp

/-- C6. When the primitive reports a document invalid, the structural validator raises its
exception only if there is no diagnostic at all: with `n ≥ 1` diagnostics the first wrapping
calls `xmlDoc.getElementsByTagName`, which a parsed document does not have, and a TypeError
leaves the validator.  Whatever `n` is, the schemaValidation record of `validateXML` is failed
and lists exactly one entry, the formatted throw, not `n` violations. -/
theorem validateXML_schema_record_has_one_entry (validate : Primitive)
    (xmlDoc xsdDoc : XmlDocument) (hinvalid : (validate xmlDoc xsdDoc).isValid = false) :
    ((validate xmlDoc xsdDoc).validationErrors ≠ [] →
      NoCaching.validateAgainstSchema validate xmlDoc xsdDoc
        = .error (.typeError "xmlDoc.getElementsByTagName is not a function")) ∧
    ((validate xmlDoc xsdDoc).validationErrors = [] →
      NoCaching.validateAgainstSchema validate xmlDoc xsdDoc
        = .error (.schemaValidationException "Schema validation failed" [])) ∧
    (∀ e n, NoCaching.validateAgainstSchema validate xmlDoc xsdDoc = .error e →
      e.carried = some n → n = 0) ∧
    (∃ o r, NoCaching.validateXML validate xmlDoc xsdDoc = .ok o ∧
      o.record "schemaValidation" = some r ∧ r.isValid = false ∧ r.errors.length = 1) := by
  have h := validateAgainstSchema_of_invalid validate xmlDoc xsdDoc hinvalid
  refine ⟨?_, ?_, ?_, ?_⟩
  · intro hne
    rw [h, if_neg hne]
  · intro hnil
    rw [h, if_pos hnil]
  · intro e n he hn
    rw [h] at he
    split at he
    · cases he
      simpa [JsError.carried] using hn.symm
    · cases he
      simp [JsError.carried] at hn
  · refine ⟨_, classRecord "schemaValidation"
      ((NoCaching.validateAgainstSchema validate xmlDoc xsdDoc).map (fun _ => ())),
      validateXML_eq validate xmlDoc xsdDoc, ?_, ?_, ?_⟩
    · simp [Outcome.record, List.find?, classRecord_name]
    · rw [h]; split <;> rfl
    · rw [h]; split <;> rfl

/-- C6 at the book document, which the primitive rejects with two diagnostics: the validator
throws the TypeError and the record lists the one formatted throw. -/
theorem validateXML_schema_record_has_one_entry_witness :
    (Sample.rejectingTwice Sample.shortTitleBook Sample.bookSchema).isValid = false ∧
    (Sample.rejectingTwice Sample.shortTitleBook Sample.bookSchema).validationErrors.length
      = 2 ∧
    NoCaching.validateAgainstSchema Sample.rejectingTwice Sample.shortTitleBook
        Sample.bookSchema
      = .error (.typeError "xmlDoc.getElementsByTagName is not a function") ∧
    (∃ o r, NoCaching.validateXML Sample.rejectingTwice Sample.shortTitleBook Sample.bookSchema
        = .ok o ∧
      o.record "schemaValidation" = some r ∧ r.isValid = false ∧ r.errors.length = 1) :=
  ⟨rfl, rfl,
    (validateXML_schema_record_has_one_entry Sample.rejectingTwice Sample.shortTitleBook
      Sample.bookSchema rfl).1 (by decide),
    (validateXML_schema_record_has_one_entry Sample.rejectingTwice Sample.shortTitleBook
      Sample.bookSchema rfl).2.2.2⟩

/-- C7, as stated, fails: a document with two title elements of at most 10 code units gets a
customValidation record with one entry, not two; and a document whose one short title is in a
default namespace gets a record with no entry, the query `//title` selecting no element in a
namespace. -/
theorem customValidation_record_not_one_per_title :
    (shortTitlesByName Sample.twoShortTitles).length = 2 ∧
    (∃ o r, NoCaching.validateXML Sample.accepting Sample.twoShortTitles Sample.bookSchema
        = .ok o ∧
      o.record "customValidation" = some r ∧ r.errors.length = 1) ∧
    (shortTitlesByName Sample.namespacedShortTitle).length = 1 ∧
    (∃ o r, NoCaching.validateXML Sample.accepting Sample.namespacedShortTitle
        Sample.bookSchema = .ok o ∧
      o.record "customValidation" = some r ∧ r.errors.length = 0) :=
  ⟨rfl, ⟨_, _, rfl, rfl, rfl⟩, rfl, ⟨_, _, rfl, rfl, rfl⟩⟩

/-- C7, amended. For every document with `k` title elements in no namespace (the elements the
query `//title` selects) of at most 10 code units, the customValidation record of `validateXML`
lists one violation when `k` is positive and none when `k` is zero: the rule stops at the first
offending title. -/
theorem customValidation_record_lists_first_only (validate : Primitive)
    (xmlDoc xsdDoc : XmlDocument) :
    ∃ o r, NoCaching.validateXML validate xmlDoc xsdDoc = .ok o ∧
      o.record "customValidation" = some r ∧
      r.errors.length = min (shortTitles xmlDoc).length 1 := by
  refine ⟨_, classRecord "customValidation" (NoCaching.validateCustomRules xmlDoc),
    validateXML_eq validate xmlDoc xsdDoc, ?_, ?_⟩
  · simp [Outcome.record, List.find?, classRecord_name]
  · unfold NoCaching.validateCustomRules
    rw [checkTitles_eq]
    by_cases h : ∃ t ∈ findAll xmlDoc "title", jsLength t.text ≤ 10
    · obtain ⟨t, ht, hlen⟩ := h
      have hmem : t ∈ shortTitles xmlDoc := by
        simp [shortTitles, ht, hlen]
      have hpos : 0 < (shortTitles xmlDoc).length := List.length_pos_of_mem hmem
      have hex : ∃ t ∈ findAll xmlDoc "title", jsLength t.text ≤ 10 := ⟨t, ht, hlen⟩
      simp only [hex, if_true, classRecord, List.length_singleton]
      omega
    · have hnil : shortTitles xmlDoc = [] := by
        simp only [shortTitles, List.filter_eq_nil_iff, decide_eq_true_eq]
        intro t ht hlen
        exact h ⟨t, ht, hlen⟩
      simp [h, classRecord, hnil]

/-- C8, as stated, fails.  In the book document whose elements are in a default namespace the
only title has the text `short`, the primitive accepts and the order is conformant, yet the
customValidation record is passed and the overall `isValid` is true: the query `//title`
selects no element in a namespace.  In `<constructor><title>short</title></constructor>` the
same three conditions hold, yet the elementOrderValidation record is failed: the root's name
reads as a member of `Object.prototype` in the order map and the helper throws. -/
theorem validateXML_short_title_not_end_to_end :
    ((Sample.accepting Sample.namespacedShortTitle Sample.bookSchema).isValid = true ∧
      NoCaching.extractElementOrderFromXsd Sample.bookSchema = .ok [] ∧
      specConformant [] Sample.namespacedShortTitle.root = true ∧
      ((descendantsOrSelf Sample.namespacedShortTitle.root).filter
        (fun n => n.name == "title")).map XmlNode.text = ["short"] ∧
      NoCaching.validateXML Sample.accepting Sample.namespacedShortTitle Sample.bookSchema
        = .ok ⟨true,
            [⟨"schemaValidation", true, []⟩, ⟨"customValidation", true, []⟩,
             ⟨"elementOrderValidation", true, []⟩]⟩) ∧
    ((Sample.accepting Sample.constructorDocument Sample.bookSchema).isValid = true ∧
      specConformant [] Sample.constructorDocument.root = true ∧
      ((descendantsOrSelf Sample.constructorDocument.root).filter
        (fun n => n.name == "title")).map XmlNode.text = ["short"] ∧
      ∃ o r, NoCaching.validateXML Sample.accepting Sample.constructorDocument
          Sample.bookSchema = .ok o ∧
        o.record "elementOrderValidation" = some r ∧ r.isValid = false) :=
  ⟨⟨rfl, rfl, rfl, rfl, rfl⟩, ⟨rfl, rfl, rfl, _, _, rfl, rfl, rfl⟩⟩

/-- C8, amended. End to end: when the primitive reports the document valid, the order map
extracted from the schema has no entry under the name of the root element (the read of that
name yields `undefined`), and the only title element in no namespace has the text `short`,
`validateXML` returns overall `isValid` false, with the schemaValidation and
elementOrderValidation records passed and empty and the customValidation record failed with
exactly one violation. -/
theorem validateXML_short_title_end_to_end (validate : Primitive)
    (xmlDoc xsdDoc : XmlDocument) (title : XmlNode) (elementOrderMap : OrderMap)
    (hvalid : (validate xmlDoc xsdDoc).isValid = true)
    (hmap : NoCaching.extractElementOrderFromXsd xsdDoc = .ok elementOrderMap)
    (hread : lookup elementOrderMap xmlDoc.root.name = .undefined)
    (honly : findAll xmlDoc "title" = [title])
    (hshort : title.text = "short") :
    NoCaching.validateXML validate xmlDoc xsdDoc
      = .ok ⟨false,
          [⟨"schemaValidation", true, []⟩,
           ⟨"customValidation", false,
             [⟨.customValidationException "Title length must be greater than 10 characters",
               "Unknown error: Title length must be greater than 10 characters"⟩]⟩,
           ⟨"elementOrderValidation", true, []⟩]⟩ := by
  have hschema : NoCaching.validateAgainstSchema validate xmlDoc xsdDoc = .ok true := by
    simp [NoCaching.validateAgainstSchema, hvalid]
  have hcustom : NoCaching.validateCustomRules xmlDoc
      = .error (.customValidationException
          "Title length must be greater than 10 characters") := by
    unfold NoCaching.validateCustomRules
    rw [honly]
    have hlen : jsLength title.text ≤ 10 := by rw [hshort]; decide
    simp [NoCaching.checkTitles, hlen]
  have horder : NoCaching.elementOrderValidation xmlDoc xsdDoc = .ok () := by
    unfold NoCaching.elementOrderValidation
    rw [hmap]
    exact validateElementOrder_of_undefined xmlDoc elementOrderMap hread
  rw [validateXML_eq, hschema, hcustom, horder]
  rfl

/-- C8 amended, at the book document with the short title, against the book schema, whose
extracted order map is empty, and against a schema whose extracted order map has the entry
`element`. -/
theorem validateXML_short_title_end_to_end_witness :
    (Sample.accepting Sample.shortTitleBook Sample.bookSchema).isValid = true ∧
    NoCaching.extractElementOrderFromXsd Sample.bookSchema = .ok [] ∧
    NoCaching.extractElementOrderFromXsd Sample.sequenceNamedSchema
      = .ok [("element", [some "item"])] ∧
    lookup [("element", [some "item"])] Sample.shortTitleBook.root.name = .undefined ∧
    findAll Sample.shortTitleBook "title" = [.mk none "title" [] "short" []] ∧
    NoCaching.validateXML Sample.accepting Sample.shortTitleBook Sample.bookSchema
      = .ok ⟨false,
          [⟨"schemaValidation", true, []⟩,
           ⟨"customValidation", false,
             [⟨.customValidationException "Title length must be greater than 10 characters",
               "Unknown error: Title length must be greater than 10 characters"⟩]⟩,
           ⟨"elementOrderValidation", true, []⟩]⟩ ∧
    NoCaching.validateXML Sample.accepting Sample.shortTitleBook Sample.sequenceNamedSchema
      = .ok ⟨false,
          [⟨"schemaValidation", true, []⟩,
           ⟨"customValidation", false,
             [⟨.customValidationException "Title length must be greater than 10 characters",
               "Unknown error: Title length must be greater than 10 characters"⟩]⟩,
           ⟨"elementOrderValidation", true, []⟩]⟩ :=
  ⟨rfl, rfl, rfl, rfl, rfl,
    validateXML_short_title_end_to_end Sample.accepting Sample.shortTitleBook Sample.bookSchema
      (.mk none "title" [] "short" []) [] rfl rfl rfl rfl rfl,
    validateXML_short_title_end_to_end Sample.accepting Sample.shortTitleBook
      Sample.sequenceNamedSchema (.mk none "title" [] "short" []) [("element", [some "item"])]
      rfl rfl rfl rfl rfl⟩

/-! ## The class validators (C9, C10) -/

/-- The title loop of the caching variant either completes or throws the custom exception. -/
theorem caching_checkTitles_eq (titles : List XmlNode) :
    Caching.checkTitles titles
      = if ∃ t ∈ titles, jsLength t.text ≤ 10 then
          .error (.customValidationException "Title length must be greater than 10 characters")
        else .ok () := by
  induction titles with
  | nil => simp [Caching.checkTitles]
  | cons t rest ih =>
    unfold Caching.checkTitles
    by_cases ht : jsLength t.text ≤ 10
    · simp [ht]
    · simp only [ht, if_false, ih]
      simp [ht]

/-- C9, as stated, fails: the book document whose elements are in a default namespace has an
element named `title` with a text of 5 code units, and `validateCustomRules` completes without
raising, in both variants. -/
theorem validateCustomRules_skips_namespaced_title :
    (shortTitlesByName Sample.namespacedShortTitle).map XmlNode.text = ["short"] ∧
    NoCaching.validateCustomRules Sample.namespacedShortTitle = .ok () ∧
    Caching.validateCustomRules Sample.namespacedShortTitle = .ok () :=
  ⟨rfl, rfl, rfl⟩

/-- C9, amended. In both variants `validateCustomRules` throws `CustomValidationException` if and
only if some element named `title` that is in no namespace (an element the query `//title`
selects) has text of length 10 or less, and completes otherwise; such a title of exactly 10
characters is rejected, one of 11 characters is accepted, and a document without a title element
passes. -/
theorem validateCustomRules_raises_iff_short_title (xmlDoc : XmlDocument) :
    (NoCaching.validateCustomRules xmlDoc
        = .error (.customValidationException "Title length must be greater than 10 characters")
      ↔ ∃ t ∈ findAll xmlDoc "title", jsLength t.text ≤ 10) ∧
    (NoCaching.validateCustomRules xmlDoc = .ok ()
      ↔ ∀ t ∈ findAll xmlDoc "title", 10 < jsLength t.text) ∧
    (Caching.validateCustomRules xmlDoc
        = .error (.customValidationException "Title length must be greater than 10 characters")
      ↔ ∃ t ∈ findAll xmlDoc "title", jsLength t.text ≤ 10) ∧
    (Caching.validateCustomRules xmlDoc = .ok ()
      ↔ ∀ t ∈ findAll xmlDoc "title", 10 < jsLength t.text) ∧
    NoCaching.validateCustomRules ⟨.mk none "title" [] "0123456789" []⟩
      = .error (.customValidationException "Title length must be greater than 10 characters") ∧
    Caching.validateCustomRules ⟨.mk none "title" [] "0123456789" []⟩
      = .error (.customValidationException "Title length must be greater than 10 characters") ∧
    NoCaching.validateCustomRules ⟨.mk none "title" [] "0123456789a" []⟩ = .ok () ∧
    Caching.validateCustomRules ⟨.mk none "title" [] "0123456789a" []⟩ = .ok () ∧
    NoCaching.validateCustomRules ⟨.mk none "note" [] "brief" [.mk none "body" [] "brief" []]⟩ = .ok () ∧
    Caching.validateCustomRules ⟨.mk none "note" [] "brief" [.mk none "body" [] "brief" []]⟩ = .ok () := by
  refine ⟨?_, ?_, ?_, ?_, rfl, rfl, rfl, rfl, rfl, rfl⟩
  · unfold NoCaching.validateCustomRules
    rw [checkTitles_eq]
    by_cases h : ∃ t ∈ findAll xmlDoc "title", jsLength t.text ≤ 10
    · simp only [h, if_true]
    · simp only [h, if_false, iff_false]
      intro hc; cases hc
  · unfold NoCaching.validateCustomRules
    rw [checkTitles_eq]
    by_cases h : ∃ t ∈ findAll xmlDoc "title", jsLength t.text ≤ 10
    · simp only [h, if_true]
      constructor
      · intro hc; cases hc
      · intro hall
        obtain ⟨t, ht, hlen⟩ := h
        have := hall t ht
        omega
    · simp only [h, if_false, true_iff]
      intro t ht
      by_contra hlen
      exact h ⟨t, ht, by omega⟩
  · unfold Caching.validateCustomRules
    rw [caching_checkTitles_eq]
    by_cases h : ∃ t ∈ findAll xmlDoc "title", jsLength t.text ≤ 10
    · simp only [h, if_true]
    · simp only [h, if_false, iff_false]
      intro hc; cases hc
  · unfold Caching.validateCustomRules
    rw [caching_checkTitles_eq]
    by_cases h : ∃ t ∈ findAll xmlDoc "title", jsLength t.text ≤ 10
    · simp only [h, if_true]
      constructor
      · intro hc; cases hc
      · intro hall
        obtain ⟨t, ht, hlen⟩ := h
        have := hall t ht
        omega
    · simp only [h, if_false, true_iff]
      intro t ht
      by_contra hlen
      exact h ⟨t, ht, by omega⟩

/-- C10. The caching `validateAgainstSchema` throws `SchemaValidationException` if and only if
the primitive reports the document invalid, the exception then carries the diagnostics of the
primitive, same entries in the same order; when the primitive reports valid it returns true. -/
theorem caching_validateAgainstSchema_raises_iff_invalid (validate : Primitive)
    (xmlDoc xsdDoc : XmlDocument) :
    ((∃ e, Caching.validateAgainstSchema validate xmlDoc xsdDoc = .error e)
      ↔ (validate xmlDoc xsdDoc).isValid = false) ∧
    (Caching.validateAgainstSchema validate xmlDoc xsdDoc
        = .error (.schemaValidationException "Schema validation failed"
            ((validate xmlDoc xsdDoc).validationErrors.map ErrorItem.raw))
      ↔ (validate xmlDoc xsdDoc).isValid = false) ∧
    (Caching.validateAgainstSchema validate xmlDoc xsdDoc = .ok true
      ↔ (validate xmlDoc xsdDoc).isValid = true) := by
  cases h : (validate xmlDoc xsdDoc).isValid <;>
    simp [Caching.validateAgainstSchema, h]

/-! ## Facet validators (C11 - C17) -/

/-- A facet test holds exactly when the facet is present and its value passes the test. -/
theorem facet_any_iff (facet : Option Nat) (test : Nat → Bool) :
    facet.any test = true ↔ ∃ m, facet = some m ∧ test m = true := by
  cases facet <;> simp [Option.any]

/-- C11, as stated, fails: the value `ab` violates both `minLength = 5` and the pattern `xyz`,
and `validateString` appends one violation, not two. -/
theorem validateString_two_unmet_facets_one_violation :
    jsLength "ab" < 5 ∧ Sample.literalTest "xyz" "ab" = .ok false ∧
    ∃ out, NoCaching.validateString Sample.literalTest "ab"
        ⟨some "string", some { minLength := some 5, pattern := some "xyz" }⟩ [] none
        = .ok (false, out) ∧ out.length ≠ 2 :=
  ⟨by decide, rfl, _, rfl, by decide⟩

/-- C11, amended. For every value that violates the `minLength` facet, whether or not it also
violates the pattern facet, `validateString` appends exactly one violation, the one for
`minLength`, and returns false: it stops after the first unmet constraint. -/
theorem validateString_stops_after_minLength (regExpTest : RegExpTest) (elementValue : String)
    (simpleType : SimpleType) (validationResults : List Violation) (element : Option XmlNode)
    (minLength : Nat)
    (hfacet : (simpleType.restrictions.getD {}).minLength = some minLength)
    (hshort : jsLength elementValue < minLength) :
    NoCaching.validateString regExpTest elementValue simpleType validationResults element
      = .ok (false, validationResults ++
          [⟨"error", 2, "String length is less than minimum allowed length "
              ++ toString minLength, element, "dataTypeValidationError"⟩]) := by
  simp [NoCaching.validateString, hfacet, hshort]

/-- C11 amended, at the value `ab` with `minLength = 5` and the pattern `xyz`. -/
theorem validateString_stops_after_minLength_witness :
    jsLength "ab" < 5 ∧
    NoCaching.validateString Sample.literalTest "ab"
        ⟨some "string", some { minLength := some 5, pattern := some "xyz" }⟩ [] none
      = .ok (false, [] ++
          [⟨"error", 2, "String length is less than minimum allowed length "
              ++ toString 5, none, "dataTypeValidationError"⟩]) :=
  ⟨by decide,
    validateString_stops_after_minLength Sample.literalTest "ab"
      ⟨some "string", some { minLength := some 5, pattern := some "xyz" }⟩ [] none 5 rfl
      (by decide)⟩

/-- C12. For every value and every restriction set without a pattern facet, the no-caching
`validateString` returns true if and only if the length of the value is at least `minLength`
(when present) and at most `maxLength` (when present); when it returns true it appends nothing,
and when it returns false it appends a violation of category `dataTypeValidationError`. -/
theorem validateString_length_facets (regExpTest : RegExpTest) (elementValue : String)
    (simpleType : SimpleType) (validationResults : List Violation) (element : Option XmlNode)
    (hpattern : (simpleType.restrictions.getD {}).pattern = none) :
    ∃ (ok : Bool) (out : List Violation),
      NoCaching.validateString regExpTest elementValue simpleType validationResults element
        = .ok (ok, out) ∧
      (ok = true ↔
        (∀ m, (simpleType.restrictions.getD {}).minLength = some m → m ≤ jsLength elementValue) ∧
        (∀ m, (simpleType.restrictions.getD {}).maxLength = some m → jsLength elementValue ≤ m)) ∧
      (ok = true → out = validationResults) ∧
      (ok = false → ∃ v, out = validationResults ++ [v] ∧
        v.category = "dataTypeValidationError") := by
  unfold NoCaching.validateString
  simp only [hpattern]
  by_cases h1 : (simpleType.restrictions.getD {}).minLength.any
      (fun minLength => decide (jsLength elementValue < minLength)) = true
  · refine ⟨false, _, by rw [if_pos h1], ?_, by simp, fun _ => ⟨_, rfl, rfl⟩⟩
    simp only [facet_any_iff, decide_eq_true_eq] at h1
    obtain ⟨m, hm, hlt⟩ := h1
    simp only [Bool.false_eq_true, false_iff, not_and]
    intro hall
    have := hall m hm
    omega
  · by_cases h2 : (simpleType.restrictions.getD {}).maxLength.any
        (fun maxLength => decide (maxLength < jsLength elementValue)) = true
    · refine ⟨false, _, by rw [if_neg h1, if_pos h2], ?_, by simp, fun _ => ⟨_, rfl, rfl⟩⟩
      simp only [facet_any_iff, decide_eq_true_eq] at h2
      obtain ⟨m, hm, hlt⟩ := h2
      simp only [Bool.false_eq_true, false_iff, not_and]
      intro _ hall
      have := hall m hm
      omega
    · refine ⟨true, validationResults, by rw [if_neg h1, if_neg h2], ?_, fun _ => rfl, by simp⟩
      simp only [facet_any_iff, decide_eq_true_eq, not_exists, not_and, not_lt] at h1 h2
      simp only [true_iff]
      exact ⟨fun m hm => h1 m hm, fun m hm => h2 m hm⟩

/-- C12 at the value `hello` with `minLength = 2` and `maxLength = 8`. -/
theorem validateString_length_facets_witness :
    ∃ (ok : Bool) (out : List Violation),
      NoCaching.validateString Sample.literalTest "hello"
        ⟨some "string", some { minLength := some 2, maxLength := some 8 }⟩ [] none
        = .ok (ok, out) ∧
      (ok = true ↔
        (∀ m, ((⟨some "string", some { minLength := some 2, maxLength := some 8 }⟩ :
            SimpleType).restrictions.getD {}).minLength = some m → m ≤ jsLength "hello") ∧
        (∀ m, ((⟨some "string", some { minLength := some 2, maxLength := some 8 }⟩ :
            SimpleType).restrictions.getD {}).maxLength = some m → jsLength "hello" ≤ m)) ∧
      (ok = true → out = []) ∧
      (ok = false → ∃ v, out = [] ++ [v] ∧ v.category = "dataTypeValidationError") :=
  validateString_length_facets Sample.literalTest "hello"
    ⟨some "string", some { minLength := some 2, maxLength := some 8 }⟩ [] none rfl

/-- C13, as stated, fails: the pattern `a` does not match the entire value `xay`, only a part
of it, and `validateString` accepts `xay` with no violation. -/
theorem validateString_accepts_partial_match :
    "a" ≠ "xay" ∧ Sample.literalTest "a" "xay" = .ok true ∧
    NoCaching.validateString Sample.literalTest "xay"
        ⟨some "string", some { pattern := some "a" }⟩ [] none = .ok (true, []) :=
  ⟨by decide, rfl, rfl⟩

/-- C13, amended. For every value and pattern facet (the length facets, if any, being met), the
no-caching `validateString` accepts the value exactly when `new RegExp(pattern).test(value)` is
true, that is when the pattern matches somewhere in the value, and reports a pattern violation
when it is false; the caching `validateString` reports nothing whenever it returns. -/
theorem validateString_pattern_is_search (regExpTest : RegExpTest) (elementValue : String)
    (simpleType : SimpleType) (pattern : String) (validationResults : List Violation)
    (element : Option XmlNode)
    (hpattern : (simpleType.restrictions.getD {}).pattern = some pattern)
    (hmin : ∀ m, (simpleType.restrictions.getD {}).minLength = some m →
      m ≤ jsLength elementValue)
    (hmax : ∀ m, (simpleType.restrictions.getD {}).maxLength = some m →
      jsLength elementValue ≤ m) :
    (NoCaching.validateString regExpTest elementValue simpleType validationResults element
        = .ok (true, validationResults)
      ↔ regExpTest pattern elementValue = .ok true) ∧
    (regExpTest pattern elementValue = .ok false →
      NoCaching.validateString regExpTest elementValue simpleType validationResults element
        = .ok (false, validationResults ++
            [⟨"error", 2, "String does not match pattern " ++ pattern, element,
              "dataTypeValidationError"⟩])) ∧
    (∀ ok out, Caching.validateString regExpTest elementValue simpleType validationResults
        = .ok (ok, out) → ok = true ∧ out = validationResults) := by
  have h1 : (simpleType.restrictions.getD {}).minLength.any
      (fun minLength => decide (jsLength elementValue < minLength)) = false := by
    rw [Bool.eq_false_iff]
    intro h
    obtain ⟨m, hm, hlt⟩ := (facet_any_iff _ _).mp h
    have := hmin m hm
    simp only [decide_eq_true_eq] at hlt
    omega
  have h2 : (simpleType.restrictions.getD {}).maxLength.any
      (fun maxLength => decide (maxLength < jsLength elementValue)) = false := by
    rw [Bool.eq_false_iff]
    intro h
    obtain ⟨m, hm, hlt⟩ := (facet_any_iff _ _).mp h
    have := hmax m hm
    simp only [decide_eq_true_eq] at hlt
    omega
  have heq : NoCaching.validateString regExpTest elementValue simpleType validationResults
        element
      = (match regExpTest pattern elementValue with
        | .error e => .error e
        | .ok true => .ok (true, validationResults)
        | .ok false =>
          .ok (false, validationResults ++
            [⟨"error", 2, "String does not match pattern " ++ pattern, element,
              "dataTypeValidationError"⟩])) := by
    unfold NoCaching.validateString
    simp only [h1, h2, hpattern, Bool.false_eq_true, if_false]
  refine ⟨?_, ?_, ?_⟩
  · rw [heq]
    cases hre : regExpTest pattern elementValue with
    | error e => simp
    | ok b => cases b <;> simp
  · intro hre
    rw [heq, hre]
  · intro ok out hret
    unfold Caching.validateString at hret
    cases hr : simpleType.restrictions with
    | none => simp [hr] at hret
    | some r =>
      simp only [hr] at hret
      cases hp : r.pattern with
      | none =>
        simp only [hp] at hret
        cases hret
        exact ⟨rfl, rfl⟩
      | some q =>
        simp only [hp] at hret
        by_cases hq : q = ""
        · simp only [hq, if_true] at hret
          cases hret
          exact ⟨rfl, rfl⟩
        · simp only [hq, if_false] at hret
          cases hre : regExpTest q elementValue with
          | error e => simp [hre] at hret
          | ok b =>
            simp only [hre] at hret
            cases hret
            exact ⟨rfl, rfl⟩

/-- C13 amended, at the pattern `a` and the value `xay`. -/
theorem validateString_pattern_is_search_witness :
    Sample.literalTest "a" "xay" = .ok true ∧
    (NoCaching.validateString Sample.literalTest "xay"
        ⟨some "string", some { pattern := some "a" }⟩ [] none = .ok (true, [])
      ↔ Sample.literalTest "a" "xay" = .ok true) :=
  ⟨rfl,
    (validateString_pattern_is_search Sample.literalTest "xay"
      ⟨some "string", some { pattern := some "a" }⟩ "a" [] none rfl
      (by intro m h; cases h) (by intro m h; cases h)).1⟩

/-- C14, as stated, fails: in both variants `3.7`, `12abc` and `0x1A` are not rejected; like `42`
they leave `validateInteger` with no violation appended and without the value false. -/
theorem validateInteger_accepts_numeric_prefix :
    NoCaching.validateInteger "3.7" {} [] = .ok (none, []) ∧
    NoCaching.validateInteger "12abc" {} [] = .ok (none, []) ∧
    NoCaching.validateInteger "0x1A" {} [] = .ok (none, []) ∧
    NoCaching.validateInteger "42" {} [] = .ok (none, []) ∧
    Caching.validateInteger "3.7" {} [] = .ok (none, []) ∧
    Caching.validateInteger "12abc" {} [] = .ok (none, []) ∧
    Caching.validateInteger "0x1A" {} [] = .ok (none, []) ∧
    Caching.validateInteger "42" {} [] = .ok (none, []) :=
  ⟨rfl, rfl, rfl, rfl, rfl, rfl, rfl, rfl⟩

/-- C14, amended. In both variants `validateInteger` lets through every value from which
`parseInt` reads a number (after white space and a sign: a decimal digit, or `0x` and a
hexadecimal digit): it appends no violation and does not return false. -/
theorem validateInteger_accepts_what_parseInt_reads (elementValue : String)
    (simpleType : SimpleType) (validationResults : List Violation)
    (hreads : parseIntIsNaN elementValue = false) :
    NoCaching.validateInteger elementValue simpleType validationResults
      = .ok (none, validationResults) ∧
    Caching.validateInteger elementValue simpleType validationResults
      = .ok (none, validationResults) := by
  simp [NoCaching.validateInteger, Caching.validateInteger, hreads]

/-- C14 amended, at the value `42`. -/
theorem validateInteger_accepts_what_parseInt_reads_witness :
    parseIntIsNaN "42" = false ∧
    NoCaching.validateInteger "42" {} [] = .ok (none, []) ∧
    Caching.validateInteger "42" {} [] = .ok (none, []) :=
  ⟨rfl, validateInteger_accepts_what_parseInt_reads "42" {} [] rfl⟩

/-- C15. In both variants `validateBoolean` returns true and appends nothing for `true` and
`false`; for every other value, such as `True`, it neither returns false nor appends a
violation: building the violation reads `element`, which is not in scope, and the
ReferenceError leaves the function. -/
theorem validateBoolean_rejection_raises (elementValue : String) (simpleType : SimpleType)
    (validationResults : List Violation) :
    NoCaching.validateBoolean elementValue simpleType validationResults
      = (if elementValue = "true" ∨ elementValue = "false" then .ok (true, validationResults)
        else .error (.referenceError "element is not defined")) ∧
    Caching.validateBoolean elementValue simpleType validationResults
      = (if elementValue = "true" ∨ elementValue = "false" then .ok (true, validationResults)
        else .error (.referenceError "element is not defined")) ∧
    NoCaching.validateBoolean "True" simpleType validationResults
      = .error (.referenceError "element is not defined") ∧
    Caching.validateBoolean "True" simpleType validationResults
      = .error (.referenceError "element is not defined") := by
  refine ⟨?_, ?_, rfl, rfl⟩
  · unfold NoCaching.validateBoolean
    by_cases h : elementValue = "true" ∨ elementValue = "false"
    · have h2 : ¬(elementValue ≠ "true" ∧ elementValue ≠ "false") := by tauto
      rw [if_pos h, if_neg h2]
    · have h2 : elementValue ≠ "true" ∧ elementValue ≠ "false" := by tauto
      rw [if_neg h, if_pos h2]
      rfl
  · unfold Caching.validateBoolean
    by_cases h : elementValue = "true" ∨ elementValue = "false"
    · have h2 : ¬(elementValue ≠ "true" ∧ elementValue ≠ "false") := by tauto
      rw [if_pos h, if_neg h2]
    · have h2 : elementValue ≠ "true" ∧ elementValue ≠ "false" := by tauto
      rw [if_neg h, if_pos h2]
      rfl

/-- C16, as stated, fails: `12.5` and `-125` parse as numbers and have three significant
digits, and with `totalDigits = 3` the no-caching `validateDecimal` reports a totalDigits
violation for both. -/
theorem validateDecimal_counts_every_character :
    parseFloatIsNaN "12.5" = false ∧ parseFloatIsNaN "-125" = false ∧
    NoCaching.validateDecimal "12.5" ⟨some "decimal", some { totalDigits := some 3 }⟩ [] none
      = (false, [⟨"error", 2, "Decimal value exceeds maximum total digits 3", none,
          "dataTypeValidationError"⟩]) ∧
    NoCaching.validateDecimal "-125" ⟨some "decimal", some { totalDigits := some 3 }⟩ [] none
      = (false, [⟨"error", 2, "Decimal value exceeds maximum total digits 3", none,
          "dataTypeValidationError"⟩]) :=
  ⟨rfl, rfl, rfl, rfl⟩

/-- The two messages of `validateDecimal` differ, whatever the bounds they name. -/
theorem fraction_message_ne_total_message (a b : String) :
    "Decimal value exceeds maximum fraction digits " ++ a
      ≠ "Decimal value exceeds maximum total digits " ++ b := by
  intro h
  have h2 := congrArg String.data h
  simp only [String.data_append] at h2
  simp at h2

/-- C16, amended. For every value that parses as a number and every restriction set with a
`totalDigits` facet, the no-caching `validateDecimal` reports a totalDigits violation exactly
when the length of the text of the value, every character counted, exceeds `totalDigits`;
otherwise it accepts the value or reports the fractionDigits violation.  The caching
`validateDecimal` reports no totalDigits violation. -/
theorem validateDecimal_totalDigits_is_text_length (elementValue : String)
    (simpleType : SimpleType) (totalDigits : Nat) (validationResults : List Violation)
    (element : Option XmlNode) (hparses : parseFloatIsNaN elementValue = false)
    (htotal : (simpleType.restrictions.getD {}).totalDigits = some totalDigits) :
    (NoCaching.validateDecimal elementValue simpleType validationResults element
        = (false, validationResults ++
            [⟨"error", 2, "Decimal value exceeds maximum total digits " ++ toString totalDigits,
              element, "dataTypeValidationError"⟩])
      ↔ totalDigits < jsLength elementValue) ∧
    (¬ totalDigits < jsLength elementValue →
      NoCaching.validateDecimal elementValue simpleType validationResults element
          = (true, validationResults) ∨
      NoCaching.validateDecimal elementValue simpleType validationResults element
          = (false, validationResults ++
              [⟨"error", 2, "Decimal value exceeds maximum fraction digits "
                  ++ toString ((simpleType.restrictions.getD {}).fractionDigits.getD 0), element,
                "dataTypeValidationError"⟩])) ∧
    (Caching.validateDecimal elementValue simpleType validationResults
        = .ok (true, validationResults) ∨
      Caching.validateDecimal elementValue simpleType validationResults
        = .error (.typeError "Cannot read properties of undefined (reading 'length')")) := by
  have hnot : ¬ totalDigits < jsLength elementValue →
      NoCaching.validateDecimal elementValue simpleType validationResults element
          = (true, validationResults) ∨
      NoCaching.validateDecimal elementValue simpleType validationResults element
          = (false, validationResults ++
              [⟨"error", 2, "Decimal value exceeds maximum fraction digits "
                  ++ toString ((simpleType.restrictions.getD {}).fractionDigits.getD 0), element,
                "dataTypeValidationError"⟩]) := by
    intro h
    by_cases hf : (simpleType.restrictions.getD {}).fractionDigits.any
        (fun fractionDigits =>
          fractionDigits < utf16Length (((splitDot elementValue.data).get? 1).getD [])) = true
    · right
      unfold NoCaching.validateDecimal
      simp only [hparses, htotal, Bool.false_eq_true, if_false, Option.any_some, decide_eq_true_eq,
        h, hf, if_true, Option.getD_some]
    · left
      unfold NoCaching.validateDecimal
      simp only [hparses, htotal, Bool.false_eq_true, if_false, Option.any_some, decide_eq_true_eq,
        h, hf]
  refine ⟨⟨?_, ?_⟩, hnot, ?_⟩
  · intro heq
    by_contra h
    rcases hnot h with hr | hr
    · rw [hr] at heq
      simp at heq
    · rw [hr] at heq
      simp only [Prod.mk.injEq, true_and, List.append_cancel_left_eq, List.cons.injEq,
        Violation.mk.injEq, and_true] at heq
      exact fraction_message_ne_total_message _ _ heq
  · intro h
    simp [NoCaching.validateDecimal, hparses, htotal, h]
  · cases hr : simpleType.restrictions with
    | none => simp [hr] at htotal
    | some r =>
      unfold Caching.validateDecimal
      simp only [hparses, hr, Bool.false_eq_true, if_false]
      split_ifs
      · cases (splitDot elementValue.data).get? 1
        · exact Or.inr rfl
        · exact Or.inl rfl
      · exact Or.inl rfl

/-- C16 amended, at the value `12.5` with `totalDigits = 3`: four characters, a violation. -/
theorem validateDecimal_totalDigits_is_text_length_witness :
    parseFloatIsNaN "12.5" = false ∧ jsLength "12.5" = 4 ∧
    (NoCaching.validateDecimal "12.5" ⟨some "decimal", some { totalDigits := some 3 }⟩ [] none
        = (false, [] ++
            [⟨"error", 2, "Decimal value exceeds maximum total digits " ++ toString 3,
              none, "dataTypeValidationError"⟩])
      ↔ 3 < jsLength "12.5") :=
  ⟨rfl, rfl,
    (validateDecimal_totalDigits_is_text_length "12.5"
      ⟨some "decimal", some { totalDigits := some 3 }⟩ 3 [] none rfl rfl).1⟩

/-- Splitting always yields a first piece. -/
theorem splitDot_ne_nil (cs : List Char) : splitDot cs ≠ [] := by
  cases cs with
  | nil => simp [splitDot]
  | cons c rest =>
    unfold splitDot
    cases splitDot rest with
    | nil => simp
    | cons piece pieces => by_cases h : c = '.' <;> simp [h]

/-- A text without a point is the only piece of its split. -/
theorem splitDot_of_no_point (cs : List Char) (h : '.' ∉ cs) : splitDot cs = [cs] := by
  induction cs with
  | nil => rfl
  | cons c rest ih =>
    have hc : c ≠ '.' := fun hc => h (by simp [hc])
    have hrest : '.' ∉ rest := fun hr => h (by simp [hr])
    unfold splitDot
    rw [ih hrest]
    simp [hc]

/-- The text before the first point is the first piece of the split. -/
theorem splitDot_append_point (whole rest : List Char) (h : '.' ∉ whole) :
    splitDot (whole ++ '.' :: rest) = whole :: splitDot rest := by
  induction whole with
  | nil =>
    simp only [List.nil_append]
    conv_lhs => unfold splitDot
    cases hr : splitDot rest with
    | nil => exact absurd hr (splitDot_ne_nil rest)
    | cons piece pieces => simp
  | cons c more ih =>
    have hc : c ≠ '.' := fun hc => h (by simp [hc])
    have hmore : '.' ∉ more := fun hr => h (by simp [hr])
    simp only [List.cons_append]
    conv_lhs => unfold splitDot
    rw [ih hmore]
    simp [hc]

/-- C17, as stated, fails: `1.5e3` parses as a number and has one digit after its decimal
point, and with `fractionDigits = 2` the no-caching `validateDecimal` returns false. -/
theorem validateDecimal_counts_text_after_point :
    parseFloatIsNaN "1.5e3" = false ∧ fractionDigitCount "1.5e3" = 1 ∧
    NoCaching.validateDecimal "1.5e3" ⟨some "decimal", some { fractionDigits := some 2 }⟩
        [] none
      = (false, [⟨"error", 2, "Decimal value exceeds maximum fraction digits 2", none,
          "dataTypeValidationError"⟩]) :=
  ⟨rfl, rfl, rfl⟩

/-- C17, amended. For every value that parses as a number and every restriction set with a
`fractionDigits` facet and no `totalDigits` facet, the no-caching `validateDecimal` returns
false exactly when the text between the first decimal point and the next point (or the end) is
longer than `fractionDigits`; for a value of the form whole part, point, fraction part this text
is the fraction part; a value with no decimal point never violates `fractionDigits`, and the
validator never raises. -/
theorem validateDecimal_fractionDigits_is_text_after_point (elementValue : String)
    (simpleType : SimpleType) (fractionDigits : Nat) (validationResults : List Violation)
    (element : Option XmlNode) (hparses : parseFloatIsNaN elementValue = false)
    (hfraction : (simpleType.restrictions.getD {}).fractionDigits = some fractionDigits)
    (htotal : (simpleType.restrictions.getD {}).totalDigits = none) :
    NoCaching.validateDecimal elementValue simpleType validationResults element
      = (if fractionDigits < utf16Length (((splitDot elementValue.data).get? 1).getD []) then
          (false, validationResults ++
            [⟨"error", 2,
              "Decimal value exceeds maximum fraction digits " ++ toString fractionDigits,
              element, "dataTypeValidationError"⟩])
        else (true, validationResults)) ∧
    (∀ whole fraction : List Char, elementValue.data = whole ++ '.' :: fraction →
      '.' ∉ whole → '.' ∉ fraction →
      ((splitDot elementValue.data).get? 1).getD [] = fraction) ∧
    ('.' ∉ elementValue.data →
      NoCaching.validateDecimal elementValue simpleType validationResults element
        = (true, validationResults)) := by
  have heq : NoCaching.validateDecimal elementValue simpleType validationResults element
      = (if fractionDigits < utf16Length (((splitDot elementValue.data).get? 1).getD []) then
          (false, validationResults ++
            [⟨"error", 2,
              "Decimal value exceeds maximum fraction digits " ++ toString fractionDigits,
              element, "dataTypeValidationError"⟩])
        else (true, validationResults)) := by
    by_cases h : fractionDigits < utf16Length (((splitDot elementValue.data).get? 1).getD [])
    · simp [NoCaching.validateDecimal, hparses, hfraction, htotal, h]
    · simp [NoCaching.validateDecimal, hparses, hfraction, htotal, h]
  refine ⟨heq, ?_, ?_⟩
  · intro whole fraction hform hwhole hfraction
    rw [hform, splitDot_append_point whole fraction hwhole,
      splitDot_of_no_point fraction hfraction]
    rfl
  · intro hnone
    rw [heq, splitDot_of_no_point _ hnone]
    simp [utf16Length]

/-- C17 amended, at the value `3.14159` with `fractionDigits = 2`. -/
theorem validateDecimal_fractionDigits_is_text_after_point_witness :
    parseFloatIsNaN "3.14159" = false ∧
    (NoCaching.validateDecimal "3.14159" ⟨some "decimal", some { fractionDigits := some 2 }⟩
        [] none).1 = false ∧
    (NoCaching.validateDecimal "314159" ⟨some "decimal", some { fractionDigits := some 2 }⟩
        [] none).1 = true ∧
    NoCaching.validateDecimal "3.14159" ⟨some "decimal", some { fractionDigits := some 2 }⟩
        [] none
      = (if 2 < utf16Length (((splitDot "3.14159".data).get? 1).getD []) then
          (false, [] ++
            [⟨"error", 2, "Decimal value exceeds maximum fraction digits " ++ toString 2,
              none, "dataTypeValidationError"⟩])
        else (true, [])) :=
  ⟨rfl, rfl, rfl,
    (validateDecimal_fractionDigits_is_text_after_point "3.14159"
      ⟨some "decimal", some { fractionDigits := some 2 }⟩ 2 [] none rfl rfl rfl).1⟩

/-! ## The schema cache (C18 - C20) -/

/-- After `set(p, m)` at time `t` the read of `p` yields the entry `{ doc: m, timestamp: t }`. -/
theorem entry_set_same {α : Type} (c : Caching.XsdCache α) (xsdPath : String) (xsdDoc : α)
    (t : Int) : (c.set xsdPath xsdDoc t).entry xsdPath = some ⟨xsdDoc, t⟩ := by
  unfold Caching.XsdCache.set
  by_cases hp : xsdPath = "__proto__"
  · simp [hp, Caching.XsdCache.entry]
  · simp only [hp, if_false]
    by_cases hown : c.cache.any (fun p => p.1 == xsdPath) = true
    · simp only [hown, if_true, Caching.XsdCache.entry, hp, if_false]
      have hfind : ∀ l : List (String × Caching.CacheEntry α),
          l.any (fun p => p.1 == xsdPath) = true →
          ((l.map (fun p => if p.1 = xsdPath then (p.1, (⟨xsdDoc, t⟩ : Caching.CacheEntry α))
              else p)).find? (fun p => p.1 == xsdPath)).map Prod.snd = some ⟨xsdDoc, t⟩ := by
        intro l
        induction l with
        | nil => simp
        | cons q rest ih =>
          intro hany
          by_cases hq : q.1 = xsdPath
          · simp [List.find?, hq]
          · have hrest : rest.any (fun p => p.1 == xsdPath) = true := by
              simpa [hq] using hany
            have hb : (q.1 == xsdPath) = false := by simp [hq]
            simp only [List.map_cons, hq, if_false, List.find?, hb]
            exact ih hrest
      exact hfind c.cache hown
    · simp only [hown, Caching.XsdCache.entry, hp, if_false]
      have hnone : c.cache.find? (fun p => p.1 == xsdPath) = none := by
        simp only [List.find?_eq_none]
        intro q hq hq2
        exact hown (List.any_eq_true.mpr ⟨q, hq, hq2⟩)
      simp [List.find?_append, hnone]

/-- The method `set` leaves the expiration time as it was. -/
theorem cacheExpiration_set {α : Type} (c : Caching.XsdCache α) (xsdPath : String)
    (xsdDoc : α) (t : Int) : (c.set xsdPath xsdDoc t).cacheExpiration = c.cacheExpiration := by
  unfold Caching.XsdCache.set
  split
  · rfl
  · split <;> rfl

/-- C18. Cache round trip: for every path `p` and model `m`, `get(p)` right after `set(p, m)`,
with the clock advanced by less than the expiration time (in particular not at all), returns
exactly `m`. -/
theorem get_after_set_returns_model {α : Type} (c : Caching.XsdCache α) (p : String) (m : α)
    (t now : Int) (hfresh : now - t < c.cacheExpiration) :
    (c.set p m t).get p now = some m := by
  simp [Caching.XsdCache.get, entry_set_same, cacheExpiration_set, hfresh]

/-- C18 at a new cache, with `get` at the very clock reading of `set`. -/
theorem get_after_set_returns_model_witness :
    (1000 : Int) - 1000 < (Caching.XsdCache.new : Caching.XsdCache XmlDocument).cacheExpiration ∧
    ((Caching.XsdCache.new : Caching.XsdCache XmlDocument).set "order.xsd" Sample.bookSchema
        1000).get "order.xsd" 1000 = some Sample.bookSchema :=
  ⟨by decide, get_after_set_returns_model _ "order.xsd" Sample.bookSchema 1000 1000 (by decide)⟩

/-- C19. For every path `p` and model `m`, if `set(p, m)` happened at time `t` and `get(p)` is
called later than `t` plus the expiration time with no `set` in between, `get` returns null. -/
theorem get_after_expiry_returns_null {α : Type} (c : Caching.XsdCache α) (p : String) (m : α)
    (t now : Int) (hlate : t + c.cacheExpiration < now) :
    (c.set p m t).get p now = none := by
  have h : ¬ (now - t < c.cacheExpiration) := by omega
  simp [Caching.XsdCache.get, entry_set_same, cacheExpiration_set, h]

/-- C19 at a new cache, one millisecond after the hour. -/
theorem get_after_expiry_returns_null_witness :
    (1000 : Int) + (Caching.XsdCache.new : Caching.XsdCache XmlDocument).cacheExpiration
      < 3601001 ∧
    ((Caching.XsdCache.new : Caching.XsdCache XmlDocument).set "order.xsd" Sample.bookSchema
        1000).get "order.xsd" 3601001 = none :=
  ⟨by decide,
    get_after_expiry_returns_null _ "order.xsd" Sample.bookSchema 1000 3601001 (by decide)⟩

/-- C20, as stated, fails: an entry whose age equals the expiration time exactly is not
returned. -/
theorem get_at_exact_expiry_returns_null :
    (3601000 : Int) - 1000
      = (Caching.XsdCache.new : Caching.XsdCache XmlDocument).cacheExpiration ∧
    ((Caching.XsdCache.new : Caching.XsdCache XmlDocument).set "order.xsd" Sample.bookSchema
        1000).get "order.xsd" 3601000 = none :=
  ⟨by decide, rfl⟩

/-- C20, amended. A cache entry is stale exactly when `now - insertedAt >= ttl`, with `ttl`
one hour (3,600,000 ms) by default: `get(p)` returns the stored model if and only if an entry
for `p` exists and `now - insertedAt < ttl`, and an entry whose age equals `ttl` exactly is not
returned. -/
theorem get_returns_iff_younger_than_ttl {α : Type} (c : Caching.XsdCache α) (p : String)
    (now : Int) :
    (Caching.XsdCache.new : Caching.XsdCache α).cacheExpiration = 3600000 ∧
    (∀ m, c.get p now = some m ↔
      ∃ e, c.entry p = some e ∧ e.doc = m ∧ now - e.timestamp < c.cacheExpiration) ∧
    (c.get p now = none ↔
      ∀ e, c.entry p = some e → c.cacheExpiration ≤ now - e.timestamp) ∧
    (∀ e, c.entry p = some e → now - e.timestamp = c.cacheExpiration → c.get p now = none) := by
  refine ⟨rfl, ?_, ?_, ?_⟩
  · intro m
    unfold Caching.XsdCache.get
    cases he : c.entry p with
    | none => simp
    | some e =>
      by_cases h : now - e.timestamp < c.cacheExpiration
      · simp [h]
      · simp [h]
  · unfold Caching.XsdCache.get
    cases he : c.entry p with
    | none => simp
    | some e =>
      by_cases h : now - e.timestamp < c.cacheExpiration
      · simp [h]
      · simp [h]; omega
  · intro e he hage
    have h : ¬ (now - e.timestamp < c.cacheExpiration) := by omega
    simp [Caching.XsdCache.get, he, h]

/-! ## Cache invalidation and memoised loading (C21, C29) -/

/-- After `invalidate(p)` the cache object has no own property `p`. -/
theorem find_after_invalidate {α : Type} (l : List (String × Caching.CacheEntry α))
    (p : String) :
    (l.filter (fun q => q.1 != p)).find? (fun q => q.1 == p) = none := by
  simp only [List.find?_eq_none, List.mem_filter]
  intro q hq
  simpa using hq.2

/-- C21. For every path other than `__proto__`, `get(p)` returns null after `invalidate(p)`, and
on a new cache `get` returns null for every path; but for the path `__proto__`, which `set`
installs as the prototype of the cache object and `delete` does not touch, `get` still returns
the document after `invalidate`. -/
theorem invalidate_misses_the_proto_key {α : Type} :
    (∀ (c : Caching.XsdCache α) (p : String) (now : Int), p ≠ "__proto__" →
      (c.invalidate p).get p now = none) ∧
    (∀ (p : String) (now : Int), (Caching.XsdCache.new : Caching.XsdCache α).get p now = none) ∧
    (((Caching.XsdCache.new : Caching.XsdCache XmlDocument).set "__proto__" Sample.bookSchema
        1000).invalidate "__proto__").get "__proto__" 2000 = some Sample.bookSchema := by
  refine ⟨?_, ?_, rfl⟩
  · intro c p now hp
    have hentry : (c.invalidate p).entry p = none := by
      unfold Caching.XsdCache.entry Caching.XsdCache.invalidate
      rw [if_neg hp, find_after_invalidate]
      rfl
    unfold Caching.XsdCache.get
    rw [hentry]
  · intro p now
    by_cases hp : p = "__proto__"
    · simp [Caching.XsdCache.get, Caching.XsdCache.entry, Caching.XsdCache.new, hp]
    · simp [Caching.XsdCache.get, Caching.XsdCache.entry, Caching.XsdCache.new, hp]

/-- C29. A first `getXsdDoc('order.xsd')` parses the document and stores it; a second call while
the entry is fresh reads and parses nothing and leaves the cache as it is, but what it returns is
not the stored document: it reads `.doc` of what `get` has already unwrapped, which yields the
member `doc` of the document. -/
theorem getXsdDoc_hit_returns_no_document (load : String → Except JsError String)
    (parse : String → Except JsError XmlDocument) :
    (Caching.getXsdDoc Sample.readFile Sample.parseXsd Caching.XsdCache.new "order.xsd" 0 5).1
      = .ok (.document Sample.bookSchema) ∧
    Sample.cacheAfterFirstCall.get "order.xsd" 1000 = some Sample.bookSchema ∧
    Caching.getXsdDoc load parse Sample.cacheAfterFirstCall "order.xsd" 1000 1005
      = (.ok .docMember, Sample.cacheAfterFirstCall) :=
  ⟨rfl, rfl, rfl⟩

/-! ## The schema modeler and the order check (C25 - C28) -/

/-- After `elementOrderMap[key] = value` the read of `key` yields `value`, for every key other
than `__proto__`. -/
theorem lookup_assignOrder_same (m : OrderMap) (key : String) (value : List (Option String))
    (hkey : key ≠ "__proto__") :
    lookup (NoCaching.assignOrder m key value) key = .own value := by
  unfold NoCaching.assignOrder
  simp only [hkey, if_false]
  by_cases hown : m.any (fun p => p.1 == key) = true
  · simp only [hown, if_true, lookup]
    have hfind : ∀ l : OrderMap, l.any (fun p => p.1 == key) = true →
        ∃ q, (l.map (fun p => if p.1 = key then (p.1, value) else p)).find?
          (fun p => p.1 == key) = some q ∧ q.2 = value := by
      intro l
      induction l with
      | nil => simp
      | cons q rest ih =>
        intro hany
        by_cases hq : q.1 = key
        · exact ⟨(q.1, value), by simp [List.find?, hq], rfl⟩
        · have hrest : rest.any (fun p => p.1 == key) = true := by
            simpa [hq] using hany
          have hb : (q.1 == key) = false := by simp [hq]
          obtain ⟨r, hr, hv⟩ := ih hrest
          exact ⟨r, by simp only [List.map_cons, hq, if_false, List.find?, hb]; exact hr, hv⟩
    obtain ⟨q, hq, hv⟩ := hfind m hown
    rw [hq]
    simp only [hv]
  · simp only [hown, lookup]
    have hnone : m.find? (fun p => p.1 == key) = none := by
      simp only [List.find?_eq_none]
      intro q hq hq2
      exact hown (List.any_eq_true.mpr ⟨q, hq, hq2⟩)
    simp [List.find?_append, hnone]

/-- C25. `handleComplexType` records no child: for every element and every order map the map
after the call is the map before it, in both variants.  On the complexType node `Invoice` of a
schema, whose elements are in the namespace of XML Schema, the unprefixed query
`element.get('sequence')` finds nothing and the call returns, so `Invoice` has no entry, not the
entry `[n1, ..., nk]`; on a node whose `sequence` child is in no namespace the call
`sequence.children()` throws a TypeError; and the filter behind it compares the method
`child.name`, not its result, with `'element'`. -/
theorem handleComplexType_records_no_child (element : XmlNode) (names : List String)
    (elementOrderMap : OrderMap) :
    (NoCaching.handleComplexType element elementOrderMap).1 = elementOrderMap ∧
    (Caching.handleComplexType element elementOrderMap).1 = elementOrderMap ∧
    NoCaching.handleComplexType (Sample.complexType "Invoice" names) elementOrderMap
      = (elementOrderMap, none) ∧
    Caching.handleComplexType (Sample.complexType "Invoice" names) elementOrderMap
      = (elementOrderMap, none) ∧
    lookup (NoCaching.handleComplexType
        (Sample.complexType "Invoice" ["number", "date", "total"]) []).1 "Invoice"
      = .undefined ∧
    NoCaching.handleComplexType
        (.mk none "complexType" [("name", "Invoice")] ""
          [.mk none "sequence" [] "" [.mk none "element" [("name", "number")] "" []]]) []
      = ([], some (.typeError "element.children is not a function")) ∧
    (∀ child : XmlNode, NoCaching.nameMethodIs child "element" = false) := by
  refine ⟨?_, ?_, ?_, ?_, rfl, rfl, fun _ => rfl⟩
  · unfold NoCaching.handleComplexType
    cases element.get "sequence" <;> rfl
  · unfold Caching.handleComplexType
    cases element.get "sequence" <;> rfl
  · have hget : (Sample.complexType "Invoice" names).get "sequence" = none := by
      simp [XmlNode.get, Sample.complexType, Sample.xs, XmlNode.children, XmlNode.ns,
        xsNamespace]
    simp [NoCaching.handleComplexType, hget]
  · have hget : (Sample.complexType "Invoice" names).get "sequence" = none := by
      simp [XmlNode.get, Sample.complexType, Sample.xs, XmlNode.children, XmlNode.ns,
        xsNamespace]
    simp [Caching.handleComplexType, hget]

/-- C26. For every input that is null, undefined or not an object, the caching `traverse` throws
a TypeError and leaves all its accumulators (order map, schema data, element hierarchy, unknown
elements, validation results) as they were, whatever the handlers are. -/
theorem traverse_fails_fast_on_non_objects (handlers : Caching.Handlers)
    (state : Caching.WalkState) (text : String) :
    Caching.traverse handlers .null state
      = (state, some (.typeError "Invalid element type: expected an object")) ∧
    Caching.traverse handlers .undefined state
      = (state, some (.typeError "Invalid element type: expected an object")) ∧
    Caching.traverse handlers (.nonObject text) state
      = (state, some (.typeError "Invalid element type: expected an object")) :=
  ⟨rfl, rfl, rfl⟩

/-- C27, as stated, fails: in `<order><invoice><b/><a/></invoice></order>` the element `invoice`
has the declared order `[a, b]` and its children are out of that order, the root has no entry,
and `validateElementOrder` completes without reporting anything. -/
theorem validateElementOrder_ignores_nested_entries :
    lookup [("invoice", [some "a", some "b"])] "invoice" = .own [some "a", some "b"] ∧
    lookup [("invoice", [some "a", some "b"])] Sample.nestedOutOfOrder.root.name = .undefined ∧
    NoCaching.validateElementOrder Sample.nestedOutOfOrder [("invoice", [some "a", some "b"])]
      = .ok () :=
  ⟨rfl, rfl, rfl⟩

/-- C27, amended. Order validation reads the order map for the name of the root element only:
for every document whose root name reads as undefined in the order map, `validateElementOrder`
completes and reports no violation, whatever entries the names of the other elements have and
whatever the order of their children. -/
theorem validateElementOrder_reads_root_entry_only (xmlDoc : XmlDocument)
    (elementOrderMap : OrderMap)
    (hroot : lookup elementOrderMap xmlDoc.root.name = .undefined) :
    NoCaching.validateElementOrder xmlDoc elementOrderMap = .ok () :=
  validateElementOrder_of_undefined xmlDoc elementOrderMap hroot

/-- C27 amended, at the document with the nested element out of order. -/
theorem validateElementOrder_reads_root_entry_only_witness :
    lookup [("invoice", [some "a", some "b"])] Sample.nestedOutOfOrder.root.name = .undefined ∧
    NoCaching.validateElementOrder Sample.nestedOutOfOrder [("invoice", [some "a", some "b"])]
      = .ok () :=
  ⟨rfl, validateElementOrder_reads_root_entry_only Sample.nestedOutOfOrder
    [("invoice", [some "a", some "b"])] rfl⟩

/-- C28. In both variants `validateElementOrderHelper` reads `currentElementName` before the
declaration of that binding has run: for every element, expected order and position it throws
a ReferenceError and returns neither true nor false, so its base cases are never reached. -/
theorem validateElementOrderHelper_always_raises (element : XmlNode) (expectedOrder : Lookup)
    (currentPosition : Nat) :
    NoCaching.validateElementOrderHelper element expectedOrder currentPosition
      = .error (.referenceError "Cannot access 'currentElementName' before initialization") ∧
    Caching.validateElementOrderHelper element expectedOrder currentPosition
      = .error (.referenceError "Cannot access 'currentElementName' before initialization") ∧
    (∀ b, NoCaching.validateElementOrderHelper element expectedOrder currentPosition ≠ .ok b) ∧
    (∀ b, Caching.validateElementOrderHelper element expectedOrder currentPosition ≠ .ok b) := by
  have h1 := helper_reads_unset_binding element expectedOrder currentPosition
  have h2 : Caching.validateElementOrderHelper element expectedOrder currentPosition
      = .error (.referenceError "Cannot access 'currentElementName' before initialization") := by
    cases element
    rfl
  refine ⟨h1, h2, ?_, ?_⟩
  · intro b hb
    rw [h1] at hb
    cases hb
  · intro b hb
    rw [h2] at hb
    cases hb

/-! ## The time validator (C30) -/

/-- C30. For every value, also one that parses under `HH:mm:ss`, lies within the bounds and
matches the pattern, such as `12:30:00` with no facet at all, `validateTime` returns nothing and
throws a ReferenceError: its validity test reads `parsedDate`, which it never declares. -/
theorem validateTime_always_raises (parseTime : String → Option Int) (regExpTest : RegExpTest)
    (elementValue : String) (simpleType : SimpleType) (validationResults : List Violation)
    (element : Option XmlNode) :
    NoCaching.validateTime parseTime regExpTest elementValue simpleType validationResults
        element
      = .error (.referenceError "parsedDate is not defined") ∧
    NoCaching.validateTime (fun _ => some 45000000) regExpTest "12:30:00" {} [] none
      = .error (.referenceError "parsedDate is not defined") :=
  ⟨rfl, rfl⟩

/-! ## Grouping and rendering (C22 - C24) -/

/-- Nothing has been seen and nothing is grouped. -/
theorem grouped_nil (keyOf : ErrorRecord → String) : Grouped keyOf [] [] := by
  refine ⟨by simp, ?_, ?_⟩
  · intro k g h
    simp at h
  · intro e h
    simp at h

/-- One round of the grouping loop keeps the grouping invariant. -/
theorem grouped_add (keyOf : ErrorRecord → String) (seen : List ErrorRecord)
    (G : GroupedErrors) (e : ErrorRecord) (h : Grouped keyOf seen G) :
    Grouped keyOf (seen ++ [e]) (addToGroup G (keyOf e) e) := by
  obtain ⟨hnodup, hgroups, hall⟩ := h
  unfold addToGroup
  by_cases hany : G.any (fun p => p.1 == keyOf e) = true
  · rw [if_pos hany]
    have hfst : (G.map (fun p : String × ErrorGroup =>
        if p.1 = keyOf e then (p.1, (⟨p.2.count + 1, p.2.errors ++ [e]⟩ : ErrorGroup))
        else p)).map Prod.fst = G.map Prod.fst := by
      rw [List.map_map]
      apply List.map_congr_left
      intro p _
      by_cases hp : p.1 = keyOf e <;> simp [hp]
    refine ⟨by rw [hfst]; exact hnodup, ?_, ?_⟩
    · intro k g hmem
      obtain ⟨⟨pk, pg⟩, hp, hpe⟩ := List.mem_map.mp hmem
      obtain ⟨herr, hcount, hne⟩ := hgroups pk pg hp
      by_cases hk : pk = keyOf e
      · simp only [hk, if_true, Prod.mk.injEq] at hpe
        obtain ⟨hke, hge⟩ := hpe
        subst hke hge
        refine ⟨?_, ?_, by simp⟩
        · simp [List.filter_append, herr, hk]
        · simp [hcount]
      · simp only [hk, if_false, Prod.mk.injEq] at hpe
        obtain ⟨hke, hge⟩ := hpe
        subst hke hge
        have hk2 : ¬ keyOf e = pk := fun h => hk h.symm
        refine ⟨?_, hcount, hne⟩
        simp [List.filter_append, herr, hk2]
    · intro x hx
      rcases List.mem_append.mp hx with hx | hx
      · obtain ⟨g, hg⟩ := hall x hx
        by_cases hk : keyOf x = keyOf e
        · exact ⟨⟨g.count + 1, g.errors ++ [e]⟩,
            List.mem_map.mpr ⟨(keyOf x, g), hg, by simp [hk]⟩⟩
        · exact ⟨g, List.mem_map.mpr ⟨(keyOf x, g), hg, by simp [hk]⟩⟩
      · have hxe : x = e := by simpa using hx
        subst hxe
        obtain ⟨p, hp, hpk⟩ := List.any_eq_true.mp hany
        have hpk2 : p.1 = keyOf x := by simpa using hpk
        exact ⟨⟨p.2.count + 1, p.2.errors ++ [x]⟩,
          List.mem_map.mpr ⟨p, hp, by simp [hpk2]⟩⟩
  · rw [if_neg hany]
    have hfresh : keyOf e ∉ G.map Prod.fst := by
      intro hin
      obtain ⟨p, hp, hpk⟩ := List.mem_map.mp hin
      exact hany (List.any_eq_true.mpr ⟨p, hp, by simp [hpk]⟩)
    have hnone : seen.filter (fun x => decide (keyOf x = keyOf e)) = [] := by
      rw [List.filter_eq_nil_iff]
      intro x hx hkx
      obtain ⟨g, hg⟩ := hall x hx
      have hkx2 : keyOf x = keyOf e := by simpa using hkx
      exact hfresh (List.mem_map.mpr ⟨(keyOf x, g), hg, hkx2⟩)
    refine ⟨?_, ?_, ?_⟩
    · rw [List.map_append, List.nodup_append]
      refine ⟨hnodup, by simp, ?_⟩
      intro a ha hb
      have hb2 : a = keyOf e := by simpa using hb
      exact hfresh (hb2 ▸ ha)
    · intro k g hmem
      rcases List.mem_append.mp hmem with hmem | hmem
      · obtain ⟨herr, hcount, hne⟩ := hgroups k g hmem
        have hk : ¬ keyOf e = k := by
          intro hk
          exact hfresh (List.mem_map.mpr ⟨(k, g), hmem, hk.symm⟩)
        refine ⟨?_, hcount, hne⟩
        simp [List.filter_append, herr, hk]
      · have hkg : (k, g) = (keyOf e, (⟨0 + 1, [] ++ [e]⟩ : ErrorGroup)) := by
          simpa using hmem
        cases hkg
        refine ⟨?_, by simp, by simp⟩
        simp [List.filter_append, hnone]
    · intro x hx
      rcases List.mem_append.mp hx with hx | hx
      · obtain ⟨g, hg⟩ := hall x hx
        exact ⟨g, List.mem_append.mpr (Or.inl hg)⟩
      · have hxe : x = e := by simpa using hx
        subst hxe
        exact ⟨⟨0 + 1, [] ++ [x]⟩, List.mem_append.mpr (Or.inr (by simp))⟩

/-- The grouping loop keeps the grouping invariant. -/
theorem grouped_foldl (keyOf : ErrorRecord → String) (l seen : List ErrorRecord)
    (G : GroupedErrors) (h : Grouped keyOf seen G) :
    Grouped keyOf (seen ++ l)
      (l.foldl (fun groupedErrors error => addToGroup groupedErrors (keyOf error) error) G) := by
  induction l generalizing seen G with
  | nil => simpa using h
  | cons e rest ih =>
    have hstep := ih (seen ++ [e]) (addToGroup G (keyOf e) e) (grouped_add keyOf seen G e h)
    simpa using hstep

/-- What the no-caching grouping loop leaves satisfies the grouping invariant. -/
theorem groupErrors_grouped (validationErrors : List ErrorRecord) :
    Grouped NoCaching.groupKey validationErrors (NoCaching.groupErrors validationErrors) := by
  have h := grouped_foldl NoCaching.groupKey validationErrors [] [] (grouped_nil _)
  simpa [NoCaching.groupErrors] using h

/-- Under the grouping invariant two seen records share a group exactly when their keys are
equal. -/
theorem sameGroup_iff_of_grouped (keyOf : ErrorRecord → String) (seen : List ErrorRecord)
    (G : GroupedErrors) (h : Grouped keyOf seen G) (e1 e2 : ErrorRecord) (h1 : e1 ∈ seen)
    (h2 : e2 ∈ seen) : SameGroup G e1 e2 ↔ keyOf e1 = keyOf e2 := by
  obtain ⟨_, hgroups, hall⟩ := h
  constructor
  · rintro ⟨k, g, hmem, hg1, hg2⟩
    obtain ⟨herr, _, _⟩ := hgroups k g hmem
    rw [herr] at hg1 hg2
    have k1 : keyOf e1 = k := by simpa using (List.mem_filter.mp hg1).2
    have k2 : keyOf e2 = k := by simpa using (List.mem_filter.mp hg2).2
    rw [k1, k2]
  · intro hk
    obtain ⟨g, hg⟩ := hall e1 h1
    obtain ⟨herr, _, _⟩ := hgroups (keyOf e1) g hg
    refine ⟨keyOf e1, g, hg, ?_, ?_⟩
    · rw [herr]; exact List.mem_filter.mpr ⟨h1, by simp⟩
    · rw [herr]; exact List.mem_filter.mpr ⟨h2, by simp [hk]⟩

/-- When every record has a `location` the caching grouping loop completes, with the groups of
the keys `errorType-file`. -/
theorem caching_groupErrors_eq (l : List ErrorRecord) (G : GroupedErrors)
    (hloc : ∀ e ∈ l, e.location ≠ none) :
    Caching.groupErrors l G
      = .ok (l.foldl (fun groupedErrors error =>
          addToGroup groupedErrors (cachingKeyText error) error) G) := by
  induction l generalizing G with
  | nil => rfl
  | cons e rest ih =>
    have he : e.location ≠ none := hloc e (by simp)
    have hrest : ∀ x ∈ rest, x.location ≠ none := fun x hx => hloc x (by simp [hx])
    cases hl : e.location with
    | none => exact absurd hl he
    | some loc =>
      have hkey : Caching.groupKey e = .ok (cachingKeyText e) := by
        simp [Caching.groupKey, cachingKeyText, hl]
      unfold Caching.groupErrors
      rw [hkey]
      simp only [List.foldl_cons]
      exact ih _ hrest

/-- C22, as stated, fails: two records of different category with the same `errorType` and the
same file, line and column are placed in one group. -/
theorem generateOutput_groups_across_categories :
    Sample.structureError.category ≠ Sample.datatypeError.category ∧
    (NoCaching.groupErrors [Sample.structureError, Sample.datatypeError]).map
        (fun p => (p.1, p.2.count)) = [("schemaValidationError-a.xml:3:7", 2)] ∧
    SameGroup (NoCaching.groupErrors [Sample.structureError, Sample.datatypeError])
      Sample.structureError Sample.datatypeError := by
  refine ⟨by decide, by decide, ?_⟩
  exact ⟨"schemaValidationError-a.xml:3:7", ⟨2, [Sample.structureError, Sample.datatypeError]⟩,
    by decide, by decide, by decide⟩

/-- C22, amended. `generateOutput` groups records by their group key, in which the category has
no part: the no-caching key is `errorType` (or `unknownError`), `-`, and `file:line:column` (or
`unknownLocation`); the caching key is `errorType`, `-`, `file`.  For every list, two of its
records are placed in the same group if and only if their keys are equal. -/
theorem generateOutput_groups_by_key (validationErrors : List ErrorRecord) :
    (∀ e1 ∈ validationErrors, ∀ e2 ∈ validationErrors,
      (SameGroup (NoCaching.groupErrors validationErrors) e1 e2
        ↔ NoCaching.groupKey e1 = NoCaching.groupKey e2)) ∧
    (∀ (e : ErrorRecord) (c : Option String),
      NoCaching.groupKey { e with category := c } = NoCaching.groupKey e) ∧
    ((∀ e ∈ validationErrors, e.location ≠ none) →
      ∃ G, Caching.groupErrors validationErrors [] = .ok G ∧
        ∀ e1 ∈ validationErrors, ∀ e2 ∈ validationErrors,
          (SameGroup G e1 e2 ↔ cachingKeyText e1 = cachingKeyText e2)) := by
  refine ⟨?_, fun _ _ => rfl, ?_⟩
  · intro e1 h1 e2 h2
    exact sameGroup_iff_of_grouped _ _ _ (groupErrors_grouped validationErrors) e1 e2 h1 h2
  · intro hloc
    refine ⟨_, caching_groupErrors_eq validationErrors [] hloc, ?_⟩
    intro e1 h1 e2 h2
    have hg := grouped_foldl cachingKeyText validationErrors [] [] (grouped_nil _)
    rw [List.nil_append] at hg
    exact sameGroup_iff_of_grouped _ _ _ hg e1 e2 h1 h2

/-- C22 amended, at the two schema errors of different category: they share a group, their keys
being equal. -/
theorem generateOutput_groups_by_key_witness :
    SameGroup (NoCaching.groupErrors [Sample.structureError, Sample.datatypeError])
        Sample.structureError Sample.datatypeError
      ↔ NoCaching.groupKey Sample.structureError = NoCaching.groupKey Sample.datatypeError :=
  (generateOutput_groups_by_key [Sample.structureError, Sample.datatypeError]).1
    Sample.structureError (by decide) Sample.datatypeError (by decide)

/-- C23. For every list of records the no-caching grouping completes; a record without a
`location` is placed in the group whose key ends in the literal `unknownLocation`, and every
record of the list, with or without a location, is in the group of its own key, which holds
the records of that key in their input order. -/
theorem generateOutput_tolerates_missing_location (stringify : GroupedErrors → String)
    (validationErrors : List ErrorRecord) :
    NoCaching.generateOutput stringify validationErrors "text"
      = NoCaching.generateHumanReadableOutput (NoCaching.groupErrors validationErrors) ∧
    (∀ e ∈ validationErrors, e.location = none →
      ∃ errorType g, NoCaching.groupKey e = errorType ++ "-" ++ "unknownLocation" ∧
        (errorType ++ "-" ++ "unknownLocation", g) ∈ NoCaching.groupErrors validationErrors ∧
        e ∈ g.errors) ∧
    (∀ e ∈ validationErrors,
      ∃ g, (NoCaching.groupKey e, g) ∈ NoCaching.groupErrors validationErrors ∧
        g.errors = validationErrors.filter
          (fun x => decide (NoCaching.groupKey x = NoCaching.groupKey e)) ∧
        g.count = g.errors.length) := by
  obtain ⟨_, hgroups, hall⟩ := groupErrors_grouped validationErrors
  have hin : ∀ e ∈ validationErrors,
      ∃ g, (NoCaching.groupKey e, g) ∈ NoCaching.groupErrors validationErrors ∧
        g.errors = validationErrors.filter
          (fun x => decide (NoCaching.groupKey x = NoCaching.groupKey e)) ∧
        g.count = g.errors.length := by
    intro e he
    obtain ⟨g, hg⟩ := hall e he
    obtain ⟨herr, hcount, _⟩ := hgroups _ g hg
    exact ⟨g, hg, herr, hcount⟩
  refine ⟨by simp [NoCaching.generateOutput], ?_, hin⟩
  intro e he hloc
  obtain ⟨g, hg, herr, _⟩ := hin e he
  have hkey : NoCaching.groupKey e
      = (match e.errorType with
          | some t => if t = "" then "unknownError" else t
          | none => "unknownError") ++ "-" ++ "unknownLocation" := by
    simp [NoCaching.groupKey, hloc]
  refine ⟨_, g, hkey, hkey ▸ hg, ?_⟩
  rw [herr]
  exact List.mem_filter.mpr ⟨he, by simp⟩

/-- C23, at a list with a located record and a record without a location: the latter is in the
group of `parseError-unknownLocation`. -/
theorem generateOutput_tolerates_missing_location_witness :
    Sample.unlocated.location = none ∧
    NoCaching.groupKey Sample.unlocated = "parseError-unknownLocation" ∧
    ∃ errorType g, NoCaching.groupKey Sample.unlocated = errorType ++ "-" ++ "unknownLocation" ∧
      (errorType ++ "-" ++ "unknownLocation", g)
        ∈ NoCaching.groupErrors [Sample.structureError, Sample.unlocated] ∧
      Sample.unlocated ∈ g.errors :=
  ⟨rfl, by decide,
    (generateOutput_tolerates_missing_location (fun _ => "")
      [Sample.structureError, Sample.unlocated]).2.1 Sample.unlocated (by decide) rfl⟩


/-! ## Rendering of the grouped report -/

/-- A text always has a first line. -/
theorem splitLines_ne_nil (cs : List Char) : splitLines cs ≠ [] := by
  cases cs with
  | nil => simp [splitLines]
  | cons c rest =>
    unfold splitLines
    cases splitLines rest with
    | nil => simp
    | cons piece pieces => by_cases h : c = '\n' <;> simp [h]

/-- A leading line feed opens with an empty line. -/
theorem splitLines_cons_newline (b : List Char) :
    splitLines ('\n' :: b) = [] :: splitLines b := by
  conv_lhs => unfold splitLines
  cases hr : splitLines b with
  | nil => exact absurd hr (splitLines_ne_nil b)
  | cons piece pieces => simp

/-- One step of the splitting. -/
theorem splitLines_cons (c : Char) (rest : List Char) :
    splitLines (c :: rest)
      = (match splitLines rest with
        | [] => [[]]
        | piece :: pieces =>
          if c = '\n' then [] :: piece :: pieces else (c :: piece) :: pieces) := by
  conv_lhs => unfold splitLines

/-- The lines of two texts joined by a line feed are the lines of the one, then of the other. -/
theorem splitLines_append_newline (a b : List Char) :
    splitLines (a ++ '\n' :: b) = splitLines a ++ splitLines b := by
  induction a with
  | nil =>
    rw [List.nil_append, splitLines_cons_newline]
    rfl
  | cons c more ih =>
    rw [List.cons_append, splitLines_cons c (more ++ '\n' :: b), splitLines_cons c more, ih]
    cases hm : splitLines more with
    | nil => exact absurd hm (splitLines_ne_nil more)
    | cons piece pieces =>
      by_cases hc : c = '\n' <;> simp [hc]

/-- A text without a line feed is its only line. -/
theorem splitLines_of_clean (cs : List Char) (h : '\n' ∉ cs) : splitLines cs = [cs] := by
  induction cs with
  | nil => rfl
  | cons c rest ih =>
    have hc : c ≠ '\n' := fun hc => h (by simp [hc])
    have hrest : '\n' ∉ rest := fun hr => h (by simp [hr])
    unfold splitLines
    rw [ih hrest]
    simp [hc]

/-- The lines of joined entries are the lines of the entries, in order. -/
theorem renderedLines_joinLines (entries : List String) :
    renderedLines (joinLines entries)
      = entries.flatMap (fun entry => renderedLines entry) := by
  induction entries with
  | nil => simp [joinLines, renderedLines, splitLines, nonBlank]
  | cons e rest ih =>
    cases rest with
    | nil => simp [joinLines]
    | cons n more =>
      have hdata : (joinLines (e :: n :: more)).data
          = e.data ++ '\n' :: (joinLines (n :: more)).data := by
        simp [joinLines, String.data_append]
      unfold renderedLines at ih ⊢
      rw [hdata, splitLines_append_newline, List.filter_append, ih]
      simp [renderedLines]

/-- A decimal digit is not a line feed. -/
theorem digitChar_ne_newline : ∀ k < 10, Nat.digitChar k ≠ '\n' := by
  decide

/-- The digits of a number hold no line feed. -/
theorem toDigitsCore_clean (fuel : Nat) : ∀ (n : Nat) (ds : List Char),
    (∀ c ∈ ds, c ≠ '\n') → ∀ c ∈ Nat.toDigitsCore 10 fuel n ds, c ≠ '\n' := by
  induction fuel with
  | zero =>
    intro n ds hds c hc
    simp [Nat.toDigitsCore] at hc
    exact hds c hc
  | succ f ih =>
    intro n ds hds c hc
    have hcons : ∀ x ∈ Nat.digitChar (n % 10) :: ds, x ≠ '\n' := by
      intro x hx
      rcases List.mem_cons.mp hx with hx | hx
      · rw [hx]; exact digitChar_ne_newline _ (Nat.mod_lt _ (by decide))
      · exact hds x hx
    unfold Nat.toDigitsCore at hc
    by_cases hz : n / 10 = 0
    · simp only [hz, if_true] at hc
      exact hcons c hc
    · simp only [hz, if_false] at hc
      exact ih _ _ hcons c hc

/-- The decimal text of a number holds no line feed. -/
theorem natText_clean (n : Nat) : '\n' ∉ (toString n).data := by
  intro h
  have : ∀ c ∈ Nat.toDigits 10 n, c ≠ '\n' := by
    unfold Nat.toDigits
    exact toDigitsCore_clean _ _ _ (by simp)
  exact this '\n' h rfl

/-- A line that is not blank is kept. -/
theorem filter_nonBlank_single (line : List Char) (h : nonBlank line = true) :
    [line].filter nonBlank = [line] := by
  simp [List.filter, h]

/-- An empty line is dropped and the line after it kept. -/
theorem filter_nonBlank_after_empty (line : List Char) (h : nonBlank line = true) :
    ([] :: [line]).filter nonBlank = [line] := by
  have h0 : nonBlank [] = false := rfl
  simp [List.filter, h, h0]

/-- A header entry renders as one blank line and the header line. -/
theorem renderedLines_header (key : String) (count : Nat) (hkey : '\n' ∉ key.data) :
    renderedLines ("\nError group: " ++ key ++ " (count: " ++ toString count ++ ")")
      = [("Error group: " ++ key ++ " (count: " ++ toString count ++ ")").data] := by
  have hdata : ("\nError group: " ++ key ++ " (count: " ++ toString count ++ ")").data
      = '\n' :: ("Error group: " ++ key ++ " (count: " ++ toString count ++ ")").data := by
    simp only [String.data_append]
    rfl
  have hclean : '\n' ∉ ("Error group: " ++ key ++ " (count: " ++ toString count ++ ")").data := by
    simp only [String.data_append, List.mem_append, not_or]
    exact ⟨⟨⟨⟨by decide, hkey⟩, by decide⟩, natText_clean count⟩, by decide⟩
  have hnb : nonBlank ("Error group: " ++ key ++ " (count: " ++ toString count ++ ")").data
      = true := by
    simp only [String.data_append, nonBlank, List.any_append]
    have : ("Error group: ".data).any (fun c => !c.isWhitespace) = true := by decide
    simp [this]
  unfold renderedLines
  rw [hdata, splitLines_cons_newline, splitLines_of_clean _ hclean]
  exact filter_nonBlank_after_empty _ hnb

/-- A record entry renders as its one line. -/
theorem renderedLines_row (level message : String) (hlevel : '\n' ∉ level.data)
    (hmessage : '\n' ∉ message.data) :
    renderedLines ("  - Level: " ++ level ++ ", Message: " ++ message)
      = [("  - Level: " ++ level ++ ", Message: " ++ message).data] := by
  have hclean : '\n' ∉ ("  - Level: " ++ level ++ ", Message: " ++ message).data := by
    simp only [String.data_append, List.mem_append, not_or]
    exact ⟨⟨⟨by decide, hlevel⟩, by decide⟩, hmessage⟩
  have hnb : nonBlank ("  - Level: " ++ level ++ ", Message: " ++ message).data = true := by
    simp only [String.data_append, nonBlank, List.any_append]
    have : ("  - Level: ".data).any (fun c => !c.isWhitespace) = true := by decide
    simp [this]
  unfold renderedLines
  rw [splitLines_of_clean _ hclean]
  exact filter_nonBlank_single _ hnb

/-- The record entries of a group render as one line each. -/
theorem renderedLines_rows (errors : List ErrorRecord)
    (hclean : ∀ e ∈ errors, '\n' ∉ (jsText e.level).data ∧ '\n' ∉ (jsText e.message).data) :
    (errors.map (fun error =>
        "  - Level: " ++ jsText error.level ++ ", Message: " ++ jsText error.message)).flatMap
        (fun entry => renderedLines entry)
      = errors.map (fun error =>
        ("  - Level: " ++ jsText error.level ++ ", Message: " ++ jsText error.message).data) := by
  induction errors with
  | nil => rfl
  | cons e rest ih =>
    have he := hclean e (by simp)
    have hrest : ∀ x ∈ rest, '\n' ∉ (jsText x.level).data ∧ '\n' ∉ (jsText x.message).data :=
      fun x hx => hclean x (by simp [hx])
    simp only [List.map_cons, List.flatMap_cons]
    rw [renderedLines_row _ _ he.1 he.2, ih hrest]
    rfl

/-- The report of groups without line feeds in their keys, levels and messages renders as one
header line per group followed by one line per record. -/
theorem renderedLines_report (groupedErrors : GroupedErrors)
    (hclean : ∀ p ∈ groupedErrors, '\n' ∉ p.1.data ∧
      ∀ e ∈ p.2.errors, '\n' ∉ (jsText e.level).data ∧ '\n' ∉ (jsText e.message).data) :
    renderedLines (NoCaching.generateHumanReadableOutput groupedErrors)
      = groupedErrors.flatMap (fun p =>
          ("Error group: " ++ p.1 ++ " (count: " ++ toString p.2.count ++ ")").data ::
            p.2.errors.map (fun error =>
              ("  - Level: " ++ jsText error.level ++ ", Message: "
                ++ jsText error.message).data)) := by
  unfold NoCaching.generateHumanReadableOutput
  rw [renderedLines_joinLines]
  induction groupedErrors with
  | nil => rfl
  | cons p rest ih =>
    have hp := hclean p (by simp)
    have hrest : ∀ q ∈ rest, '\n' ∉ q.1.data ∧
        ∀ e ∈ q.2.errors, '\n' ∉ (jsText e.level).data ∧ '\n' ∉ (jsText e.message).data :=
      fun q hq => hclean q (by simp [hq])
    simp only [List.flatMap_cons, List.flatMap_append]
    rw [ih hrest, renderedLines_header _ _ hp.1, renderedLines_rows _ hp.2]
    rfl

/-- C24, as stated, fails: a group with one record whose message holds a line feed renders as
three lines that are not blank, the header and two for the one record. -/
theorem generateHumanReadableOutput_breaks_message_lines :
    renderedLines (NoCaching.generateHumanReadableOutput Sample.twoLineMessageReport)
      = ["Error group: unknownError-unknownLocation (count: 1)".data,
         "  - Level: error, Message: first".data, "second".data] ∧
    (renderedLines (NoCaching.generateHumanReadableOutput Sample.twoLineMessageReport)).length
      ≠ 1 + 1 := by
  decide

/-- C24, amended. For every grouped report whose keys, levels and messages hold no line feed,
`generateHumanReadableOutput` (the same in both variants) renders, for each group in the order
`for...in` visits them, a header line `Error group: <key> (count: N)` with the count of the
group, followed by exactly one line `  - Level: <level>, Message: <message>` per record of the
group, in the order of the group, and no other line that is not blank. -/
theorem generateHumanReadableOutput_lines (groupedErrors : GroupedErrors)
    (hclean : ∀ p ∈ groupedErrors, '\n' ∉ p.1.data ∧
      ∀ e ∈ p.2.errors, '\n' ∉ (jsText e.level).data ∧ '\n' ∉ (jsText e.message).data) :
    renderedLines (NoCaching.generateHumanReadableOutput groupedErrors)
      = groupedErrors.flatMap (fun p =>
          ("Error group: " ++ p.1 ++ " (count: " ++ toString p.2.count ++ ")").data ::
            p.2.errors.map (fun error =>
              ("  - Level: " ++ jsText error.level ++ ", Message: "
                ++ jsText error.message).data)) ∧
    Caching.generateHumanReadableOutput groupedErrors
      = NoCaching.generateHumanReadableOutput groupedErrors :=
  ⟨renderedLines_report groupedErrors hclean, rfl⟩

/-- C24 amended, at the report with the two schema errors in one group. -/
theorem generateHumanReadableOutput_lines_witness :
    (∀ p ∈ Sample.groupedReport, '\n' ∉ p.1.data ∧
      ∀ e ∈ p.2.errors, '\n' ∉ (jsText e.level).data ∧ '\n' ∉ (jsText e.message).data) ∧
    renderedLines (NoCaching.generateHumanReadableOutput Sample.groupedReport)
      = ["Error group: schemaValidationError-a.xml:3:7 (count: 2)".data,
         "  - Level: error, Message: unexpected element".data,
         "  - Level: error, Message: not a number".data] :=
  ⟨by decide, (generateHumanReadableOutput_lines Sample.groupedReport (by decide)).1⟩

/-! ## The type dispatch (C31) -/

/-- A validator that is handed `undefined` as its results list and an array as its simple type
never returns `false`: its rejecting paths all end in the `push`. -/
theorem reject_undefined (entry : Except JsError Violation) :
    NoCaching.reject none entry
      = .error (.typeError "Cannot read properties of undefined (reading 'push')") := by
  rfl

/-- With an array as the simple type the bound and pattern checks find no facet. -/
theorem checkRange_array (noun kind : String) (parse : String → Option Int)
    (regExpTest : RegExpTest) (entry : String → Except JsError Violation) (parsed : Option Int)
    (elementValue : String) (entries : List Violation)
    (validationResults : Option (List Violation)) :
    NoCaching.Dynamic.checkRange noun kind parse regExpTest entry parsed elementValue
      (.array entries) validationResults = .ok (some true, validationResults) := by
  rfl

/-- C31. `validateSimpleType` does not report into the list it was handed.  It passes every
validator two arguments, so the validator holds the results list as its simple type and
`undefined` as its results list: base type `decimal` with `abc` and `boolean` with `yes` throw a
TypeError at the `push`; for no base type and no value does the call return `false`, and whenever
it returns the list is as it was.  A passing integer returns `undefined`, not `true`; `time` and
`dateTime` throw a ReferenceError for every value. -/
theorem validateSimpleType_never_reports (library : NoCaching.Collaborators)
    (baseType elementValue : String) (validationResults : List Violation) :
    NoCaching.validateSimpleType library "decimal" "abc" validationResults
      = .error (.typeError "Cannot read properties of undefined (reading 'push')") ∧
    NoCaching.validateSimpleType library "boolean" "yes" validationResults
      = .error (.typeError "Cannot read properties of undefined (reading 'push')") ∧
    (∀ r, NoCaching.validateSimpleType library baseType elementValue validationResults = .ok r →
      r.1 ≠ some false ∧ r.2 = validationResults) ∧
    NoCaching.validateSimpleType library "integer" "42" validationResults
      = .ok (none, validationResults) ∧
    NoCaching.validateSimpleType library "decimal" "12.5" validationResults
      = .ok (some true, validationResults) ∧
    NoCaching.validateSimpleType library "time" elementValue validationResults
      = .error (unresolvable "parsedDate") ∧
    NoCaching.validateSimpleType library "dateTime" elementValue validationResults
      = .error (unresolvable "parseISO") := by
  refine ⟨rfl, rfl, ?_, rfl, rfl, rfl, rfl⟩
  intro r hr
  unfold NoCaching.validateSimpleType at hr
  simp only at hr
  split_ifs at hr with h1 h2 h3 h4 h5 h6 h7
  · unfold NoCaching.Dynamic.validateInteger at hr
    split_ifs at hr <;> first | (rw [reject_undefined] at hr; cases hr) | (cases hr; exact ⟨by simp, rfl⟩)
  · unfold NoCaching.Dynamic.validateString at hr
    simp only [NoCaching.SimpleTypeArg.restrictions] at hr
    cases hr; exact ⟨by simp, rfl⟩
  · unfold NoCaching.Dynamic.validateDecimal at hr
    simp only [NoCaching.SimpleTypeArg.restrictions] at hr
    split_ifs at hr <;> first | (rw [reject_undefined] at hr; cases hr) | (cases hr; exact ⟨by simp, rfl⟩)
  · unfold NoCaching.Dynamic.validateBoolean at hr
    split_ifs at hr <;> first | (rw [reject_undefined] at hr; cases hr) | (cases hr; exact ⟨by simp, rfl⟩)
  · unfold NoCaching.Dynamic.validateDate at hr
    simp only [checkRange_array] at hr
    split_ifs at hr <;> first | (rw [reject_undefined] at hr; cases hr) | (cases hr; exact ⟨by simp, rfl⟩)
  · cases hr
  · cases hr
  · cases hr

/-- On a simple type and a results array the general embedding of `validateDecimal` is the one
used for the facet claims. -/
theorem dynamic_validateDecimal_typed (elementValue : String) (simpleType : SimpleType)
    (validationResults : List Violation) (element : Option XmlNode) :
    NoCaching.Dynamic.validateDecimal elementValue (.simpleType simpleType)
        (some validationResults) element
      = .ok (some (NoCaching.validateDecimal elementValue simpleType validationResults element).1,
          some (NoCaching.validateDecimal elementValue simpleType validationResults element).2) := by
  unfold NoCaching.Dynamic.validateDecimal NoCaching.validateDecimal
  simp only [NoCaching.SimpleTypeArg.restrictions, NoCaching.reject, NoCaching.pushEntry]
  split_ifs <;> rfl

/-- On a simple type and a results array the general embedding of `validateBoolean` is the one
used for the facet claims. -/
theorem dynamic_validateBoolean_typed (elementValue : String) (simpleType : SimpleType)
    (validationResults : List Violation) :
    NoCaching.Dynamic.validateBoolean elementValue (.simpleType simpleType)
        (some validationResults)
      = (NoCaching.validateBoolean elementValue simpleType validationResults).map
          (fun r => (some r.1, some r.2)) := by
  unfold NoCaching.Dynamic.validateBoolean NoCaching.validateBoolean
  simp only [NoCaching.reject, NoCaching.pushEntry]
  split_ifs <;> rfl

/-- On a simple type and a results array the general embedding of `validateString` is the one
used for the facet claims. -/
theorem dynamic_validateString_typed (regExpTest : RegExpTest) (elementValue : String)
    (simpleType : SimpleType) (validationResults : List Violation) (element : Option XmlNode) :
    NoCaching.Dynamic.validateString regExpTest elementValue (.simpleType simpleType)
        (some validationResults) element
      = (NoCaching.validateString regExpTest elementValue simpleType validationResults
          element).map (fun r => (some r.1, some r.2)) := by
  unfold NoCaching.Dynamic.validateString NoCaching.validateString
  simp only [NoCaching.SimpleTypeArg.restrictions, NoCaching.reject, NoCaching.pushEntry]
  split_ifs
  · rfl
  · rfl
  · cases (simpleType.restrictions.getD {}).pattern with
    | none => rfl
    | some pattern =>
      simp only
      cases regExpTest pattern elementValue with
      | error e => rfl
      | ok b => cases b <;> rfl

/-! ## Schema extraction and the schema walk (C32, C33, C37) -/

/-- An element declaration without children holds no element of a sequence. -/
theorem sequenceElementsOf_leaf (parentName : Option String) (ns : Option String)
    (name : String) (attrs : List (String × String)) (text : String) :
    Caching.sequenceElementsOf parentName (.mk ns name attrs text []) = [] := by
  simp [Caching.sequenceElementsOf, Caching.sequenceElementsOfList]

/-- The query finds the declared elements of a sequence, each with the name of the node above
the sequence. -/
theorem sequenceElementsOfList_sequence (parentName : Option String) (names : List String) :
    Caching.sequenceElementsOfList (some xsNamespace) "sequence" parentName
        (names.map (fun n => Sample.xs "element" [("name", n)] []))
      = names.map (fun n => (Sample.xs "element" [("name", n)] [], parentName)) := by
  induction names with
  | nil => simp [Caching.sequenceElementsOfList]
  | cons n rest ih =>
    simp only [List.map_cons, Caching.sequenceElementsOfList, Sample.xs,
      sequenceElementsOf_leaf]
    simp only [Sample.xs] at ih
    rw [ih]
    simp [XmlNode.isXs, XmlNode.name, XmlNode.ns]

/-- In a schema of complex types the grandparent of every sequence element is a node called
`complexType`. -/
theorem sequenceElementsOf_schemaOf (types : List (String × List String)) :
    Caching.sequenceElementsOf none (Sample.schemaOf types).root
      = (types.flatMap (fun t => t.2)).map
          (fun n => (Sample.xs "element" [("name", n)] [], some "complexType")) := by
  have hone : ∀ t : String × List String,
      Caching.sequenceElementsOf (some "schema") (Sample.complexType t.1 t.2)
        = t.2.map (fun n => (Sample.xs "element" [("name", n)] [], some "complexType")) := by
    intro t
    have hseq := sequenceElementsOfList_sequence (some "complexType") t.2
    simp only [Sample.complexType, Sample.xs, Caching.sequenceElementsOf,
      Caching.sequenceElementsOfList] at hseq ⊢
    rw [hseq]
    simp [XmlNode.isXs, XmlNode.name]
  have h : ∀ ts : List (String × List String),
      Caching.sequenceElementsOfList (some xsNamespace) "schema" none
          (ts.map (fun t => Sample.complexType t.1 t.2))
        = (ts.flatMap (fun t => t.2)).map
            (fun n => (Sample.xs "element" [("name", n)] [], some "complexType")) := by
    intro ts
    induction ts with
    | nil => simp [Caching.sequenceElementsOfList]
    | cons t rest ih =>
      rw [List.map_cons, Caching.sequenceElementsOfList, ih, hone t]
      simp
  simpa [Sample.schemaOf, Sample.xs, Caching.sequenceElementsOf] using h types

/-- Recording elements that all have the grandparent `complexType` appends their names to the one
entry `complexType`. -/
theorem recordElements_one_key (names : List String) (order : List (Option String)) :
    Caching.recordElements [("complexType", order)]
        (names.map (fun n => (Sample.xs "element" [("name", n)] [], some "complexType")))
      = .ok [("complexType", order ++ names.map some)] := by
  induction names generalizing order with
  | nil => simp [Caching.recordElements]
  | cons n rest ih =>
    have hl : lookup [("complexType", order)] "complexType" = .own order := by
      simp [lookup]
    simp only [List.map_cons, Caching.recordElements, NoCaching.recordElement, hl]
    simp only [List.map_cons, List.map_nil, if_true]
    rw [ih]
    simp [XmlNode.attr, XmlNode.attrs, Sample.xs]

/-- For a schema of complex types the caching extraction yields one entry, under the key
`complexType`, with the element names of all the types in document order. -/
theorem caching_extract_schemaOf (types : List (String × List String)) :
    Caching.extractElementOrderFromXsd (Sample.schemaOf types)
      = .ok (if types.flatMap (fun t => t.2) = [] then []
          else [("complexType", (types.flatMap (fun t => t.2)).map some)]) := by
  unfold Caching.extractElementOrderFromXsd
  rw [sequenceElementsOf_schemaOf]
  cases hn : types.flatMap (fun t => t.2) with
  | nil => simp [Caching.recordElements]
  | cons n rest =>
    have hl : lookup [] "complexType" = .undefined := by decide
    simp only [List.map_cons, Caching.recordElements, NoCaching.recordElement, hl]
    simp only [List.nil_append]
    have := recordElements_one_key rest [some n]
    simp only [XmlNode.attr, XmlNode.attrs, Sample.xs, List.find?, beq_self_eq_true,
      Option.map] at this ⊢
    simpa using this

/-- For a schema of complex types the query of the no-caching extraction matches nothing and the
map is empty. -/
theorem nocaching_extract_schemaOf (types : List (String × List String)) :
    NoCaching.extractElementOrderFromXsd (Sample.schemaOf types) = .ok [] := by
  unfold NoCaching.extractElementOrderFromXsd NoCaching.sequenceElements
  have h : ∀ ts : List (String × List String),
      (ts.map (fun t => Sample.complexType t.1 t.2)).filter
        (fun e => e.isXs "element" && e.attr "name" == some "sequence") = [] := by
    intro ts
    rw [List.filter_eq_nil_iff]
    intro a ha
    obtain ⟨t, _, rfl⟩ := List.mem_map.mp ha
    simp [Sample.complexType, Sample.xs, XmlNode.isXs, XmlNode.name]
  have hroot : (Sample.schemaOf types).root.isXs "schema" = true := by
    simp [Sample.schemaOf, Sample.xs, XmlNode.isXs, XmlNode.name, XmlNode.ns]
  have hchildren : (Sample.schemaOf types).root.children
      = types.map (fun t => Sample.complexType t.1 t.2) := rfl
  rw [if_pos hroot, hchildren, h types]
  rfl

/-- C32. `extractElementOrderFromXsd` keys the order map by the tag name of the node above the
sequence, not by the name of the complex type: for every schema made of complex types with their
sequences, the caching variant yields the single entry `complexType`, which holds the element
names of all the types one after the other, and the no-caching variant, whose query asks for
sequences below elements named `sequence`, yields the empty map.  For the types `Invoice` and
`Customer` neither name has an entry. -/
theorem extractElementOrderFromXsd_keys_by_tag_name (types : List (String × List String)) :
    Caching.extractElementOrderFromXsd (Sample.schemaOf types)
      = .ok (if types.flatMap (fun t => t.2) = [] then []
          else [("complexType", (types.flatMap (fun t => t.2)).map some)]) ∧
    NoCaching.extractElementOrderFromXsd (Sample.schemaOf types) = .ok [] ∧
    Caching.extractElementOrderFromXsd Sample.twoTypes
      = .ok [("complexType", [some "number", some "date", some "name"])] ∧
    lookup [("complexType", [some "number", some "date", some "name"])] "Invoice" = .undefined ∧
    lookup [("complexType", [some "number", some "date", some "name"])] "Customer"
      = .undefined :=
  ⟨caching_extract_schemaOf types, nocaching_extract_schemaOf types, rfl, by decide, by decide⟩

/-- On a node called `element` the caching walk calls no handler: it records the node, pushes
its name onto the hierarchy and throws at the call of `children`. -/
theorem caching_traverseNode_element (handlers : Caching.Handlers) (ns : Option String)
    (attrs : List (String × String)) (text : String) (children : List XmlNode)
    (state : Caching.WalkState) :
    Caching.traverseNode handlers (.mk ns "element" attrs text children) state
      = ({ state with
            unknownElements := state.unknownElements ++ [⟨"element", attrs⟩]
            elementHierarchy := state.elementHierarchy ++ ["element"] },
          some (.typeError "element.children is not a function")) := by
  unfold Caching.traverseNode
  simp only [ne_eq, not_true_eq_false, if_false]
  have h1 : ("element" = "complexType") = False := by decide
  have h2 : ("element" = "simpleType") = False := by decide
  have h3 : ("element" = "attribute") = False := by decide
  have h4 : ("element" = "anyType") = False := by decide
  simp only [h1, h2, h3, h4, if_false]
  rfl

/-- On a node of another name the caching walk returns at its guard. -/
theorem caching_traverseNode_other (handlers : Caching.Handlers) (ns : Option String)
    (name : String) (attrs : List (String × String)) (text : String) (children : List XmlNode)
    (state : Caching.WalkState) (h : name ≠ "element") :
    Caching.traverseNode handlers (.mk ns name attrs text children) state = (state, none) := by
  simp [Caching.traverseNode, h]

/-- C37. The caching `traverse` never changes the order map, the schema data or the validation
results, whatever it is handed and whatever the handlers are, and it calls no handler.  But
`unknownElements` is not the only accumulator it can grow: a node of another name than `element`
ends the call at the guard with every accumulator as it was, and on a node called `element` the
call records the node, pushes its name onto `elementHierarchy` and then throws a TypeError at
`element.children()`, which leaves the hierarchy one name longer. -/
theorem caching_traverse_frame (handlers : Caching.Handlers) (input : Caching.SchemaInput)
    (ns : Option String) (name : String) (attrs : List (String × String)) (text : String)
    (children : List XmlNode) (state : Caching.WalkState) :
    (Caching.traverse handlers input state).1.elementOrderMap = state.elementOrderMap ∧
    (Caching.traverse handlers input state).1.schemaData = state.schemaData ∧
    (Caching.traverse handlers input state).1.validationResults = state.validationResults ∧
    (∃ added, (Caching.traverse handlers input state).1.unknownElements
      = state.unknownElements ++ added) ∧
    (name ≠ "element" →
      Caching.traverse handlers (.node (.mk ns name attrs text children)) state
        = (state, none)) ∧
    Caching.traverse handlers (.node (.mk ns "element" attrs text children)) state
      = ({ state with
            unknownElements := state.unknownElements ++ [⟨"element", attrs⟩]
            elementHierarchy := state.elementHierarchy ++ ["element"] },
          some (.typeError "element.children is not a function")) := by
  have hcases : ∀ e : XmlNode,
      Caching.traverseNode handlers e state = (state, none) ∨
      Caching.traverseNode handlers e state
        = ({ state with
              unknownElements := state.unknownElements ++ [⟨"element", e.attrs⟩]
              elementHierarchy := state.elementHierarchy ++ ["element"] },
            some (.typeError "element.children is not a function")) := by
    intro e
    obtain ⟨u, n, a, t, cs⟩ := e
    by_cases h : n = "element"
    · subst h
      exact Or.inr (caching_traverseNode_element handlers u a t cs state)
    · exact Or.inl (caching_traverseNode_other handlers u n a t cs state h)
  refine ⟨?_, ?_, ?_, ?_, fun h => caching_traverseNode_other handlers ns name attrs text
    children state h, caching_traverseNode_element handlers ns attrs text children state⟩
  all_goals
    cases input with
    | node e =>
      rcases hcases e with he | he
      · simp only [Caching.traverse, he]
        try exact ⟨[], by simp⟩
      · simp only [Caching.traverse, he]
        try exact ⟨_, rfl⟩
    | _ => first | rfl | exact ⟨[], by simp [Caching.traverse]⟩

/-- C37 at the schema node `<xs:element name="book">` with empty accumulators: the call throws,
and the hierarchy holds the name it pushed. -/
theorem caching_traverse_frame_witness :
    Caching.traverse Sample.idleHandlers (.node Sample.elementTree) Sample.emptyWalk
      = ({ Sample.emptyWalk with
            unknownElements := [⟨"element", [("name", "book")]⟩]
            elementHierarchy := ["element"] },
          some (.typeError "element.children is not a function")) :=
  (caching_traverse_frame Sample.idleHandlers .null (some xsNamespace) "element"
    [("name", "book")] "" [Sample.xs "element" [("name", "a")] []] Sample.emptyWalk).2.2.2.2.2

/-- C33. `traverse` does not visit every node.  In both variants a node of any name other than
`element`, such as the root `schema`, ends the call at the guard: nothing is recorded and no
child is visited, so a `schema` root with an unrecognized child leaves the unknown-elements list
empty.  On a node called `element` the no-caching variant throws. -/
theorem traverse_stops_at_other_names (handlers : Caching.Handlers)
    (state : Caching.WalkState) (ns : Option String) (name : String)
    (attrs : List (String × String)) (text : String) (children : List XmlNode) :
    Caching.traverse handlers (.node (.mk ns "schema" attrs text children)) state
      = (state, none) ∧
    NoCaching.traverse handlers (.node (.mk ns "schema" attrs text children)) state
      = (state, .ok ⟨true, [], ⟨0, 0, 0⟩⟩) ∧
    (name ≠ "element" →
      Caching.traverse handlers (.node (.mk ns name attrs text children)) state
        = (state, none) ∧
      NoCaching.traverse handlers (.node (.mk ns name attrs text children)) state
        = (state, .ok ⟨true, [], ⟨0, 0, 0⟩⟩)) ∧
    (∃ after e, NoCaching.traverse handlers (.node (.mk ns "element" attrs text children)) state
      = (after, .error e)) ∧
    (Caching.traverse Sample.idleHandlers
        (.node (Sample.xs "schema" [] [Sample.xs "annotation" [] []]))
        Sample.emptyWalk).1.unknownElements
      = [] := by
  refine ⟨?_, ?_, ?_, ?_, rfl⟩
  · simp [Caching.traverse, Caching.traverseNode]
  · simp [NoCaching.traverse, NoCaching.traverseNode]
  · intro h
    constructor
    · simp [Caching.traverse, Caching.traverseNode, h]
    · simp [NoCaching.traverse, NoCaching.traverseNode, h]
  · unfold NoCaching.traverse NoCaching.traverseNode
    simp only [ne_eq, not_true_eq_false, if_false]
    have h1 : ("element" = "complexType") = False := by decide
    have h2 : ("element" = "simpleType") = False := by decide
    have h3 : ("element" = "attribute") = False := by decide
    have h4 : ("element" = "anyType") = False := by decide
    simp only [h1, h2, h3, h4, if_false]
    exact ⟨_, _, rfl⟩

/-! ## The order check without an entry (C34) -/

/-- The helper of the caching variant never gets past its first statement either. -/
theorem caching_helper_reads_unset_binding (element : XmlNode) (expectedOrder : Lookup)
    (currentPosition : Nat) :
    Caching.validateElementOrderHelper element expectedOrder currentPosition
      = .error (.referenceError "Cannot access 'currentElementName' before initialization") := by
  cases element
  rfl

/-- The two variants of the document-level order check are the same function. -/
theorem caching_validateElementOrder_eq (xmlDoc : XmlDocument) (elementOrderMap : OrderMap) :
    Caching.validateElementOrder xmlDoc elementOrderMap
      = NoCaching.validateElementOrder xmlDoc elementOrderMap := by
  simp [Caching.validateElementOrder, NoCaching.validateElementOrder,
    caching_helper_reads_unset_binding, helper_reads_unset_binding]

/-- A name that `Object.prototype` defines reads as a defined value in every order map. -/
theorem lookup_of_prototype_member (elementOrderMap : OrderMap) (key : String)
    (h : key ∈ objectPrototypeMembers.map Prod.fst) :
    lookup elementOrderMap key ≠ .undefined := by
  unfold lookup
  cases elementOrderMap.find? (fun p => p.1 == key) with
  | some p => simp
  | none =>
    simp only [objectPrototypeMembers, List.map_cons, List.map_nil, List.mem_cons,
      List.mem_singleton, List.not_mem_nil, or_false] at h
    rcases h with h | h | h | h | h | h | h | h | h | h | h | h <;> subst h <;> decide

/-- C34. `validateElementOrder` completes and reports nothing when the read of the root's name
in the order map is `undefined`; but a root whose name is a member of `Object.prototype`, such
as `constructor`, reads as a defined value also in the empty map, and the call throws the
helper's ReferenceError, in both variants. -/
theorem validateElementOrder_raises_on_inherited_names (xmlDoc : XmlDocument)
    (elementOrderMap : OrderMap) :
    (lookup elementOrderMap xmlDoc.root.name = .undefined →
      NoCaching.validateElementOrder xmlDoc elementOrderMap = .ok () ∧
      Caching.validateElementOrder xmlDoc elementOrderMap = .ok ()) ∧
    (xmlDoc.root.name ∈ objectPrototypeMembers.map Prod.fst →
      NoCaching.validateElementOrder xmlDoc elementOrderMap
        = .error (.referenceError "Cannot access 'currentElementName' before initialization") ∧
      Caching.validateElementOrder xmlDoc elementOrderMap
        = .error (.referenceError "Cannot access 'currentElementName' before initialization")) ∧
    NoCaching.validateElementOrder ⟨.mk none "constructor" [] "" [.mk none "item" [] "" []]⟩ []
      = .error (.referenceError "Cannot access 'currentElementName' before initialization") ∧
    Caching.validateElementOrder ⟨.mk none "constructor" [] "" [.mk none "item" [] "" []]⟩ []
      = .error (.referenceError "Cannot access 'currentElementName' before initialization") := by
  refine ⟨?_, ?_, rfl, rfl⟩
  · intro h
    exact ⟨validateElementOrder_of_undefined _ _ h,
      (caching_validateElementOrder_eq _ _).trans (validateElementOrder_of_undefined _ _ h)⟩
  · intro h
    have hd := lookup_of_prototype_member elementOrderMap _ h
    exact ⟨validateElementOrder_of_defined _ _ hd,
      (caching_validateElementOrder_eq _ _).trans (validateElementOrder_of_defined _ _ hd)⟩

/-! ## Conservation under grouping (C35) -/

/-- Counting a record into the group of a key that has no group changes nothing. -/
theorem countInto_absent (G : GroupedErrors) (k : String) (e : ErrorRecord)
    (h : k ∉ G.map Prod.fst) :
    G.map (fun p => if p.1 = k then (p.1, (⟨p.2.count + 1, p.2.errors ++ [e]⟩ : ErrorGroup))
      else p) = G := by
  induction G with
  | nil => rfl
  | cons p rest ih =>
    have hp : p.1 ≠ k := fun hpk => h (by simp [hpk])
    have hrest : k ∉ rest.map Prod.fst := fun hk => h (by simp at hk ⊢; exact Or.inr hk)
    simp [hp, ih hrest]

/-- Counting a record into the group of its key raises the sum of the counts by one. -/
theorem countInto_present (G : GroupedErrors) (k : String) (e : ErrorRecord)
    (hnodup : (G.map Prod.fst).Nodup) (h : k ∈ G.map Prod.fst) :
    ((G.map (fun p => if p.1 = k then (p.1, (⟨p.2.count + 1, p.2.errors ++ [e]⟩ : ErrorGroup))
      else p)).map (fun p => p.2.count)).sum = (G.map (fun p => p.2.count)).sum + 1 := by
  induction G with
  | nil => simp at h
  | cons p rest ih =>
    rw [List.map_cons, List.nodup_cons] at hnodup
    by_cases hp : p.1 = k
    · have hrest : k ∉ rest.map Prod.fst := hp ▸ hnodup.1
      rw [List.map_cons, countInto_absent rest k e hrest]
      simp [hp]
      omega
    · have hrest : k ∈ rest.map Prod.fst := by
        rw [List.map_cons, List.mem_cons] at h
        rcases h with h | h
        · exact absurd h.symm hp
        · exact h
      rw [List.map_cons, List.map_cons, List.sum_cons, ih hnodup.2 hrest]
      simp [hp]
      omega

/-- One round of the grouping loop raises the sum of the counts by one. -/
theorem counts_addToGroup (G : GroupedErrors) (k : String) (e : ErrorRecord)
    (hnodup : (G.map Prod.fst).Nodup) :
    ((addToGroup G k e).map (fun p => p.2.count)).sum = (G.map (fun p => p.2.count)).sum + 1 := by
  unfold addToGroup
  by_cases hany : G.any (fun p => p.1 == k) = true
  · simp only [hany, if_true]
    apply countInto_present G k e hnodup
    obtain ⟨p, hp, hk⟩ := List.any_eq_true.mp hany
    exact List.mem_map.mpr ⟨p, hp, by simpa using hk⟩
  · simp [hany]

/-- The grouping loop raises the sum of the counts by the number of records it is given. -/
theorem counts_foldl (keyOf : ErrorRecord → String) (l seen : List ErrorRecord)
    (G : GroupedErrors) (h : Grouped keyOf seen G) :
    ((l.foldl (fun groupedErrors error => addToGroup groupedErrors (keyOf error) error) G).map
      (fun p => p.2.count)).sum = (G.map (fun p => p.2.count)).sum + l.length := by
  induction l generalizing seen G with
  | nil => simp
  | cons e rest ih =>
    rw [List.foldl_cons, ih (seen ++ [e]) _ (grouped_add keyOf seen G e h),
      counts_addToGroup G (keyOf e) e h.1]
    simp
    omega

/-- What the grouping invariant says about a list and its groups: every record is in exactly one
group, the one of its key; a group holds the records of its key in input order, counted; the
counts add up to the number of records. -/
theorem conserved_of_grouped (keyOf : ErrorRecord → String) (l : List ErrorRecord)
    (G : GroupedErrors) (h : Grouped keyOf l G)
    (hsum : (G.map (fun p => p.2.count)).sum = l.length) :
    (∀ e ∈ l, ∃! p, p ∈ G ∧ e ∈ p.2.errors) ∧
    (∀ p ∈ G, p.2.count = p.2.errors.length) ∧
    (G.map (fun p => p.2.count)).sum = l.length ∧
    (∀ p ∈ G, p.2.errors = l.filter (fun e => decide (keyOf e = p.1))) := by
  obtain ⟨hnodup, hgroups, hall⟩ := h
  refine ⟨?_, fun p hp => (hgroups p.1 p.2 hp).2.1, hsum, fun p hp => (hgroups p.1 p.2 hp).1⟩
  intro e he
  obtain ⟨g, hg⟩ := hall e he
  refine ⟨(keyOf e, g), ⟨hg, ?_⟩, ?_⟩
  · rw [(hgroups _ g hg).1]
    exact List.mem_filter.mpr ⟨he, by simp⟩
  · rintro ⟨k, g2⟩ ⟨hmem, hin⟩
    rw [(hgroups k g2 hmem).1] at hin
    have hk : keyOf e = k := by simpa using (List.mem_filter.mp hin).2
    exact List.inj_on_of_nodup_map hnodup hmem hg (by simp [hk])

/-- The caching grouping loop throws at the first record without a `location`. -/
theorem caching_groupErrors_error (l : List ErrorRecord) (G : GroupedErrors)
    (h : ∃ e ∈ l, e.location = none) :
    Caching.groupErrors l G
      = .error (.typeError "Cannot read properties of undefined (reading 'file')") := by
  induction l generalizing G with
  | nil => simp at h
  | cons e rest ih =>
    unfold Caching.groupErrors
    cases hl : e.location with
    | none => simp [Caching.groupKey, hl]
    | some loc =>
      have hrest : ∃ x ∈ rest, x.location = none := by
        obtain ⟨x, hx, hxl⟩ := h
        rw [List.mem_cons] at hx
        rcases hx with hx | hx
        · subst hx
          rw [hl] at hxl
          cases hxl
        · exact ⟨x, hx, hxl⟩
      simp only [Caching.groupKey, hl]
      exact ih _ hrest

/-- On a list with a record that has no `location` the grouping of the caching variant throws
and puts no record in any group. -/
theorem caching_generateOutput_raises_without_location :
    Caching.groupErrors [Sample.structureError, Sample.unlocated] []
      = .error (.typeError "Cannot read properties of undefined (reading 'file')") := by
  rfl

/-- C35. The grouping of the no-caching `generateOutput` conserves the records of every list:
each record is in exactly one group, every count is the length of the group's `errors`, the
counts add up to the number of records, and a group holds the records of its key in input
order.  The caching variant does the same on a list whose records all have a `location`, but
on a list with a record without one, for which the no-caching variant takes the key
`unknownLocation`, it reads `.file` of `undefined`, throws a TypeError and groups nothing. -/
theorem generateOutput_conserves_records (validationErrors : List ErrorRecord) :
    ((∀ e ∈ validationErrors, ∃! p, p ∈ NoCaching.groupErrors validationErrors ∧ e ∈ p.2.errors) ∧
      (∀ p ∈ NoCaching.groupErrors validationErrors, p.2.count = p.2.errors.length) ∧
      ((NoCaching.groupErrors validationErrors).map (fun p => p.2.count)).sum
        = validationErrors.length ∧
      (∀ p ∈ NoCaching.groupErrors validationErrors,
        p.2.errors = validationErrors.filter
          (fun e => decide (NoCaching.groupKey e = p.1)))) ∧
    ((∀ e ∈ validationErrors, e.location ≠ none) →
      ∃ G, Caching.groupErrors validationErrors [] = .ok G ∧
        (∀ e ∈ validationErrors, ∃! p, p ∈ G ∧ e ∈ p.2.errors) ∧
        (∀ p ∈ G, p.2.count = p.2.errors.length) ∧
        (G.map (fun p => p.2.count)).sum = validationErrors.length ∧
        (∀ p ∈ G, p.2.errors = validationErrors.filter
          (fun e => decide (cachingKeyText e = p.1)))) ∧
    ((∃ e ∈ validationErrors, e.location = none) →
      Caching.groupErrors validationErrors []
        = .error (.typeError "Cannot read properties of undefined (reading 'file')")) := by
  refine ⟨?_, ?_, ?_⟩
  · apply conserved_of_grouped _ _ _ (groupErrors_grouped validationErrors)
    have h := counts_foldl NoCaching.groupKey validationErrors [] [] (grouped_nil _)
    simpa [NoCaching.groupErrors] using h
  · intro hloc
    refine ⟨_, caching_groupErrors_eq validationErrors [] hloc, ?_⟩
    have hg := grouped_foldl cachingKeyText validationErrors [] [] (grouped_nil _)
    rw [List.nil_append] at hg
    apply conserved_of_grouped _ _ _ hg
    have h := counts_foldl cachingKeyText validationErrors [] [] (grouped_nil _)
    simpa using h
  · exact caching_groupErrors_error validationErrors []

/-- C35 at a list of three records with two keys, one of them without `location`: the
no-caching grouping conserves them. -/
theorem generateOutput_conserves_records_witness :
    ((NoCaching.groupErrors [Sample.structureError, Sample.unlocated, Sample.datatypeError]).map
      (fun p => (p.1, p.2.count, p.2.errors)))
      = [("schemaValidationError-a.xml:3:7", 2, [Sample.structureError, Sample.datatypeError]),
         ("parseError-unknownLocation", 1, [Sample.unlocated])] ∧
    ((NoCaching.groupErrors [Sample.structureError, Sample.unlocated, Sample.datatypeError]).map
      (fun p => p.2.count)).sum = 3 :=
  ⟨by decide,
    (generateOutput_conserves_records
      [Sample.structureError, Sample.unlocated, Sample.datatypeError]).1.2.2.1⟩

/-! ## The cache frame (C36) -/

/-- The method `set` on one path leaves the entry of every other path as it was. -/
theorem entry_set_other {α : Type} (c : Caching.XsdCache α) (p q : String) (m : α) (t : Int)
    (hpq : p ≠ q) : (c.set p m t).entry q = c.entry q := by
  unfold Caching.XsdCache.set
  by_cases hp : p = "__proto__"
  · have hq : q ≠ "__proto__" := fun h => hpq (hp.trans h.symm)
    simp [hp, Caching.XsdCache.entry, hq]
  · simp only [hp, if_false]
    by_cases hq : q = "__proto__"
    · split <;> simp [Caching.XsdCache.entry, hq]
    · have hmap : ∀ l : List (String × Caching.CacheEntry α),
          (l.map (fun x => if x.1 = p then (x.1, (⟨m, t⟩ : Caching.CacheEntry α))
              else x)).find? (fun x => x.1 == q) = l.find? (fun x => x.1 == q) := by
        intro l
        induction l with
        | nil => rfl
        | cons x rest ih =>
          by_cases hx : x.1 = p
          · have hxq : (x.1 == q) = false := by simp [hx, hpq]
            simp only [List.map_cons, hx, if_true, List.find?, hxq]
            have hpq2 : (p == q) = false := by simp [hpq]
            simp only [hpq2]
            exact ih
          · simp only [List.map_cons, hx, if_false, List.find?]
            cases (x.1 == q) with
            | true => rfl
            | false => exact ih
      split
      · simp only [Caching.XsdCache.entry, hq, if_false, hmap]
      · have hb : (p == q) = false := by simp [hpq]
        simp [Caching.XsdCache.entry, hq, List.find?_append, List.find?, hb]

/-- The method `invalidate` on one path leaves the entry of every other path as it was. -/
theorem entry_invalidate_other {α : Type} (c : Caching.XsdCache α) (p q : String)
    (hpq : p ≠ q) : (c.invalidate p).entry q = c.entry q := by
  unfold Caching.XsdCache.invalidate Caching.XsdCache.entry
  by_cases hq : q = "__proto__"
  · simp [hq]
  · simp only [hq, if_false]
    congr 1
    induction c.cache with
    | nil => rfl
    | cons x rest ih =>
      by_cases hx : x.1 = p
      · have hf : (x.1 != p) = false := by simp [hx]
        have hxq : (x.1 == q) = false := by simp [hx, hpq]
        simp only [List.filter_cons, hf, List.find?_cons, hxq]
        exact ih
      · have hf : (x.1 != p) = true := by simp [hx]
        simp only [List.filter_cons, hf, if_true, List.find?_cons]
        cases (x.1 == q) with
        | true => rfl
        | false => exact ih

/-- C36. For distinct paths `p` and `q`, `set(p, m)` and `invalidate(p)` leave the entry of `q`
as it was, document and timestamp, and with it what `get(q)` returns; `get` leaves the cache as
it is, also when the entry it reads is stale and it returns null. -/
theorem cache_frame {α : Type} (c : Caching.XsdCache α) (p q : String) (m : α)
    (t now : Int) (hpq : p ≠ q) :
    (c.set p m t).entry q = c.entry q ∧
    (c.invalidate p).entry q = c.entry q ∧
    (c.set p m t).get q now = c.get q now ∧
    (c.invalidate p).get q now = c.get q now ∧
    (c.getCall q now).2 = c ∧
    (∀ e, c.entry q = some e → c.cacheExpiration ≤ now - e.timestamp →
      c.getCall q now = (none, c)) := by
  have h1 := entry_set_other c p q m t hpq
  have h2 := entry_invalidate_other c p q hpq
  refine ⟨h1, h2, ?_, ?_, rfl, ?_⟩
  · simp only [Caching.XsdCache.get, h1, cacheExpiration_set]
  · simp only [Caching.XsdCache.get, h2]
    rfl
  · intro e he hstale
    have hn : ¬ (now - e.timestamp < c.cacheExpiration) := by omega
    simp [Caching.XsdCache.getCall, Caching.XsdCache.get, he, hn]

/-- C36 at the cache that holds `order.xsd`, with `invoice.xsd` set and invalidated. -/
theorem cache_frame_witness :
    "invoice.xsd" ≠ "order.xsd" ∧
    (Sample.cacheAfterFirstCall.set "invoice.xsd" Sample.bookSchema 7).get "order.xsd" 1000
      = Sample.cacheAfterFirstCall.get "order.xsd" 1000 ∧
    (Sample.cacheAfterFirstCall.invalidate "invoice.xsd").get "order.xsd" 1000
      = Sample.cacheAfterFirstCall.get "order.xsd" 1000 :=
  ⟨by decide,
    (cache_frame Sample.cacheAfterFirstCall "invoice.xsd" "order.xsd" Sample.bookSchema 7 1000
      (by decide)).2.2.1,
    (cache_frame Sample.cacheAfterFirstCall "invoice.xsd" "order.xsd" Sample.bookSchema 7 1000
      (by decide)).2.2.2.1⟩

/-! ## The element stack (C38, C39) -/

/-- A `pop` right after a `push` gives back the stack as it was. -/
theorem pop_push {α : Type} (stack : NoCaching.ElementStack α) (x : α) :
    (stack.push x).pop = (some x, stack) := by
  rfl

/-- A `peek` right after a `push` sees the pushed value. -/
theorem peek_push {α : Type} (stack : NoCaching.ElementStack α) (x : α) :
    (stack.push x).peek = some x := by
  rfl

/-- The loop of the stack-based check leaves the stack as it found it and appends one entry per
child whose name is not the value stored under that name, in order. -/
theorem checkChildren_eq (elementOrderMap : String → NoCaching.PropertyValue) (children : List XmlNode)
    (stack : NoCaching.ElementStack String) (validationResults : List NoCaching.OrderViolation) :
    NoCaching.StackBased.checkChildren elementOrderMap children stack validationResults
      = (stack, validationResults ++
          (children.filter
            (fun child => decide (NoCaching.PropertyValue.text child.name ≠ elementOrderMap child.name))).map
            (orderViolationOf elementOrderMap)) := by
  induction children generalizing validationResults with
  | nil => simp [NoCaching.StackBased.checkChildren]
  | cons child rest ih =>
    unfold NoCaching.StackBased.checkChildren
    simp only [pop_push, peek_push, jsString]
    rw [ih]
    by_cases h : NoCaching.PropertyValue.text child.name = elementOrderMap child.name
    · simp [h]
    · simp [h, orderViolationOf]

/-- C38. The stack-based `validateElementOrder` does not reach its loop on a parsed element:
the loop header calls `element.children()`, which a parsed element does not offer.  For every
element, order map and results list the call throws a TypeError with its stack empty and
`validationResults` as it was, so it appends nothing, the closing entry `Nicht alle erwarteten
Elemente wurden gefunden.` included, however many children have a name that differs from the
value stored under that name.  The loop body by itself, run over a list of children, leaves the
stack as it found it and appends one entry per such child, in order, each carrying its child. -/
theorem stackBased_validateElementOrder_counts (element : XmlNode)
    (elementOrderMap : String → NoCaching.PropertyValue)
    (validationResults : List NoCaching.OrderViolation) (children : List XmlNode)
    (stack : NoCaching.ElementStack String) :
    NoCaching.StackBased.validateElementOrder element elementOrderMap validationResults
      = ((NoCaching.ElementStack.new, validationResults),
          some (.typeError "element.children is not a function")) ∧
    (NoCaching.StackBased.validateElementOrder element elementOrderMap
        validationResults).1.1.isEmpty = true ∧
    (NoCaching.StackBased.validateElementOrder element elementOrderMap
        validationResults).1.2.length = validationResults.length ∧
    NoCaching.StackBased.checkChildren elementOrderMap children stack validationResults
      = (stack, validationResults ++
          (children.filter
            (fun child =>
              decide (NoCaching.PropertyValue.text child.name ≠ elementOrderMap child.name))).map
            (orderViolationOf elementOrderMap)) ∧
    (∀ v ∈ (NoCaching.StackBased.checkChildren elementOrderMap children stack
        validationResults).2,
      v ∈ validationResults ∨ ∃ child ∈ children, v.element = some child) := by
  refine ⟨rfl, rfl, rfl, checkChildren_eq elementOrderMap children stack validationResults, ?_⟩
  intro v hv
  rw [checkChildren_eq] at hv
  simp only [List.mem_append, List.mem_map] at hv
  rcases hv with hv | ⟨child, hchild, rfl⟩
  · exact Or.inl hv
  · exact Or.inr ⟨child, (List.mem_filter.mp hchild).1, rfl⟩

/-- C38 at `<r><a/><b/><c/></r>` with `a` stored under `a`, an array under `b` and nothing
under `c`: two children differ from the value stored under their name, and the call throws
with no entry appended. -/
theorem stackBased_validateElementOrder_counts_witness :
    (Sample.threeChildren.children.filter
      (fun child =>
        decide (NoCaching.PropertyValue.text child.name ≠ Sample.stringOrder child.name))).length
      = 2 ∧
    (NoCaching.StackBased.validateElementOrder Sample.threeChildren Sample.stringOrder
        []).1.2.length = 0 ∧
    (NoCaching.StackBased.validateElementOrder Sample.threeChildren Sample.stringOrder []).2
      = some (.typeError "element.children is not a function") :=
  ⟨by decide,
    (stackBased_validateElementOrder_counts Sample.threeChildren Sample.stringOrder [] []
      NoCaching.ElementStack.new).2.2.1,
    rfl⟩

/-- The loop of `getElements` appends the data of the nodes to what it has collected. -/
theorem collectFrom_append {α : Type} (top : NoCaching.NodeRef α) (elements : List α) :
    NoCaching.ElementStack.collectFrom top elements = elements ++ NoCaching.ElementStack.collectFrom top [] := by
  induction top generalizing elements with
  | null => simp [NoCaching.ElementStack.collectFrom]
  | node data next ih =>
    simp only [NoCaching.ElementStack.collectFrom, List.nil_append]
    rw [ih (elements ++ [data]), ih [data]]
    simp

/-- The count of the loop of `size` is the start value plus the number of nodes. -/
theorem countFrom_eq {α : Type} (top : NoCaching.NodeRef α) (count : Nat) :
    NoCaching.ElementStack.countFrom top count = count + (NoCaching.ElementStack.collectFrom top []).length := by
  induction top generalizing count with
  | null => simp [NoCaching.ElementStack.countFrom, NoCaching.ElementStack.collectFrom]
  | node data next ih =>
    simp only [NoCaching.ElementStack.countFrom, NoCaching.ElementStack.collectFrom, List.nil_append]
    rw [ih, collectFrom_append next [data]]
    simp
    omega

/-- The elements of a stack after a `push`. -/
theorem getElements_push {α : Type} (stack : NoCaching.ElementStack α) (x : α) :
    (stack.push x).getElements = x :: stack.getElements := by
  unfold NoCaching.ElementStack.getElements NoCaching.ElementStack.push
  simp only [NoCaching.ElementStack.collectFrom, List.nil_append]
  rw [collectFrom_append]
  simp

/-- The elements of a stack after pushing a list. -/
theorem getElements_pushAll {α : Type} (xs : List α) (stack : NoCaching.ElementStack α) :
    (pushAll xs stack).getElements = xs.reverse ++ stack.getElements := by
  induction xs generalizing stack with
  | nil => rfl
  | cons x rest ih =>
    unfold pushAll
    rw [List.foldl_cons]
    have := ih (stack.push x)
    unfold pushAll at this
    rw [this, getElements_push]
    simp

/-- The size of a stack is the number of its elements. -/
theorem size_eq_length {α : Type} (stack : NoCaching.ElementStack α) :
    stack.size = stack.getElements.length := by
  unfold NoCaching.ElementStack.size NoCaching.ElementStack.getElements
  rw [countFrom_eq]
  simp

/-- The top of a stack is the first of its elements. -/
theorem peek_eq_head {α : Type} (stack : NoCaching.ElementStack α) :
    stack.peek = stack.getElements.head? := by
  obtain ⟨top⟩ := stack
  cases top with
  | null => rfl
  | node data next =>
    unfold NoCaching.ElementStack.peek NoCaching.ElementStack.getElements
    simp only [NoCaching.ElementStack.collectFrom, List.nil_append]
    rw [collectFrom_append]
    rfl

/-- As many pops as pushes give back the pushed values, last one first, and the stack as it
was. -/
theorem popMany_pushAll {α : Type} (xs : List α) (stack : NoCaching.ElementStack α) :
    popMany xs.length (pushAll xs stack) = (xs.reverse.map some, stack) := by
  induction xs using List.reverseRecOn with
  | nil => rfl
  | append_singleton rest x ih =>
    have hpush : pushAll (rest ++ [x]) stack = (pushAll rest stack).push x := by
      simp [pushAll, List.foldl_append]
    rw [hpush, List.length_append, List.length_singleton, popMany, pop_push, ih]
    simp

/-- C39. `ElementStack` is last-in-first-out: after pushing `x1, ..., xn` onto a new stack,
`getElements` returns `[xn, ..., x1]`, `size` returns `n` and `peek` returns `xn` (null when
`n = 0`); `n` successive pops return `xn, ..., x1` and leave the stack empty; on an empty stack
`pop` and `peek` return null and the stack stays empty. -/
theorem elementStack_is_lifo {α : Type} (xs : List α) :
    (pushAll xs NoCaching.ElementStack.new).getElements = xs.reverse ∧
    (pushAll xs NoCaching.ElementStack.new).size = xs.length ∧
    (pushAll xs NoCaching.ElementStack.new).peek = xs.getLast? ∧
    popMany xs.length (pushAll xs NoCaching.ElementStack.new) = (xs.reverse.map some, NoCaching.ElementStack.new) ∧
    (NoCaching.ElementStack.new : NoCaching.ElementStack α).pop = (none, NoCaching.ElementStack.new) ∧
    (NoCaching.ElementStack.new : NoCaching.ElementStack α).peek = none ∧
    (NoCaching.ElementStack.new : NoCaching.ElementStack α).isEmpty = true := by
  have h : (pushAll xs NoCaching.ElementStack.new).getElements = xs.reverse := by
    rw [getElements_pushAll]
    simp [NoCaching.ElementStack.getElements, NoCaching.ElementStack.new, NoCaching.ElementStack.collectFrom]
  refine ⟨h, ?_, ?_, popMany_pushAll xs _, rfl, rfl, rfl⟩
  · rw [size_eq_length, h, List.length_reverse]
  · rw [peek_eq_head, h, List.head?_reverse]


/-- C39 at the pushes of 1, 2 and 3. -/
theorem elementStack_is_lifo_witness :
    (pushAll [1, 2, 3] NoCaching.ElementStack.new).getElements = [3, 2, 1] ∧
    (pushAll [1, 2, 3] NoCaching.ElementStack.new).size = 3 ∧
    (pushAll [1, 2, 3] NoCaching.ElementStack.new).peek = some 3 ∧
    popMany 3 (pushAll [1, 2, 3] NoCaching.ElementStack.new)
      = ([some 3, some 2, some 1], NoCaching.ElementStack.new) :=
  ⟨(elementStack_is_lifo [1, 2, 3]).1, (elementStack_is_lifo [1, 2, 3]).2.1,
    (elementStack_is_lifo [1, 2, 3]).2.2.1, (elementStack_is_lifo [1, 2, 3]).2.2.2.1⟩

/-! ## The success report (C40) -/

/-- What the loop over the class records does to the report: it counts every record once, as
successful or failed by its flag, appends one check per record, and sets the status to `failure`
when a record has failed. -/
theorem checkLoop_eq (l : List ClassResult) (checkName : Nat) (r : NoCaching.ReportData) :
    (NoCaching.checkLoop l checkName r).summary.totalChecks = r.summary.totalChecks + l.length ∧
    (NoCaching.checkLoop l checkName r).summary.successfulChecks
      = r.summary.successfulChecks + (l.filter (fun c => c.isValid)).length ∧
    (NoCaching.checkLoop l checkName r).summary.failedChecks
      = r.summary.failedChecks + (l.filter (fun c => !c.isValid)).length ∧
    (NoCaching.checkLoop l checkName r).validationChecks.length
      = r.validationChecks.length + l.length ∧
    (NoCaching.checkLoop l checkName r).status
      = (if l.all (fun c => c.isValid) then r.status else "failure") := by
  induction l generalizing checkName r with
  | nil => simp [NoCaching.checkLoop]
  | cons c rest ih =>
    cases hc : c.isValid
    · simp only [NoCaching.checkLoop, hc]
      refine ⟨?_, ?_, ?_, ?_, ?_⟩
      · rw [(ih _ _).1]; simp; omega
      · rw [(ih _ _).2.1]; simp [hc]
      · rw [(ih _ _).2.2.1]; simp [hc]; omega
      · rw [(ih _ _).2.2.2.1]; simp; omega
      · rw [(ih _ _).2.2.2.2]; simp [hc]
    · simp only [NoCaching.checkLoop, hc]
      refine ⟨?_, ?_, ?_, ?_, ?_⟩
      · rw [(ih _ _).1]; simp; omega
      · rw [(ih _ _).2.1]; simp [hc]; omega
      · rw [(ih _ _).2.2.1]; simp [hc]
      · rw [(ih _ _).2.2.2.1]; simp; omega
      · rw [(ih _ _).2.2.2.2]; simp [hc]

/-- Every class record is either valid or failed. -/
theorem valid_and_failed_count (l : List ClassResult) :
    (l.filter (fun c => c.isValid)).length + (l.filter (fun c => !c.isValid)).length
      = l.length := by
  induction l with
  | nil => rfl
  | cons c rest ih =>
    cases hc : c.isValid <;> simp [List.filter, hc] <;> omega

/-- C40. For every list of class records `generateValidationSuccessReport` returns the report
data it built unless the write of the report file throws, and in that data `summary.totalChecks`
is `successfulChecks + failedChecks`, is the number of records and is the length of
`validationChecks`; its `status` is `success` exactly when every record is valid. -/
theorem generateValidationSuccessReport_summary (stringify : GroupedErrors → String)
    (writeFileSync : String → String → Except JsError Unit) (validationTime : String)
    (validationResults : List ClassResult) (xmlFilePath xsdFilePath : String) :
    NoCaching.generateValidationSuccessReport stringify writeFileSync validationTime
        validationResults xmlFilePath xsdFilePath
      = (writeFileSync "./FW_test_logs/validation_success.txt"
          (NoCaching.generateOutput stringify (validationResults.map NoCaching.asErrorRecord)
            "json")).map
          (fun _ => NoCaching.buildReportData validationTime validationResults xmlFilePath
            xsdFilePath) ∧
    (NoCaching.buildReportData validationTime validationResults xmlFilePath
        xsdFilePath).summary.totalChecks
      = (NoCaching.buildReportData validationTime validationResults xmlFilePath
            xsdFilePath).summary.successfulChecks
          + (NoCaching.buildReportData validationTime validationResults xmlFilePath
            xsdFilePath).summary.failedChecks ∧
    (NoCaching.buildReportData validationTime validationResults xmlFilePath
        xsdFilePath).summary.totalChecks = validationResults.length ∧
    (NoCaching.buildReportData validationTime validationResults xmlFilePath
        xsdFilePath).validationChecks.length = validationResults.length ∧
    ((NoCaching.buildReportData validationTime validationResults xmlFilePath
        xsdFilePath).status = "success" ↔ ∀ c ∈ validationResults, c.isValid = true) ∧
    (NoCaching.buildReportData validationTime validationResults xmlFilePath
        xsdFilePath).summary.successfulChecks
      = (validationResults.filter (fun c => c.isValid)).length := by
  obtain ⟨h1, h2, h3, h4, h5⟩ := checkLoop_eq validationResults 0
    ⟨xmlFilePath, xsdFilePath, validationTime, "success", [], ⟨0, 0, 0⟩⟩
  have hsplit := valid_and_failed_count validationResults
  unfold NoCaching.buildReportData
  refine ⟨?_, ?_, ?_, ?_, ?_, ?_⟩
  · simp only [NoCaching.generateValidationSuccessReport, NoCaching.buildReportData]
    split <;> simp_all [Except.map]
  · rw [h1, h2, h3]; simp; omega
  · rw [h1]; simp
  · rw [h4]; simp
  · rw [h5]
    by_cases hall : validationResults.all (fun c => c.isValid) = true
    · simp only [hall, if_true, true_iff]
      simpa using hall
    · simp only [hall]
      constructor
      · intro h; exact absurd h (by decide)
      · intro h; exact absurd (by simpa using h) hall
  · rw [h2]; simp

/-- C40 at three class records of which the second has failed, with a file system that accepts
the write. -/
theorem generateValidationSuccessReport_summary_witness :
    NoCaching.generateValidationSuccessReport (fun _ => "") Sample.writable
        "2024-01-01T00:00:00.000Z" Sample.threeRecords "a.xml" "a.xsd"
      = .ok (NoCaching.buildReportData "2024-01-01T00:00:00.000Z" Sample.threeRecords "a.xml"
          "a.xsd") ∧
    (NoCaching.buildReportData "2024-01-01T00:00:00.000Z" Sample.threeRecords "a.xml"
        "a.xsd").summary = ⟨3, 2, 1⟩ ∧
    (NoCaching.buildReportData "2024-01-01T00:00:00.000Z" Sample.threeRecords "a.xml"
        "a.xsd").status = "failure" :=
  ⟨(generateValidationSuccessReport_summary (fun _ => "") Sample.writable
      "2024-01-01T00:00:00.000Z" Sample.threeRecords "a.xml" "a.xsd").1,
    by decide, by decide⟩

end XmlXsdVal
